import Mathlib

/-!
# MPU9250 inertial sensor driver: FIFO ingestion pipeline

A shallow embedding of `libraries/AP_InertialSensor/AP_InertialSensor_MPU9250.cpp`.

Modelling conventions.

* The driver object is a `State` record that is passed explicitly through every
  operation.  Besides the C++ members it carries two bookkeeping fields:
  `tape`, the replies the bus will give to the next fallible bus operations
  (consumed in call order, an exhausted tape answers "failed"), and `trace`,
  the list of calls the driver has made to its collaborators (the `AP_HAL`
  device, the scheduler, the console and the `AP_InertialSensor_Backend`
  front-end), oldest first.
* Bytes and registers are natural numbers reduced `% 256` where the C++ value
  is a `uint8_t`; `int16_t` values are integers in the signed 16-bit range.
* `float` values are modelled by exact rationals, so rounding is not modelled.
* Time is not modelled: the timestamp argument of the accel notification is
  left out of the trace and delays appear only as calls.
* Constants, filters and helpers that live in other files of the repository
  (`GRAVITY_MSS`, the clip threshold, the low-pass filters,
  `_rotate_and_correct_*`) are fields of `Config`.
* Members whose declarations are in the header (`int16_t _raw_temp`,
  `uint8_t _last_stat_user_ctrl`, `uint8_t _accum.count`) have the types the
  code uses them at.
-/

namespace MPU9250

/-! ## Register map and constants (lines 79-87, 118, 126-135, 154-156, 190-192) -/

def MPUREG_FIFO_EN : Nat := 0x23
def BIT_TEMP_FIFO_EN : Nat := 0x80
def BIT_XG_FIFO_EN : Nat := 0x40
def BIT_YG_FIFO_EN : Nat := 0x20
def BIT_ZG_FIFO_EN : Nat := 0x10
def BIT_ACCEL_FIFO_EN : Nat := 0x08
def MPUREG_TEMP_OUT_H : Nat := 0x41
def MPUREG_USER_CTRL : Nat := 0x6A
def BIT_USER_CTRL_FIFO_RESET : Nat := 0x04
def BIT_USER_CTRL_FIFO_EN : Nat := 0x40
def MPUREG_FIFO_COUNTH : Nat := 0x72
def MPUREG_FIFO_R_W : Nat := 0x74

def MPU_SAMPLE_SIZE : Nat := 14
def MPU_FIFO_DOWNSAMPLE_COUNT : Nat := 8
def MPU_FIFO_BUFFER_LEN : Nat := 16

/-- GYRO_SCALE, line 201: `0.0174532f / 16.4f`. -/
def GYRO_SCALE : ℚ := (174532 / 10000000) / (164 / 10)

/-! ## Data model -/

/-- Bus speed of `AP_HAL::Device`. -/
inductive Speed where
  | SPEED_HIGH
  | SPEED_LOW
  deriving DecidableEq

/-- Bus type of `AP_HAL::Device` as far as the driver distinguishes it. -/
inductive BusType where
  | BUS_TYPE_I2C
  | BUS_TYPE_SPI
  deriving DecidableEq

/-- Three-component vector (`Vector3f`), with exact rational components. -/
structure Vector3f where
  x : ℚ
  y : ℚ
  z : ℚ
  deriving DecidableEq

/-- The zero vector (`Vector3f::zero`). -/
def Vector3f.zero : Vector3f := ⟨0, 0, 0⟩

/-- Component-wise sum (`operator +=`). -/
def Vector3f.add (a b : Vector3f) : Vector3f := ⟨a.x + b.x, a.y + b.y, a.z + b.z⟩

/-- Multiplication by a scalar (`operator *=`). -/
def Vector3f.scale (a : Vector3f) (k : ℚ) : Vector3f := ⟨a.x * k, a.y * k, a.z * k⟩

/-- Vector built from three integer components, as `Vector3f(int, int, int)`. -/
def Vector3f.ofInts (a b c : Int) : Vector3f := ⟨(a : ℚ), (b : ℚ), (c : ℚ)⟩

/-- Squared Euclidean length. -/
def Vector3f.length_squared (a : Vector3f) : ℚ := a.x * a.x + a.y * a.y + a.z * a.z

/-- Calls made by the driver to its collaborators, in the order they are made. -/
inductive Event where
  | set_speed (speed : Speed)
  | write_register (reg val : Nat) (checked : Bool)
  | read_registers (reg size : Nat) (ok : Bool)
  | set_chip_select (set : Bool)
  | transfer (send_len recv_len : Nat) (ok : Bool)
  | check_next_register (ok : Bool)
  | delay_microseconds (us : Nat)
  | debug_temp_reset (raw_temp t2 : Int)
  | debug_stop_at (n_samples total : Nat)
  | console_fifo_read_error (bytes : Nat)
  | notify_new_accel_raw_sample (accel : Vector3f) (fsync_set : Bool)
  | notify_new_gyro_raw_sample (gyro : Vector3f)
  | increment_clip_count
  | inc_gyro_error_count
  | inc_accel_error_count
  deriving DecidableEq

/-- One reply of the bus to a fallible operation: success flag and the bytes
delivered (ignored when the operation failed or delivers no data). -/
structure Reply where
  ok : Bool
  data : List Nat
  deriving DecidableEq

/-- Internal memory of a low-pass filter object. -/
abbrev FilterState := List ℚ

/-- The `_accum` member: accumulators for fast sampling. -/
structure Accum where
  accel : Vector3f
  gyro : Vector3f
  count : Nat
  accel_filter : FilterState
  gyro_filter : FilterState
  deriving DecidableEq

/-- Driver instance state (members of `AP_InertialSensor_MPU9250`) together with
the bus reply tape and the call trace. -/
structure State where
  _last_stat_user_ctrl : Nat
  _raw_temp : Int
  _temp_filtered : ℚ
  _temp_filter : FilterState
  _accum : Accum
  _fifo_buffer : List Nat
  tape : List Reply
  trace : List Event
  deriving DecidableEq

/-- Values fixed at start-up and collaborators defined outside this file.
`clip_limit` is the value of the constant initialiser at line 470
(`AP_INERTIAL_SENSOR_ACCEL_CLIP_THRESH_MSS / MPU9250_ACCEL_SCALE_1G` as an
`int32_t`); the filter fields are the `apply` methods of the three low-pass
filter members, acting on the filter memory. -/
structure Config where
  bus_type : BusType
  _fast_sampling : Bool
  GRAVITY_MSS : ℚ
  clip_limit : Int
  rotate_and_correct_accel : Vector3f → Vector3f
  rotate_and_correct_gyro : Vector3f → Vector3f
  accel_filter_apply : FilterState → Vector3f → FilterState × Vector3f
  gyro_filter_apply : FilterState → Vector3f → FilterState × Vector3f
  temp_filter_apply : FilterState → ℚ → FilterState × ℚ

/-- MPU9250_ACCEL_SCALE_1G, line 30: `GRAVITY_MSS / 2048.0f`. -/
def MPU9250_ACCEL_SCALE_1G (cfg : Config) : ℚ := cfg.GRAVITY_MSS / 2048

/-! ## Byte decoding (lines 194-195) -/

/-- Conversion of a 16-bit pattern to `int16_t`. -/
def toInt16 (u : Nat) : Int :=
  if u % 65536 < 32768 then ((u % 65536 : Nat) : Int) else ((u % 65536 : Nat) : Int) - 65536

/-- The macro `uint16_val(v, idx)`: big-endian 16-bit word `idx` of `v`. -/
def uint16_val (v : List Nat) (idx : Nat) : Nat :=
  ((v.getD (2 * idx) 0 % 256) <<< 8) ||| (v.getD (2 * idx + 1) 0 % 256)

/-- The macro `int16_val(v, idx)`: big-endian signed 16-bit word `idx` of `v`. -/
def int16_val (v : List Nat) (idx : Nat) : Int :=
  toInt16 (uint16_val v idx)

/-! ## Device capability -/

/-- Append one call to the trace. -/
def emit (e : Event) (s : State) : State :=
  { s with trace := s.trace ++ [e] }

/-- Take the next bus reply from the tape; an exhausted tape answers failure. -/
def next_reply (s : State) : Reply × State :=
  match s.tape with
  | [] => (⟨false, []⟩, s)
  | r :: rest => (r, { s with tape := rest })

/-- The first `size` bytes of a reply, each reduced to a byte, missing ones zero. -/
def reply_bytes (data : List Nat) (size : Nat) : List Nat :=
  (List.range size).map (fun j => data.getD j 0 % 256)

/-- Overwrite the front of a buffer with `bytes`. -/
def store (bytes buf : List Nat) : List Nat :=
  bytes ++ buf.drop bytes.length

/-- Call `_dev->set_speed`. -/
def set_speed (speed : Speed) (s : State) : State :=
  emit (.set_speed speed) s

/-- Call `_dev->set_chip_select`. -/
def set_chip_select (set : Bool) (s : State) : State :=
  emit (.set_chip_select set) s

/-- Call `_dev->read_registers(reg, buf, size)`: the bytes read, or `none` on failure. -/
def read_registers (reg size : Nat) (s : State) : Option (List Nat) × State :=
  let r := next_reply s
  if r.1.ok then (some (reply_bytes r.1.data size), emit (.read_registers reg size true) r.2)
  else (none, emit (.read_registers reg size false) r.2)

/-- Call `_dev->transfer(send, send_len, recv, recv_len)`: the bytes received, or
`none` on failure. -/
def transfer (send_len recv_len : Nat) (s : State) : Option (List Nat) × State :=
  let r := next_reply s
  if r.1.ok then
    (some (reply_bytes r.1.data recv_len), emit (.transfer send_len recv_len true) r.2)
  else (none, emit (.transfer send_len recv_len false) r.2)

/-- Call `_dev->check_next_register()`. -/
def check_next_register (s : State) : Bool × State :=
  let r := next_reply s
  (r.1.ok, emit (.check_next_register r.1.ok) r.2)

/-- The method `_block_read`, lines 640-644. -/
def _block_read (reg size : Nat) (s : State) : Option (List Nat) × State :=
  read_registers reg size s

/-- The method `_register_write`, lines 653-656; the result of the bus write is
discarded by the driver. -/
def _register_write (reg val : Nat) (checked : Bool) (s : State) : State :=
  emit (.write_register reg val checked) s

/-! ## FIFO Reset Protocol (lines 275-289) -/

/-- The value `user_ctrl` computed at lines 277-278: the shadow with the FIFO
reset and FIFO enable bits cleared, as a `uint8_t`. -/
def cleared_user_ctrl (shadow : Nat) : Nat :=
  (shadow % 256) &&& (255 - (BIT_USER_CTRL_FIFO_RESET ||| BIT_USER_CTRL_FIFO_EN))

/-- The method `_fifo_reset`, lines 275-289. -/
def _fifo_reset (s : State) : State :=
  let user_ctrl := cleared_user_ctrl s._last_stat_user_ctrl
  let s := set_speed .SPEED_LOW s
  let s := _register_write MPUREG_FIFO_EN 0 false s
  let s := _register_write MPUREG_USER_CTRL user_ctrl false s
  let s := _register_write MPUREG_USER_CTRL (user_ctrl ||| BIT_USER_CTRL_FIFO_RESET) false s
  let s := _register_write MPUREG_USER_CTRL (user_ctrl ||| BIT_USER_CTRL_FIFO_EN) false s
  let s := _register_write MPUREG_FIFO_EN
    (BIT_XG_FIFO_EN ||| BIT_YG_FIFO_EN ||| BIT_ZG_FIFO_EN ||| BIT_ACCEL_FIFO_EN ||| BIT_TEMP_FIFO_EN)
    true s
  let s := emit (.delay_microseconds 1) s
  let s := set_speed .SPEED_HIGH s
  { s with _last_stat_user_ctrl := user_ctrl ||| BIT_USER_CTRL_FIFO_EN }

/-! ## Corruption Oracle (lines 541-552) -/

/-- The method `_check_raw_temp`, lines 541-552. -/
def _check_raw_temp (t2 : Int) (s : State) : Bool × State :=
  if (t2 - s._raw_temp).natAbs < 400 then
    (true, s)
  else
    let r := _block_read MPUREG_TEMP_OUT_H 2 s
    let s2 := match r.1 with
      | some trx => { r.2 with _raw_temp := int16_val trx 0 }
      | none => r.2
    (decide ((t2 - s2._raw_temp).natAbs < 400), s2)

/-! ## Sample Converter, Direct (lines 424-457) -/

/-- Lines 437-438 and 480-481: a record failed validation; print the
diagnostic and run the FIFO Reset Protocol. -/
def report_corruption (t2 : Int) (s : State) : State :=
  _fifo_reset (emit (.debug_temp_reset s._raw_temp t2) s)

/-- Lines 430-433 and 441-454: conversion and emission of one accepted record
`data` with raw temperature `t2`. -/
def direct_sample (cfg : Config) (data : List Nat) (t2 : Int) (s : State) : State :=
  let accel := (Vector3f.ofInts (int16_val data 1) (int16_val data 0)
    (-(int16_val data 2))).scale (MPU9250_ACCEL_SCALE_1G cfg)
  let temp : ℚ := ((Int.tdiv t2 340 : Int) : ℚ) + 3653 / 100
  let gyro := (Vector3f.ofInts (int16_val data 5) (int16_val data 4)
    (-(int16_val data 6))).scale GYRO_SCALE
  let accel := cfg.rotate_and_correct_accel accel
  let gyro := cfg.rotate_and_correct_gyro gyro
  let s := emit (.notify_new_accel_raw_sample accel false) s
  let s := emit (.notify_new_gyro_raw_sample gyro) s
  let f := cfg.temp_filter_apply s._temp_filter temp
  { s with _temp_filtered := f.2, _temp_filter := f.1 }

/-- The loop of `_accumulate`, lines 426-455, with `k` iterations left and loop
index `i`.  The result is the value returned at line 439 (`false`) or the fall
through to line 456 (`true`). -/
def _accumulate_loop (cfg : Config) (samples : List Nat) : Nat → Nat → State → Bool × State
  | 0, _, s => (true, s)
  | k + 1, i, s =>
    let data := samples.drop (MPU_SAMPLE_SIZE * i)
    let t2 := int16_val data 3
    let c := _check_raw_temp t2 s
    if c.1 = false then
      (false, report_corruption t2 c.2)
    else
      _accumulate_loop cfg samples k (i + 1) (direct_sample cfg data t2 c.2)

/-- The method `_accumulate`, lines 424-457. -/
def _accumulate (cfg : Config) (samples : List Nat) (n_samples : Nat) (s : State) :
    Bool × State :=
  _accumulate_loop cfg samples n_samples 0 s

/-! ## Sample Converter, Downsampling (lines 467-535) -/

/-- Whether a remapped raw accel vector exceeds the clip limit on some axis,
lines 492-494. -/
def exceeds_clip (cfg : Config) (a : Vector3f) : Bool :=
  decide (|a.x| > (cfg.clip_limit : ℚ)) || decide (|a.y| > (cfg.clip_limit : ℚ)) ||
    decide (|a.z| > (cfg.clip_limit : ℚ))

/-- Lines 487-498: the accel branch of one record, taken when `_accum.count` is
even.  Returns the updated `clipped` flag and state. -/
def fast_accel (cfg : Config) (data : List Nat) (clipped : Bool) (s : State) : Bool × State :=
  if s._accum.count &&& 1 = 0 then
    let a := Vector3f.ofInts (int16_val data 1) (int16_val data 0) (-(int16_val data 2))
    let f := cfg.accel_filter_apply s._accum.accel_filter a
    (clipped || exceeds_clip cfg a,
      { s with _accum := { s._accum with accel := s._accum.accel.add f.2, accel_filter := f.1 } })
  else
    (clipped, s)

/-- Lines 499-504: the gyro part of one record and the increment of the count. -/
def fast_gyro (cfg : Config) (data : List Nat) (s : State) : State :=
  let g := Vector3f.ofInts (int16_val data 5) (int16_val data 4) (-(int16_val data 6))
  let f := cfg.gyro_filter_apply s._accum.gyro_filter g
  { s with _accum := { s._accum with
      gyro := s._accum.gyro.add f.2, gyro_filter := f.1, count := (s._accum.count + 1) % 256 } }

/-- Lines 506-522: emission of one motion sample when the count reaches
`MPU_FIFO_DOWNSAMPLE_COUNT`. -/
def fast_emit (cfg : Config) (s : State) : State :=
  if s._accum.count = MPU_FIFO_DOWNSAMPLE_COUNT then
    let ascale := MPU9250_ACCEL_SCALE_1G cfg / ((MPU_FIFO_DOWNSAMPLE_COUNT / 2 : Nat) : ℚ)
    let accel := s._accum.accel.scale ascale
    let gscale := GYRO_SCALE / ((MPU_FIFO_DOWNSAMPLE_COUNT : Nat) : ℚ)
    let gyro := s._accum.gyro.scale gscale
    let accel := cfg.rotate_and_correct_accel accel
    let gyro := cfg.rotate_and_correct_gyro gyro
    let s := emit (.notify_new_accel_raw_sample accel false) s
    let s := emit (.notify_new_gyro_raw_sample gyro) s
    { s with _accum := { s._accum with accel := Vector3f.zero, gyro := Vector3f.zero, count := 0 } }
  else
    s

/-- Lines 485-522 without the temperature sum: one accepted record in
fast-sampling mode.  Returns the updated `clipped` flag and state. -/
def fast_sample (cfg : Config) (data : List Nat) (clipped : Bool) (s : State) : Bool × State :=
  let a := fast_accel cfg data clipped s
  (a.1, fast_emit cfg (fast_gyro cfg data a.2))

/-- Outcome of the loop of `_accumulate_fast_sampling`: the locals `ret`, `tsum`
and `clipped`, and the driver state. -/
structure FastLoop where
  ret : Bool
  tsum : Int
  clipped : Bool
  s : State
  deriving DecidableEq

/-- The loop of `_accumulate_fast_sampling`, lines 474-523, with `k` iterations
left and loop index `i`. -/
def fast_loop (cfg : Config) (samples : List Nat) :
    Nat → Nat → Int → Bool → State → FastLoop
  | 0, _, tsum, clipped, s => ⟨true, tsum, clipped, s⟩
  | k + 1, i, tsum, clipped, s =>
    let data := samples.drop (MPU_SAMPLE_SIZE * i)
    let t2 := int16_val data 3
    let c := _check_raw_temp t2 s
    if c.1 = false then
      ⟨false, tsum, clipped, report_corruption t2 c.2⟩
    else
      let a := fast_sample cfg data clipped c.2
      fast_loop cfg samples k (i + 1) (tsum + t2) a.1 a.2

/-- The method `_accumulate_fast_sampling`, lines 467-535. -/
def _accumulate_fast_sampling (cfg : Config) (samples : List Nat) (n_samples : Nat)
    (s : State) : Bool × State :=
  let l := fast_loop cfg samples n_samples 0 0 false s
  let s := if l.clipped then emit .increment_clip_count l.s else l.s
  if l.ret then
    let temp : ℚ := ((Int.tdiv l.tsum (n_samples : Int) : Int) : ℚ) / 340 + 3653 / 100
    let f := cfg.temp_filter_apply s._temp_filter temp
    (true, { s with _temp_filtered := f.2, _temp_filter := f.1 })
  else
    (false, s)

/-! ## FIFO Drain State Machine (lines 558-638) -/

/-- The label `check_registers`, lines 629-637. -/
def check_registers (s : State) : Bool × State :=
  let s := set_speed .SPEED_LOW s
  let c := check_next_register s
  let s := if c.1 = false then
      emit .inc_accel_error_count (emit .inc_gyro_error_count c.2)
    else c.2
  (true, set_speed .SPEED_HIGH s)

/-- Lines 591-610: pull `n` records from the FIFO data port into the working
buffer; `false` is the jump to `check_registers`. -/
def fifo_transfer (cfg : Config) (n : Nat) (s : State) : Bool × State :=
  if cfg.bus_type ≠ .BUS_TYPE_SPI then
    let r := _block_read MPUREG_FIFO_R_W (n * MPU_SAMPLE_SIZE) s
    match r.1 with
    | none => (false, r.2)
    | some bytes => (true, { r.2 with _fifo_buffer := store bytes r.2._fifo_buffer })
  else
    let s := set_chip_select true s
    let t := transfer 1 0 s
    match t.1 with
    | none => (false, set_chip_select false t.2)
    | some _ =>
      let zeroed := store (List.replicate (n * MPU_SAMPLE_SIZE) 0) t.2._fifo_buffer
      let s := { t.2 with _fifo_buffer := zeroed }
      let t := transfer (n * MPU_SAMPLE_SIZE) (n * MPU_SAMPLE_SIZE) s
      match t.1 with
      | none =>
        (false, set_chip_select false (emit (.console_fifo_read_error (n * MPU_SAMPLE_SIZE)) t.2))
      | some bytes =>
        (true, set_chip_select false { t.2 with _fifo_buffer := store bytes t.2._fifo_buffer })

/-- Lines 611-620: hand the drained block to the active converter. -/
def convert (cfg : Config) (n : Nat) (s : State) : Bool × State :=
  if cfg._fast_sampling then
    _accumulate_fast_sampling cfg s._fifo_buffer n s
  else
    _accumulate cfg s._fifo_buffer n s

/-- The `while (n_samples > 0)` loop, lines 589-622.  `fuel` bounds the number
of iterations (each iteration lowers `n_samples`, so `fuel = n_samples` is
enough).  The flag is `false` when the loop left through `goto check_registers`
and `true` when it ended or was left through `break`. -/
def drain (cfg : Config) (bytes_read : Nat) : Nat → Nat → State → Bool × State
  | 0, _, s => (true, s)
  | fuel + 1, n_samples, s =>
    if n_samples > 0 then
      let n := min MPU_FIFO_BUFFER_LEN n_samples
      let x := fifo_transfer cfg n s
      if x.1 = false then
        (false, x.2)
      else
        let c := convert cfg n x.2
        if c.1 = false then
          if cfg._fast_sampling then
            (true, emit (.debug_stop_at n_samples (bytes_read / MPU_SAMPLE_SIZE)) c.2)
          else
            (true, c.2)
        else
          drain cfg bytes_read fuel (n_samples - n) c.2
    else
      (true, s)

/-- Lines 565-570, the `QUERY_COUNT` step: read the two count bytes into the
working buffer and decode `bytes_read`; `none` is the jump to `check_registers`
taken when the read fails. -/
def query_count (s : State) : Option Nat × State :=
  let r := _block_read MPUREG_FIFO_COUNTH 2 s
  match r.1 with
  | none => (none, r.2)
  | some bytes =>
    let s := { r.2 with _fifo_buffer := store bytes r.2._fifo_buffer }
    (some (uint16_val s._fifo_buffer 0), s)

/-- The value assigned to the `uint8_t n_samples` at line 570. -/
def record_count (bytes_read : Nat) : Nat :=
  (bytes_read / MPU_SAMPLE_SIZE) % 256

/-- The method `_read_sample`, lines 558-638. -/
def _read_sample (cfg : Config) (s : State) : Bool × State :=
  let q := query_count s
  match q.1 with
  | none => check_registers q.2
  | some bytes_read =>
    let n_samples := record_count bytes_read
    if n_samples = 0 then
      check_registers q.2
    else
      let need_reset := decide (n_samples > 32)
      let n_samples := if n_samples > 32 then 24 else n_samples
      let d := drain cfg bytes_read n_samples n_samples q.2
      if d.1 = false then
        check_registers d.2
      else
        let s := if need_reset then _fifo_reset d.2 else d.2
        check_registers s

/-! ## The blocks of a tick -/

/-- The record count `n_samples` of line 570 that a tick starting in `s`
obtains, zero when the count read fails. -/
def pending_records (s : State) : Nat :=
  match (query_count s).1 with
  | some bytes_read => record_count bytes_read
  | none => 0

/-- The value of `n_samples` on entry to the drain loop, after the overflow
policy of lines 584-587. -/
def drained_records (s : State) : Nat :=
  if pending_records s > 32 then 24 else pending_records s

/-- Size of the first block of the drain loop. -/
def block1_size (s : State) : Nat := min MPU_FIFO_BUFFER_LEN (drained_records s)

/-- Size of the second block of the drain loop, zero when there is none. -/
def block2_size (s : State) : Nat := drained_records s - block1_size s

/-- State when the first block has been transferred into the working buffer. -/
def block1_in (cfg : Config) (s : State) : State :=
  (fifo_transfer cfg (block1_size s) (query_count s).2).2

/-- State when the converter has returned from the first block. -/
def block1_out (cfg : Config) (s : State) : State :=
  (convert cfg (block1_size s) (block1_in cfg s)).2

/-- State when the second block has been transferred into the working buffer. -/
def block2_in (cfg : Config) (s : State) : State :=
  (fifo_transfer cfg (block2_size s) (block1_out cfg s)).2

/-- State when the converter has returned from the second block. -/
def block2_out (cfg : Config) (s : State) : State :=
  (convert cfg (block2_size s) (block2_in cfg s)).2

/-! ## Observations on call traces -/

/-- A write to the user-control register with the FIFO reset bit set: the
reset pulse, issued once by every run of the FIFO Reset Protocol. -/
def is_reset_pulse : Event → Bool
  | .write_register reg val _ =>
    decide (reg = MPUREG_USER_CTRL) && decide (val &&& BIT_USER_CTRL_FIFO_RESET ≠ 0)
  | _ => false

/-- Number of FIFO reset pulses in a trace. -/
def reset_count (tr : List Event) : Nat := tr.countP is_reset_pulse

/-- The diagnostic printed when a converter gives up on a record. -/
def is_temp_reset : Event → Bool
  | .debug_temp_reset _ _ => true
  | _ => false

/-- Number of reported validation failures in a trace. -/
def validation_failures (tr : List Event) : Nat := tr.countP is_temp_reset

/-- A register read or raw transfer that the bus reported as failed. -/
def is_bus_failure : Event → Bool
  | .read_registers _ _ false => true
  | .transfer _ _ false => true
  | _ => false

/-- Number of failed bus reads and transfers in a trace. -/
def bus_failures (tr : List Event) : Nat := tr.countP is_bus_failure

/-- An accel sample handed to the front-end. -/
def is_accel_sample : Event → Bool
  | .notify_new_accel_raw_sample _ _ => true
  | _ => false

/-- A gyro sample handed to the front-end. -/
def is_gyro_sample : Event → Bool
  | .notify_new_gyro_raw_sample _ => true
  | _ => false

/-- Number of accel samples handed to the front-end. -/
def accel_samples (tr : List Event) : Nat := tr.countP is_accel_sample

/-- Number of gyro samples handed to the front-end. -/
def gyro_samples (tr : List Event) : Nat := tr.countP is_gyro_sample

/-- A call of `increment_clip_count`. -/
def is_clip : Event → Bool
  | .increment_clip_count => true
  | _ => false

/-- Value of the front-end clip counter after a trace, counted from zero. -/
def clip_count (tr : List Event) : Nat := tr.countP is_clip

/-- Value last written to register `reg`, if any. -/
def last_write (reg : Nat) (tr : List Event) : Option Nat :=
  tr.foldl (fun acc e =>
    match e with
    | .write_register r v _ => if r = reg then some v else acc
    | _ => acc) none

/-- Bus speed last selected, if any. -/
def last_speed (tr : List Event) : Option Speed :=
  tr.foldl (fun acc e =>
    match e with
    | .set_speed sp => some sp
    | _ => acc) none

/-- Word `j` (0 to 6) of record `i` of a block: the big-endian signed 16-bit
value at byte offset `14 * i + 2 * j`. -/
def record_word (samples : List Nat) (i j : Nat) : Int :=
  int16_val (samples.drop (MPU_SAMPLE_SIZE * i)) j

/-- Whether record `j` of a block has a raw accel axis beyond the clip limit. -/
def record_clips (cfg : Config) (samples : List Nat) (j : Nat) : Bool :=
  exceeds_clip cfg (Vector3f.ofInts
    (int16_val (samples.drop (MPU_SAMPLE_SIZE * j)) 1)
    (int16_val (samples.drop (MPU_SAMPLE_SIZE * j)) 0)
    (-(int16_val (samples.drop (MPU_SAMPLE_SIZE * j)) 2)))

/-- Whether some contributing record of a block of `n` records clips: a record
contributes to the accel sum when the accumulator count it meets is even, and
record `j` of a block entered with count `c0` meets a count of the parity of
`c0 + j`. -/
def contributing_clip (cfg : Config) (samples : List Nat) (n c0 : Nat) : Bool :=
  (List.range n).any (fun j => decide ((c0 + j) % 2 = 0) && record_clips cfg samples j)

/-- Feed a sequence of blocks `(samples, n_samples)` to
`_accumulate_fast_sampling`, stopping at the first call that returns false. -/
def feed_fast_sampling (cfg : Config) : List (List Nat × Nat) → State → Bool × State
  | [], s => (true, s)
  | b :: rest, s =>
    let r := _accumulate_fast_sampling cfg b.1 b.2 s
    if r.1 = false then (false, r.2) else feed_fast_sampling cfg rest r.2

/-- Total number of records in a sequence of blocks. -/
def total_records (blocks : List (List Nat × Nat)) : Nat :=
  (blocks.map (fun b => b.2)).sum

/-! ## Auxiliary bus (lines 735-892) -/

def MPUREG_I2C_SLV0_ADDR : Nat := 0x25
def MPUREG_I2C_SLV0_DO : Nat := 0x63
def I2C_SLV0_EN : Nat := 0x80
def READ_FLAG : Nat := 0x80

/-- The members of `AP_MPU9250_AuxiliaryBusSlave` used by the driver, all
`uint8_t`. -/
structure AuxiliaryBusSlave where
  _addr : Nat
  _instance : Nat
  _mpu9250_addr : Nat
  _mpu9250_reg : Nat
  _mpu9250_ctrl : Nat
  _mpu9250_do : Nat
  _ext_sens_data : Nat
  deriving DecidableEq

/-- The constructor of `AP_MPU9250_AuxiliaryBusSlave`, lines 735-743. -/
def AuxiliaryBusSlave.create (addr inst : Nat) : AuxiliaryBusSlave :=
  let a := (MPUREG_I2C_SLV0_ADDR + inst * 3) % 256
  { _addr := addr % 256
    _instance := inst % 256
    _mpu9250_addr := a
    _mpu9250_reg := (a + 1) % 256
    _mpu9250_ctrl := (a + 2) % 256
    _mpu9250_do := (MPUREG_I2C_SLV0_DO + inst) % 256
    _ext_sens_data := 0 }

/-- The member `_ext_sens_data` of `AP_MPU9250_AuxiliaryBus`: the number of
bytes of the extended sensor data window handed out so far (a `uint8_t`). -/
structure AuxiliaryBus where
  _ext_sens_data : Nat
  deriving DecidableEq

/-- The method `_set_passthrough`, lines 745-766; `out` is `none` for the null
pointer. -/
def _set_passthrough (slave : AuxiliaryBusSlave) (reg size : Nat) (out : Option Nat)
    (s : State) : Int × State :=
  let s := _register_write slave._mpu9250_ctrl 0 false s
  let a := match out with
    | some v => (slave._addr, _register_write slave._mpu9250_do v false s)
    | none => ((slave._addr ||| READ_FLAG) % 256, s)
  let s := _register_write slave._mpu9250_addr a.1 false a.2
  let s := _register_write slave._mpu9250_reg reg false s
  let s := _register_write slave._mpu9250_ctrl ((I2C_SLV0_EN ||| size) % 256) false s
  (0, s)

/-- Outcome of `_configure_periodic_read`: the value returned and the objects
the call may have modified. -/
structure PeriodicRead where
  ret : Int
  bus : AuxiliaryBus
  slave : AuxiliaryBusSlave
  s : State
  deriving DecidableEq

/-- The method `_configure_periodic_read`, lines 878-892.  The capacity
`MAX_EXT_SENS_DATA` is a constant of the header. -/
def _configure_periodic_read (MAX_EXT_SENS_DATA : Nat) (bus : AuxiliaryBus)
    (slave : AuxiliaryBusSlave) (reg size : Nat) (s : State) : PeriodicRead :=
  if bus._ext_sens_data + size > MAX_EXT_SENS_DATA then
    ⟨-1, bus, slave, s⟩
  else
    let p := _set_passthrough slave reg size none s
    ⟨0, { bus with _ext_sens_data := (bus._ext_sens_data + size) % 256 },
      { slave with _ext_sens_data := bus._ext_sens_data }, p.2⟩

/-- One requested periodic read: the slave object, the register and the size. -/
structure PeriodicRequest where
  slave : AuxiliaryBusSlave
  reg : Nat
  size : Nat
  deriving DecidableEq

/-- A sequence of `_configure_periodic_read` calls on one bus: the outcome of
each call, in order. -/
def configure_all (MAX_EXT_SENS_DATA : Nat) :
    List PeriodicRequest → AuxiliaryBus → State → List PeriodicRead
  | [], _, _ => []
  | c :: rest, bus, s =>
    let r := _configure_periodic_read MAX_EXT_SENS_DATA bus c.slave c.reg c.size s
    r :: configure_all MAX_EXT_SENS_DATA rest r.bus r.s

/-- The bus total after a sequence of calls. -/
def final_total (MAX_EXT_SENS_DATA : Nat) :
    List PeriodicRequest → AuxiliaryBus → State → Nat
  | [], bus, _ => bus._ext_sens_data
  | c :: rest, bus, s =>
    let r := _configure_periodic_read MAX_EXT_SENS_DATA bus c.slave c.reg c.size s
    final_total MAX_EXT_SENS_DATA rest r.bus r.s

/-- The windows `(offset, size)` assigned by the successful calls of a sequence,
in call order; the offset is the one stored in the slave by the call. -/
def assigned_windows (MAX_EXT_SENS_DATA : Nat) :
    List PeriodicRequest → AuxiliaryBus → State → List (Nat × Nat)
  | [], _, _ => []
  | c :: rest, bus, s =>
    let r := _configure_periodic_read MAX_EXT_SENS_DATA bus c.slave c.reg c.size s
    (if r.ret = 0 then [(r.slave._ext_sens_data, c.size)] else []) ++
      assigned_windows MAX_EXT_SENS_DATA rest r.bus r.s

/-- A call of the `AP_HAL` device (as opposed to the scheduler, the console or
the front-end). -/
def is_device_call : Event → Bool
  | .set_speed _ => true
  | .write_register _ _ _ => true
  | .read_registers _ _ _ => true
  | .set_chip_select _ => true
  | .transfer _ _ _ => true
  | .check_next_register _ => true
  | _ => false

/-! ## Outcomes of a tick -/

/-- The value `bytes_read` of line 569 that a tick starting in `s` obtains, zero
when the count read fails. -/
def tick_bytes (s : State) : Nat :=
  match (query_count s).1 with
  | some bytes_read => bytes_read
  | none => 0

/-- Lines 612-615 and 617-619 when the converter has returned false with
`n_samples` records left: the diagnostic of fast-sampling mode, then `break`. -/
def stopped (cfg : Config) (n_samples : Nat) (s0 : State) (x : State) : State :=
  if cfg._fast_sampling then
    emit (.debug_stop_at n_samples (tick_bytes s0 / MPU_SAMPLE_SIZE)) x
  else x

/-- Lines 624-637 for a tick started in `s0` whose loop ended or was left through
`break` in state `x`: the reset of the overflow policy, then the integrity check. -/
def finish (s0 : State) (x : State) : Bool × State :=
  check_registers (if pending_records s0 > 32 then _fifo_reset x else x)

/-- A tick written without the loop, as at most two blocks: the count query,
then the first block (transfer and conversion), then the second block if there
is one, each step guarded as in the source, and the reset of the overflow policy
and the integrity check at the end. -/
def two_block_tick (cfg : Config) (s : State) : Bool × State :=
  if pending_records s = 0 then
    check_registers (query_count s).2
  else if (fifo_transfer cfg (block1_size s) (query_count s).2).1 = false then
    check_registers (block1_in cfg s)
  else if (convert cfg (block1_size s) (block1_in cfg s)).1 = false then
    finish s (stopped cfg (drained_records s) s (block1_out cfg s))
  else if block2_size s = 0 then
    finish s (block1_out cfg s)
  else if (fifo_transfer cfg (block2_size s) (block1_out cfg s)).1 = false then
    check_registers (block2_in cfg s)
  else if (convert cfg (block2_size s) (block2_in cfg s)).1 = false then
    finish s (stopped cfg (block2_size s) s (block2_out cfg s))
  else
    finish s (block2_out cfg s)

/-! ## Classes of calls -/

/-- The state `s'` extends the trace of `s` by calls that all satisfy `p`. -/
def emits (p : Event → Bool) (s s' : State) : Prop :=
  ∃ evs, s'.trace = s.trace ++ evs ∧ ∀ e ∈ evs, p e = true

/-- Calls a converter or the FIFO Reset Protocol can make: the temperature
re-read, the corruption diagnostic, speed changes, register writes, the delay,
sample notifications and clip counting. -/
def is_conversion_event : Event → Bool
  | .read_registers reg size _ => decide (reg = MPUREG_TEMP_OUT_H) && decide (size = 2)
  | .debug_temp_reset _ _ => true
  | .set_speed _ => true
  | .write_register _ _ _ => true
  | .delay_microseconds _ => true
  | .notify_new_accel_raw_sample _ _ => true
  | .notify_new_gyro_raw_sample _ => true
  | .increment_clip_count => true
  | _ => false

/-- Calls the transfer of a block of `n` records can make. -/
def is_transfer_event (n : Nat) : Event → Bool
  | .read_registers reg size _ =>
    decide (reg = MPUREG_FIFO_R_W) && decide (size = n * MPU_SAMPLE_SIZE)
  | .set_chip_select _ => true
  | .transfer a b _ =>
    (decide (a = 1) && decide (b = 0)) ||
      (decide (a = n * MPU_SAMPLE_SIZE) && decide (b = n * MPU_SAMPLE_SIZE))
  | .console_fifo_read_error b => decide (b = n * MPU_SAMPLE_SIZE)
  | _ => false

/-- The read of the FIFO count register. -/
def is_query_event : Event → Bool
  | .read_registers reg size _ => decide (reg = MPUREG_FIFO_COUNTH) && decide (size = 2)
  | _ => false

/-- Calls made between the start of a tick and its integrity check: the count
read, transfers of blocks of 1 to 16 records, converter and reset calls, and the
stop diagnostic. -/
def is_drain_event (e : Event) : Bool :=
  is_query_event e || is_conversion_event e ||
    (List.range 17).any (fun n => decide (1 ≤ n) && is_transfer_event n e) ||
    (match e with
     | .debug_stop_at _ _ => true
     | _ => false)

/-- The calls of the integrity check and of the error counters. -/
def is_integrity_event : Event → Bool
  | .check_next_register _ => true
  | .inc_gyro_error_count => true
  | .inc_accel_error_count => true
  | _ => false

/-- The calls made by the integrity check of lines 629-637 when
`check_next_register` answers `ok`. -/
def integrity_calls (ok : Bool) : List Event :=
  [Event.set_speed .SPEED_LOW, Event.check_next_register ok] ++
    (if ok then [] else [Event.inc_gyro_error_count, Event.inc_accel_error_count]) ++
    [Event.set_speed .SPEED_HIGH]

/-- A failed transfer of FIFO data: the block read of the data port, or a raw
transfer (command byte or data). -/
def is_fifo_failure : Event → Bool
  | .read_registers reg _ false => decide (reg = MPUREG_FIFO_R_W)
  | .transfer _ _ false => true
  | _ => false

/-- Number of failed FIFO data transfers in a trace. -/
def fifo_failures (tr : List Event) : Nat := tr.countP is_fifo_failure

/-- The start of the transfer of a block: the block read of the data port, or
the assertion of chip select. -/
def is_block_start : Event → Bool
  | .read_registers reg _ _ => decide (reg = MPUREG_FIFO_R_W)
  | .set_chip_select true => true
  | _ => false

/-- Number of block transfers started in a trace. -/
def block_starts (tr : List Event) : Nat := tr.countP is_block_start

/-- A call of `check_next_register`. -/
def is_integrity_check : Event → Bool
  | .check_next_register _ => true
  | _ => false

/-- A call of `_inc_gyro_error_count`. -/
def is_gyro_error : Event → Bool
  | .inc_gyro_error_count => true
  | _ => false

/-- A call of `_inc_accel_error_count`. -/
def is_accel_error : Event → Bool
  | .inc_accel_error_count => true
  | _ => false

/-- Number of `check_next_register` calls in a trace. -/
def integrity_checks (tr : List Event) : Nat := tr.countP is_integrity_check

/-- Value of the gyro error counter after a trace, counted from zero. -/
def gyro_errors (tr : List Event) : Nat := tr.countP is_gyro_error

/-- Value of the accel error counter after a trace, counted from zero. -/
def accel_errors (tr : List Event) : Nat := tr.countP is_accel_error

/-! ## Notifications of a block -/

/-- A sample notification, accel or gyro. -/
def is_notification (e : Event) : Bool := is_accel_sample e || is_gyro_sample e

/-- The accel value the Direct converter hands over for record `i` of a block:
words `(w1, w0, -w2)` times the accel scale, rotated. -/
def direct_accel (cfg : Config) (samples : List Nat) (i : Nat) : Vector3f :=
  cfg.rotate_and_correct_accel
    ((Vector3f.ofInts (record_word samples i 1) (record_word samples i 0)
      (-(record_word samples i 2))).scale (MPU9250_ACCEL_SCALE_1G cfg))

/-- The gyro value the Direct converter hands over for record `i` of a block:
words `(w5, w4, -w6)` times the gyro scale, rotated. -/
def direct_gyro (cfg : Config) (samples : List Nat) (i : Nat) : Vector3f :=
  cfg.rotate_and_correct_gyro
    ((Vector3f.ofInts (record_word samples i 5) (record_word samples i 4)
      (-(record_word samples i 6))).scale GYRO_SCALE)

/-- The two notifications of record `i` of a block, accel first. -/
def direct_pair (cfg : Config) (samples : List Nat) (i : Nat) : List Event :=
  [Event.notify_new_accel_raw_sample (direct_accel cfg samples i) false,
   Event.notify_new_gyro_raw_sample (direct_gyro cfg samples i)]

/-- The notifications of records `0 .. k - 1` of a block, in record order. -/
def direct_notifications (cfg : Config) (samples : List Nat) (k : Nat) : List Event :=
  (List.range k).flatMap (direct_pair cfg samples)

/-! ## Windows of the Downsampling converter -/

/-- The raw accel vector of record `j` of a block, remapped as `(w1, w0, -w2)`. -/
def raw_accel (samples : List Nat) (j : Nat) : Vector3f :=
  Vector3f.ofInts (record_word samples j 1) (record_word samples j 0)
    (-(record_word samples j 2))

/-- The raw gyro vector of record `j` of a block, remapped as `(w5, w4, -w6)`. -/
def raw_gyro (samples : List Nat) (j : Nat) : Vector3f :=
  Vector3f.ofInts (record_word samples j 5) (record_word samples j 4)
    (-(record_word samples j 6))

/-- The outputs of a filter with memory `m` fed the inputs `vs` one after the
other. -/
def filter_outputs (f : FilterState → Vector3f → FilterState × Vector3f) :
    FilterState → List Vector3f → List Vector3f
  | _, [] => []
  | m, v :: vs => (f m v).2 :: filter_outputs f (f m v).1 vs

/-- The memory of a filter with memory `m` after the inputs `vs`. -/
def filter_memory (f : FilterState → Vector3f → FilterState × Vector3f) :
    FilterState → List Vector3f → FilterState
  | m, [] => m
  | m, v :: vs => filter_memory f (f m v).1 vs

/-- The vector `a` with the vectors of `l` added one after the other. -/
def Vector3f.sum_from (a : Vector3f) (l : List Vector3f) : Vector3f :=
  l.foldl Vector3f.add a

/-- The accel inputs of `k` records from index `i` of a block met with
accumulator count `c`: the raw accel vectors of the records that meet an even
count. -/
def accel_inputs (samples : List Nat) : Nat → Nat → Nat → List Vector3f
  | _, _, 0 => []
  | i, c, k + 1 =>
    (if c % 2 = 0 then [raw_accel samples i] else []) ++ accel_inputs samples (i + 1) (c + 1) k

/-- The gyro inputs of `k` records from index `i` of a block: the raw gyro
vectors of all of them. -/
def gyro_inputs (samples : List Nat) : Nat → Nat → List Vector3f
  | _, 0 => []
  | i, k + 1 => raw_gyro samples i :: gyro_inputs samples (i + 1) k

/-- The accel sum of a run of `k` accepted records from index `i` entered in
state `s`, before scaling: the accumulator on entry plus the accel filter outputs
of the records that meet an even count. -/
def window_accel (cfg : Config) (samples : List Nat) (i k : Nat) (s : State) : Vector3f :=
  s._accum.accel.sum_from (filter_outputs cfg.accel_filter_apply s._accum.accel_filter
    (accel_inputs samples i s._accum.count k))

/-- The gyro sum of a run of `k` accepted records from index `i` entered in state
`s`, before scaling: the accumulator on entry plus the gyro filter outputs of all
the records. -/
def window_gyro (cfg : Config) (samples : List Nat) (i k : Nat) (s : State) : Vector3f :=
  s._accum.gyro.sum_from (filter_outputs cfg.gyro_filter_apply s._accum.gyro_filter
    (gyro_inputs samples i k))

/-! ## Sample data -/

/-- A filter that passes vectors through unchanged. -/
def pass_filter (m : FilterState) (v : Vector3f) : FilterState × Vector3f := (m, v)

/-- A scalar filter that passes values through unchanged. -/
def pass_scalar (m : FilterState) (v : ℚ) : FilterState × ℚ := (m, v)

/-- A configuration with identity rotation and pass-through filters. -/
def sample_config (bus : BusType) (fast : Bool) : Config :=
  ⟨bus, fast, 980665 / 100000, 31744, id, id, pass_filter, pass_filter, pass_scalar⟩

/-- A freshly started driver with the given bus replies pending. -/
def sample_state (tape : List Reply) : State :=
  ⟨0x10, 0, 0, [], ⟨Vector3f.zero, Vector3f.zero, 0, [], []⟩, [], tape, []⟩

/-- A successful bus reply carrying `data`. -/
def ok_reply (data : List Nat) : Reply := ⟨true, data⟩

/-- A successful reply carrying `n` all-zero records. -/
def zero_records (n : Nat) : Reply := ⟨true, List.replicate (MPU_SAMPLE_SIZE * n) 0⟩

/-- A record of seven big-endian words given by their high and low bytes. -/
def record_bytes (w : List (Nat × Nat)) : List Nat :=
  w.flatMap (fun p => [p.1, p.2])

/-- A record whose first accel word is 0x7FFF and whose other words are zero. -/
def clipping_record : List Nat :=
  record_bytes [(0x7F, 0xFF), (0, 0), (0, 0), (0, 0), (0, 0), (0, 0), (0, 0)]

/-- A block of 16 records of which only the first clips. -/
def clipping_block : List Nat :=
  clipping_record ++ List.replicate (MPU_SAMPLE_SIZE * 15) 0

/-- A record with words 3, 4, -32768 for accel, 0 for temperature and 5, 6, 7
for gyro. -/
def remap_record : List Nat :=
  record_bytes [(0, 3), (0, 4), (0x80, 0), (0, 0), (0, 5), (0, 6), (0, 7)]

/-- An all-zero record. -/
def zero_record : List Nat := List.replicate MPU_SAMPLE_SIZE 0

/-- A record whose temperature word is 339 and whose other words are zero. -/
def warm_record : List Nat :=
  record_bytes [(0, 0), (0, 0), (0, 0), (0x01, 0x53), (0, 0), (0, 0), (0, 0)]

/-- An auxiliary slave at bus address 0x0C in slot 0. -/
def sample_slave : AuxiliaryBusSlave := AuxiliaryBusSlave.create 0x0C 0

/-- A failed bus reply. -/
def failed_reply : Reply := ⟨false, []⟩

/-- A record whose temperature word is 4096 and whose other words are zero. -/
def hot_record : List Nat :=
  record_bytes [(0, 0), (0, 0), (0, 0), (0x10, 0), (0, 0), (0, 0), (0, 0)]

/-! # Verification -/

/-! ## Bit-level facts about the user-control value -/

set_option maxRecDepth 100000 in
theorem byte_mask_facts : ∀ y < 256,
    (y &&& 187) &&& 4 = 0 ∧ ((y &&& 187) ||| 4) &&& 4 ≠ 0 ∧ ((y &&& 187) ||| 64) &&& 4 = 0 ∧
    (((y &&& 187) ||| 64) % 256) &&& 187 = y &&& 187 := by
  decide

theorem cleared_user_ctrl_eq (x : Nat) : cleared_user_ctrl x = (x % 256) &&& 187 := by
  rfl

theorem cleared_and_reset (x : Nat) :
    cleared_user_ctrl x &&& BIT_USER_CTRL_FIFO_RESET = 0 :=
  (byte_mask_facts (x % 256) (Nat.mod_lt _ (by decide))).1

theorem cleared_or_reset (x : Nat) :
    (cleared_user_ctrl x ||| BIT_USER_CTRL_FIFO_RESET) &&& BIT_USER_CTRL_FIFO_RESET ≠ 0 :=
  (byte_mask_facts (x % 256) (Nat.mod_lt _ (by decide))).2.1

theorem cleared_or_enable (x : Nat) :
    (cleared_user_ctrl x ||| BIT_USER_CTRL_FIFO_EN) &&& BIT_USER_CTRL_FIFO_RESET = 0 :=
  (byte_mask_facts (x % 256) (Nat.mod_lt _ (by decide))).2.2.1

theorem cleared_idem (x : Nat) :
    cleared_user_ctrl (cleared_user_ctrl x ||| BIT_USER_CTRL_FIFO_EN) = cleared_user_ctrl x :=
  (byte_mask_facts (x % 256) (Nat.mod_lt _ (by decide))).2.2.2

/-- The calls made by one run of the FIFO Reset Protocol, for shadow value `x`. -/
theorem fifo_reset_trace (s : State) :
    (_fifo_reset s).trace = s.trace ++
      [ .set_speed .SPEED_LOW,
        .write_register MPUREG_FIFO_EN 0 false,
        .write_register MPUREG_USER_CTRL (cleared_user_ctrl s._last_stat_user_ctrl) false,
        .write_register MPUREG_USER_CTRL
          (cleared_user_ctrl s._last_stat_user_ctrl ||| BIT_USER_CTRL_FIFO_RESET) false,
        .write_register MPUREG_USER_CTRL
          (cleared_user_ctrl s._last_stat_user_ctrl ||| BIT_USER_CTRL_FIFO_EN) false,
        .write_register MPUREG_FIFO_EN 248 true,
        .delay_microseconds 1,
        .set_speed .SPEED_HIGH ] := by
  simp [_fifo_reset, set_speed, _register_write, emit]
  decide


theorem fifo_reset_shadow (s : State) :
    (_fifo_reset s)._last_stat_user_ctrl =
      cleared_user_ctrl s._last_stat_user_ctrl ||| BIT_USER_CTRL_FIFO_EN := by
  simp [_fifo_reset, set_speed, _register_write, emit]

theorem uint16_val_reply_bytes (data : List Nat) :
    uint16_val (reply_bytes data 2) 0 = uint16_val data 0 := by
  simp [uint16_val, reply_bytes, List.range_succ]

theorem int16_val_reply_bytes (data : List Nat) :
    int16_val (reply_bytes data 2) 0 = int16_val data 0 := by
  simp [int16_val, uint16_val_reply_bytes]

/-- C10. Running the FIFO Reset Protocol twice in succession leaves the FIFO
enable-mask register (0x23), the user-control register (0x6A), the shadow
`_last_stat_user_ctrl` and the bus speed in the same final state as running it
once: enable mask 0xF8, user control and shadow equal to the shadow with the
reset bit cleared and the FIFO enable bit set, bus speed high. -/
theorem fifo_reset_idempotent (s : State) :
    (last_write MPUREG_FIFO_EN (_fifo_reset (_fifo_reset s)).trace
        = last_write MPUREG_FIFO_EN (_fifo_reset s).trace
      ∧ last_write MPUREG_FIFO_EN (_fifo_reset s).trace = some 0xF8)
    ∧ (last_write MPUREG_USER_CTRL (_fifo_reset (_fifo_reset s)).trace
        = last_write MPUREG_USER_CTRL (_fifo_reset s).trace
      ∧ last_write MPUREG_USER_CTRL (_fifo_reset s).trace
        = some (cleared_user_ctrl s._last_stat_user_ctrl ||| BIT_USER_CTRL_FIFO_EN))
    ∧ (_fifo_reset (_fifo_reset s))._last_stat_user_ctrl = (_fifo_reset s)._last_stat_user_ctrl
    ∧ (last_speed (_fifo_reset (_fifo_reset s)).trace = last_speed (_fifo_reset s).trace
      ∧ last_speed (_fifo_reset s).trace = some Speed.SPEED_HIGH) := by
  have hid := cleared_idem s._last_stat_user_ctrl
  refine ⟨⟨?_, ?_⟩, ⟨?_, ?_⟩, ?_, ⟨?_, ?_⟩⟩
  · simp [last_write, fifo_reset_trace, List.foldl_append, MPUREG_FIFO_EN, MPUREG_USER_CTRL]
  · simp [last_write, fifo_reset_trace, List.foldl_append, MPUREG_FIFO_EN, MPUREG_USER_CTRL]
  · simp [last_write, fifo_reset_trace, fifo_reset_shadow, hid, List.foldl_append,
      MPUREG_FIFO_EN, MPUREG_USER_CTRL]
  · simp [last_write, fifo_reset_trace, List.foldl_append, MPUREG_FIFO_EN, MPUREG_USER_CTRL]
  · simp [fifo_reset_shadow, hid]
  · simp [last_speed, fifo_reset_trace, List.foldl_append]
  · simp [last_speed, fifo_reset_trace, List.foldl_append]

theorem check_raw_temp_within (t2 : Int) (s : State)
    (h : (t2 - s._raw_temp).natAbs < 400) :
    _check_raw_temp t2 s = (true, s) := by
  simp [_check_raw_temp, h]

theorem check_raw_temp_beyond (t2 : Int) (s : State)
    (h : 400 ≤ (t2 - s._raw_temp).natAbs) :
    (_check_raw_temp t2 s).2 =
      { s with
        _raw_temp := if (next_reply s).1.ok then int16_val (next_reply s).1.data 0
                     else s._raw_temp
        tape := s.tape.tail
        trace := s.trace ++ [Event.read_registers MPUREG_TEMP_OUT_H 2 (next_reply s).1.ok] }
    ∧ (_check_raw_temp t2 s).1 =
      decide ((t2 - (_check_raw_temp t2 s).2._raw_temp).natAbs < 400) := by
  have h1 : ¬ (t2 - s._raw_temp).natAbs < 400 := by omega
  constructor
  · cases hs : s.tape with
    | nil => simp [_check_raw_temp, h1, _block_read, read_registers, next_reply, hs, emit]
    | cons r rest =>
      cases hr : r.ok <;>
        simp [_check_raw_temp, h1, _block_read, read_registers, next_reply, hs, hr, emit,
          int16_val_reply_bytes]
  · simp [_check_raw_temp, h1]

/-- C4. Corruption Oracle accept path: when the probe is within 400 of the cached
reference (difference taken in the integers, without wrap-around),
`_check_raw_temp` returns true and leaves the whole state unchanged: no register
read is made, no bus reply is consumed and the cached reference stays as it was. -/
theorem check_raw_temp_accept (t2 : Int) (s : State)
    (h : (t2 - s._raw_temp).natAbs < 400) :
    _check_raw_temp t2 s = (true, s) :=
  check_raw_temp_within t2 s h

theorem check_raw_temp_accept_witness :
    ((100 : Int) - (sample_state [ok_reply [1, 2]])._raw_temp).natAbs < 400 ∧
    _check_raw_temp 100 (sample_state [ok_reply [1, 2]])
      = (true, sample_state [ok_reply [1, 2]]) :=
  ⟨by decide, check_raw_temp_accept 100 (sample_state [ok_reply [1, 2]]) (by decide)⟩

/-- C5. Corruption Oracle reject path: when the probe differs from the cached
reference by 400 or more, `_check_raw_temp` makes exactly one call, a 2-byte read
of the temperature register (and no bus write), consumes the one bus reply,
sets the cached reference to the big-endian signed 16-bit value read when the
read succeeds and leaves it unchanged when it fails, changes nothing else, and
returns the truth value of the same inequality against the resulting reference. -/
theorem check_raw_temp_reject (t2 : Int) (s : State)
    (h : 400 ≤ (t2 - s._raw_temp).natAbs) :
    (_check_raw_temp t2 s).2 =
      { s with
        _raw_temp := if (next_reply s).1.ok then int16_val (next_reply s).1.data 0
                     else s._raw_temp
        tape := s.tape.tail
        trace := s.trace ++ [Event.read_registers MPUREG_TEMP_OUT_H 2 (next_reply s).1.ok] }
    ∧ (_check_raw_temp t2 s).1 =
      decide ((t2 - (_check_raw_temp t2 s).2._raw_temp).natAbs < 400) :=
  check_raw_temp_beyond t2 s h

theorem check_raw_temp_reject_witness :
    400 ≤ ((1000 : Int) - (sample_state [ok_reply [3, 0]])._raw_temp).natAbs ∧
    ((_check_raw_temp 1000 (sample_state [ok_reply [3, 0]])).2 =
      { sample_state [ok_reply [3, 0]] with
        _raw_temp := if (next_reply (sample_state [ok_reply [3, 0]])).1.ok then
            int16_val (next_reply (sample_state [ok_reply [3, 0]])).1.data 0
          else (sample_state [ok_reply [3, 0]])._raw_temp
        tape := (sample_state [ok_reply [3, 0]]).tape.tail
        trace := (sample_state [ok_reply [3, 0]]).trace ++
          [Event.read_registers MPUREG_TEMP_OUT_H 2
            (next_reply (sample_state [ok_reply [3, 0]])).1.ok] }
    ∧ (_check_raw_temp 1000 (sample_state [ok_reply [3, 0]])).1 =
      decide (((1000 : Int) -
        (_check_raw_temp 1000 (sample_state [ok_reply [3, 0]])).2._raw_temp).natAbs < 400)) :=
  ⟨by decide, check_raw_temp_reject 1000 (sample_state [ok_reply [3, 0]]) (by decide)⟩

/-! ## Counting calls in traces -/

@[simp] theorem reset_count_append (a b : List Event) :
    reset_count (a ++ b) = reset_count a + reset_count b := by
  simp [reset_count]

@[simp] theorem validation_failures_append (a b : List Event) :
    validation_failures (a ++ b) = validation_failures a + validation_failures b := by
  simp [validation_failures]

@[simp] theorem bus_failures_append (a b : List Event) :
    bus_failures (a ++ b) = bus_failures a + bus_failures b := by
  simp [bus_failures]

@[simp] theorem accel_samples_append (a b : List Event) :
    accel_samples (a ++ b) = accel_samples a + accel_samples b := by
  simp [accel_samples]

@[simp] theorem gyro_samples_append (a b : List Event) :
    gyro_samples (a ++ b) = gyro_samples a + gyro_samples b := by
  simp [gyro_samples]

@[simp] theorem clip_count_append (a b : List Event) :
    clip_count (a ++ b) = clip_count a + clip_count b := by
  simp [clip_count]

/-! ## Effects of the Corruption Oracle -/

/-- The oracle appends at most one call to the trace: the temperature re-read. -/
theorem check_raw_temp_trace (t2 : Int) (s : State) :
    (_check_raw_temp t2 s).2.trace = s.trace ++
      (if (t2 - s._raw_temp).natAbs < 400 then []
       else [Event.read_registers MPUREG_TEMP_OUT_H 2 (next_reply s).1.ok]) := by
  by_cases h : (t2 - s._raw_temp).natAbs < 400
  · simp [check_raw_temp_within t2 s h, h]
  · have h2 : 400 ≤ (t2 - s._raw_temp).natAbs := by omega
    rw [(check_raw_temp_beyond t2 s h2).1]
    simp [h]

/-- The oracle touches neither the accumulator, the shadow, the working buffer
nor the temperature filter. -/
theorem check_raw_temp_frame (t2 : Int) (s : State) :
    (_check_raw_temp t2 s).2._accum = s._accum ∧
    (_check_raw_temp t2 s).2._last_stat_user_ctrl = s._last_stat_user_ctrl ∧
    (_check_raw_temp t2 s).2._fifo_buffer = s._fifo_buffer ∧
    (_check_raw_temp t2 s).2._temp_filter = s._temp_filter := by
  by_cases h : (t2 - s._raw_temp).natAbs < 400
  · simp [check_raw_temp_within t2 s h]
  · have h2 : 400 ≤ (t2 - s._raw_temp).natAbs := by omega
    rw [(check_raw_temp_beyond t2 s h2).1]
    simp

theorem check_raw_temp_counts (t2 : Int) (s : State) :
    reset_count (_check_raw_temp t2 s).2.trace = reset_count s.trace ∧
    validation_failures (_check_raw_temp t2 s).2.trace = validation_failures s.trace ∧
    bus_failures s.trace ≤ bus_failures (_check_raw_temp t2 s).2.trace ∧
    accel_samples (_check_raw_temp t2 s).2.trace = accel_samples s.trace ∧
    gyro_samples (_check_raw_temp t2 s).2.trace = gyro_samples s.trace ∧
    clip_count (_check_raw_temp t2 s).2.trace = clip_count s.trace := by
  rw [check_raw_temp_trace]
  split <;>
    simp [reset_count, validation_failures, bus_failures, accel_samples, gyro_samples,
      clip_count, is_reset_pulse, is_temp_reset, is_accel_sample, is_gyro_sample, is_clip]

/-! ## Effects of the FIFO Reset Protocol -/

theorem fifo_reset_counts (s : State) :
    reset_count (_fifo_reset s).trace = reset_count s.trace + 1 ∧
    validation_failures (_fifo_reset s).trace = validation_failures s.trace ∧
    bus_failures (_fifo_reset s).trace = bus_failures s.trace ∧
    accel_samples (_fifo_reset s).trace = accel_samples s.trace ∧
    gyro_samples (_fifo_reset s).trace = gyro_samples s.trace ∧
    clip_count (_fifo_reset s).trace = clip_count s.trace := by
  rw [fifo_reset_trace]
  have h1 := cleared_and_reset s._last_stat_user_ctrl
  have h2 := cleared_or_reset s._last_stat_user_ctrl
  have h3 := cleared_or_enable s._last_stat_user_ctrl
  simp [reset_count, validation_failures, bus_failures, accel_samples, gyro_samples,
    clip_count, is_reset_pulse, is_temp_reset, is_bus_failure, is_accel_sample, is_gyro_sample,
    is_clip, h1, h2, h3, List.countP_cons, MPUREG_FIFO_EN, MPUREG_USER_CTRL]

/-! ## Effects of the converters' building blocks -/

theorem report_corruption_counts (t2 : Int) (s : State) :
    reset_count (report_corruption t2 s).trace = reset_count s.trace + 1 ∧
    validation_failures (report_corruption t2 s).trace = validation_failures s.trace + 1 ∧
    bus_failures (report_corruption t2 s).trace = bus_failures s.trace ∧
    accel_samples (report_corruption t2 s).trace = accel_samples s.trace ∧
    gyro_samples (report_corruption t2 s).trace = gyro_samples s.trace ∧
    clip_count (report_corruption t2 s).trace = clip_count s.trace := by
  obtain ⟨r1, r2, r3, r4, r5, r6⟩ := fifo_reset_counts (emit (.debug_temp_reset s._raw_temp t2) s)
  simp only [report_corruption, r1, r2, r3, r4, r5, r6]
  simp [emit, reset_count, validation_failures, bus_failures, accel_samples, gyro_samples,
    clip_count, is_reset_pulse, is_temp_reset, is_bus_failure, is_accel_sample, is_gyro_sample,
    is_clip]

theorem direct_sample_trace (cfg : Config) (data : List Nat) (t2 : Int) (s : State) :
    (direct_sample cfg data t2 s).trace = s.trace ++
      [ .notify_new_accel_raw_sample (cfg.rotate_and_correct_accel
          ((Vector3f.ofInts (int16_val data 1) (int16_val data 0)
            (-(int16_val data 2))).scale (MPU9250_ACCEL_SCALE_1G cfg))) false,
        .notify_new_gyro_raw_sample (cfg.rotate_and_correct_gyro
          ((Vector3f.ofInts (int16_val data 5) (int16_val data 4)
            (-(int16_val data 6))).scale GYRO_SCALE)) ] := by
  simp [direct_sample, emit]

theorem direct_sample_counts (cfg : Config) (data : List Nat) (t2 : Int) (s : State) :
    reset_count (direct_sample cfg data t2 s).trace = reset_count s.trace ∧
    validation_failures (direct_sample cfg data t2 s).trace = validation_failures s.trace ∧
    bus_failures (direct_sample cfg data t2 s).trace = bus_failures s.trace ∧
    accel_samples (direct_sample cfg data t2 s).trace = accel_samples s.trace + 1 ∧
    gyro_samples (direct_sample cfg data t2 s).trace = gyro_samples s.trace + 1 ∧
    clip_count (direct_sample cfg data t2 s).trace = clip_count s.trace := by
  rw [direct_sample_trace]
  simp [reset_count, validation_failures, bus_failures, accel_samples, gyro_samples,
    clip_count, is_reset_pulse, is_temp_reset, is_bus_failure, is_accel_sample, is_gyro_sample,
    is_clip]

/-! ## Effects of the Direct converter -/

theorem accumulate_loop_fail (cfg : Config) (samples : List Nat) (k i : Nat) (s : State)
    (h : (_check_raw_temp (int16_val (samples.drop (MPU_SAMPLE_SIZE * i)) 3) s).1 = false) :
    _accumulate_loop cfg samples (k + 1) i s =
      (false, report_corruption (int16_val (samples.drop (MPU_SAMPLE_SIZE * i)) 3)
        (_check_raw_temp (int16_val (samples.drop (MPU_SAMPLE_SIZE * i)) 3) s).2) := by
  simp [_accumulate_loop, h]

theorem accumulate_loop_pass (cfg : Config) (samples : List Nat) (k i : Nat) (s : State)
    (h : (_check_raw_temp (int16_val (samples.drop (MPU_SAMPLE_SIZE * i)) 3) s).1 = true) :
    _accumulate_loop cfg samples (k + 1) i s =
      _accumulate_loop cfg samples k (i + 1)
        (direct_sample cfg (samples.drop (MPU_SAMPLE_SIZE * i))
          (int16_val (samples.drop (MPU_SAMPLE_SIZE * i)) 3)
          (_check_raw_temp (int16_val (samples.drop (MPU_SAMPLE_SIZE * i)) 3) s).2) := by
  simp [_accumulate_loop, h]

theorem accumulate_loop_counts (cfg : Config) (samples : List Nat) (k : Nat) :
    ∀ (i : Nat) (s : State),
      reset_count (_accumulate_loop cfg samples k i s).2.trace
        = reset_count s.trace + (if (_accumulate_loop cfg samples k i s).1 then 0 else 1) ∧
      validation_failures (_accumulate_loop cfg samples k i s).2.trace
        = validation_failures s.trace + (if (_accumulate_loop cfg samples k i s).1 then 0 else 1) ∧
      bus_failures s.trace ≤ bus_failures (_accumulate_loop cfg samples k i s).2.trace ∧
      clip_count (_accumulate_loop cfg samples k i s).2.trace = clip_count s.trace ∧
      ((_accumulate_loop cfg samples k i s).1 = true →
        accel_samples (_accumulate_loop cfg samples k i s).2.trace = accel_samples s.trace + k ∧
        gyro_samples (_accumulate_loop cfg samples k i s).2.trace = gyro_samples s.trace + k) := by
  induction k with
  | zero => intro i s; simp [_accumulate_loop]
  | succ k ih =>
    intro i s
    obtain ⟨c1, c2, c3, c4, c5, c6⟩ :=
      check_raw_temp_counts (int16_val (List.drop (MPU_SAMPLE_SIZE * i) samples) 3) s
    cases hc : (_check_raw_temp (int16_val (List.drop (MPU_SAMPLE_SIZE * i) samples) 3) s).1
    · obtain ⟨r1, r2, r3, r4, r5, r6⟩ := report_corruption_counts
        (int16_val (List.drop (MPU_SAMPLE_SIZE * i) samples) 3)
        (_check_raw_temp (int16_val (List.drop (MPU_SAMPLE_SIZE * i) samples) 3) s).2
      rw [accumulate_loop_fail cfg samples k i s hc]
      simp only [Bool.false_eq_true, if_false, false_implies, and_true]
      omega
    · obtain ⟨d1, d2, d3, d4, d5, d6⟩ := direct_sample_counts cfg
        (List.drop (MPU_SAMPLE_SIZE * i) samples)
        (int16_val (List.drop (MPU_SAMPLE_SIZE * i) samples) 3)
        (_check_raw_temp (int16_val (List.drop (MPU_SAMPLE_SIZE * i) samples) 3) s).2
      obtain ⟨h1, h2, h3, h4, h5⟩ := ih (i + 1) (direct_sample cfg
        (List.drop (MPU_SAMPLE_SIZE * i) samples)
        (int16_val (List.drop (MPU_SAMPLE_SIZE * i) samples) 3)
        (_check_raw_temp (int16_val (List.drop (MPU_SAMPLE_SIZE * i) samples) 3) s).2)
      rw [accumulate_loop_pass cfg samples k i s hc]
      refine ⟨by omega, by omega, by omega, by omega, ?_⟩
      intro hret
      have := h5 hret
      omega

/-! ## Effects of one accepted record in fast-sampling mode -/

theorem fast_sample_counts (cfg : Config) (data : List Nat) (cl : Bool) (s : State) :
    reset_count (fast_sample cfg data cl s).2.trace = reset_count s.trace ∧
    validation_failures (fast_sample cfg data cl s).2.trace = validation_failures s.trace ∧
    bus_failures (fast_sample cfg data cl s).2.trace = bus_failures s.trace ∧
    clip_count (fast_sample cfg data cl s).2.trace = clip_count s.trace := by
  simp only [fast_sample, fast_accel, fast_gyro, fast_emit]
  split_ifs <;>
    simp [emit, reset_count, validation_failures, bus_failures, clip_count, is_reset_pulse,
      is_temp_reset, is_bus_failure, is_clip]

theorem fast_sample_clipped (cfg : Config) (data : List Nat) (cl : Bool) (s : State) :
    (fast_sample cfg data cl s).1 =
      (cl || (decide (s._accum.count % 2 = 0) &&
        exceeds_clip cfg (Vector3f.ofInts (int16_val data 1) (int16_val data 0)
          (-(int16_val data 2))))) := by
  simp only [fast_sample, fast_accel, Nat.and_one_is_mod]
  split_ifs with h <;> simp [h]

theorem fast_sample_parity (cfg : Config) (data : List Nat) (cl : Bool) (s : State) :
    (fast_sample cfg data cl s).2._accum.count % 2 = (s._accum.count + 1) % 2 := by
  simp only [fast_sample, fast_accel, fast_gyro, fast_emit, MPU_FIFO_DOWNSAMPLE_COUNT]
  split_ifs <;> simp_all <;> omega

theorem fast_sample_step (cfg : Config) (data : List Nat) (cl : Bool) (s : State)
    (hc : s._accum.count < 8) :
    (fast_sample cfg data cl s).2._accum.count = (s._accum.count + 1) % 8 ∧
    accel_samples (fast_sample cfg data cl s).2.trace
      = accel_samples s.trace + (s._accum.count + 1) / 8 ∧
    gyro_samples (fast_sample cfg data cl s).2.trace
      = gyro_samples s.trace + (s._accum.count + 1) / 8 ∧
    ((fast_sample cfg data cl s).2._accum.count = 0 →
      (fast_sample cfg data cl s).2._accum.accel = Vector3f.zero ∧
      (fast_sample cfg data cl s).2._accum.gyro = Vector3f.zero) := by
  simp only [fast_sample, fast_accel, fast_gyro, fast_emit, MPU_FIFO_DOWNSAMPLE_COUNT]
  split_ifs <;>
    simp_all [emit, accel_samples, gyro_samples, is_accel_sample, is_gyro_sample] <;> omega

/-! ## Effects of the loop of the Downsampling converter -/

theorem fast_loop_fail (cfg : Config) (samples : List Nat) (k i : Nat) (tsum : Int)
    (cl : Bool) (s : State)
    (h : (_check_raw_temp (int16_val (samples.drop (MPU_SAMPLE_SIZE * i)) 3) s).1 = false) :
    fast_loop cfg samples (k + 1) i tsum cl s =
      ⟨false, tsum, cl, report_corruption (int16_val (samples.drop (MPU_SAMPLE_SIZE * i)) 3)
        (_check_raw_temp (int16_val (samples.drop (MPU_SAMPLE_SIZE * i)) 3) s).2⟩ := by
  simp [fast_loop, h]

theorem fast_loop_pass (cfg : Config) (samples : List Nat) (k i : Nat) (tsum : Int)
    (cl : Bool) (s : State)
    (h : (_check_raw_temp (int16_val (samples.drop (MPU_SAMPLE_SIZE * i)) 3) s).1 = true) :
    fast_loop cfg samples (k + 1) i tsum cl s =
      fast_loop cfg samples k (i + 1)
        (tsum + int16_val (samples.drop (MPU_SAMPLE_SIZE * i)) 3)
        (fast_sample cfg (samples.drop (MPU_SAMPLE_SIZE * i)) cl
          (_check_raw_temp (int16_val (samples.drop (MPU_SAMPLE_SIZE * i)) 3) s).2).1
        (fast_sample cfg (samples.drop (MPU_SAMPLE_SIZE * i)) cl
          (_check_raw_temp (int16_val (samples.drop (MPU_SAMPLE_SIZE * i)) 3) s).2).2 := by
  simp [fast_loop, h]

theorem fast_loop_counts (cfg : Config) (samples : List Nat) (k : Nat) :
    ∀ (i : Nat) (tsum : Int) (cl : Bool) (s : State),
      reset_count (fast_loop cfg samples k i tsum cl s).s.trace
        = reset_count s.trace + (if (fast_loop cfg samples k i tsum cl s).ret then 0 else 1) ∧
      validation_failures (fast_loop cfg samples k i tsum cl s).s.trace
        = validation_failures s.trace
          + (if (fast_loop cfg samples k i tsum cl s).ret then 0 else 1) ∧
      bus_failures s.trace ≤ bus_failures (fast_loop cfg samples k i tsum cl s).s.trace ∧
      clip_count (fast_loop cfg samples k i tsum cl s).s.trace = clip_count s.trace := by
  induction k with
  | zero => intro i tsum cl s; simp [fast_loop]
  | succ k ih =>
    intro i tsum cl s
    obtain ⟨c1, c2, c3, c4, c5, c6⟩ :=
      check_raw_temp_counts (int16_val (List.drop (MPU_SAMPLE_SIZE * i) samples) 3) s
    cases hc : (_check_raw_temp (int16_val (List.drop (MPU_SAMPLE_SIZE * i) samples) 3) s).1
    · obtain ⟨r1, r2, r3, r4, r5, r6⟩ := report_corruption_counts
        (int16_val (List.drop (MPU_SAMPLE_SIZE * i) samples) 3)
        (_check_raw_temp (int16_val (List.drop (MPU_SAMPLE_SIZE * i) samples) 3) s).2
      rw [fast_loop_fail cfg samples k i tsum cl s hc]
      simp only [Bool.false_eq_true, if_false]
      omega
    · obtain ⟨d1, d2, d3, d4⟩ := fast_sample_counts cfg
        (List.drop (MPU_SAMPLE_SIZE * i) samples) cl
        (_check_raw_temp (int16_val (List.drop (MPU_SAMPLE_SIZE * i) samples) 3) s).2
      rw [fast_loop_pass cfg samples k i tsum cl s hc]
      obtain ⟨h1, h2, h3, h4⟩ := ih (i + 1)
        (tsum + int16_val (samples.drop (MPU_SAMPLE_SIZE * i)) 3)
        (fast_sample cfg (samples.drop (MPU_SAMPLE_SIZE * i)) cl
          (_check_raw_temp (int16_val (samples.drop (MPU_SAMPLE_SIZE * i)) 3) s).2).1
        (fast_sample cfg (samples.drop (MPU_SAMPLE_SIZE * i)) cl
          (_check_raw_temp (int16_val (samples.drop (MPU_SAMPLE_SIZE * i)) 3) s).2).2
      refine ⟨by omega, by omega, by omega, by omega⟩

/-- Cadence of the loop: from a count below 8, `k` accepted records advance the
count to `(count + k) % 8` and emit `(count + k) / 8` samples; right after an
emission the sums are zero. -/
theorem fast_loop_cadence (cfg : Config) (samples : List Nat) (k : Nat) :
    ∀ (i : Nat) (tsum : Int) (cl : Bool) (s : State), s._accum.count < 8 →
      (fast_loop cfg samples k i tsum cl s).ret = true →
      (fast_loop cfg samples k i tsum cl s).s._accum.count = (s._accum.count + k) % 8 ∧
      accel_samples (fast_loop cfg samples k i tsum cl s).s.trace
        = accel_samples s.trace + (s._accum.count + k) / 8 ∧
      gyro_samples (fast_loop cfg samples k i tsum cl s).s.trace
        = gyro_samples s.trace + (s._accum.count + k) / 8 ∧
      ((1 ≤ k ∨ (s._accum.count = 0 →
            s._accum.accel = Vector3f.zero ∧ s._accum.gyro = Vector3f.zero)) →
        (fast_loop cfg samples k i tsum cl s).s._accum.count = 0 →
        (fast_loop cfg samples k i tsum cl s).s._accum.accel = Vector3f.zero ∧
        (fast_loop cfg samples k i tsum cl s).s._accum.gyro = Vector3f.zero) := by
  induction k with
  | zero =>
    intro i tsum cl s hc _
    simp only [fast_loop, Nat.add_zero]
    refine ⟨(Nat.mod_eq_of_lt hc).symm, ?_, ?_, ?_⟩
    · rw [Nat.div_eq_of_lt hc]; rfl
    · rw [Nat.div_eq_of_lt hc]; rfl
    · intro h; rcases h with h | h
      · omega
      · exact h
  | succ k ih =>
    intro i tsum cl s hcnt hret
    obtain ⟨c1, c2, c3, c4, c5, c6⟩ :=
      check_raw_temp_counts (int16_val (List.drop (MPU_SAMPLE_SIZE * i) samples) 3) s
    obtain ⟨f1, -, -, -⟩ :=
      check_raw_temp_frame (int16_val (List.drop (MPU_SAMPLE_SIZE * i) samples) 3) s
    cases hc : (_check_raw_temp (int16_val (List.drop (MPU_SAMPLE_SIZE * i) samples) 3) s).1
    · rw [fast_loop_fail cfg samples k i tsum cl s hc] at hret
      simp at hret
    · rw [fast_loop_pass cfg samples k i tsum cl s hc] at hret ⊢
      have hcnt2 : (_check_raw_temp
          (int16_val (List.drop (MPU_SAMPLE_SIZE * i) samples) 3) s).2._accum.count < 8 := by
        rw [f1]; exact hcnt
      obtain ⟨s1, s2, s3, s4⟩ := fast_sample_step cfg
        (List.drop (MPU_SAMPLE_SIZE * i) samples) cl _ hcnt2
      rw [f1] at s1 s2 s3
      have hlt : (fast_sample cfg (samples.drop (MPU_SAMPLE_SIZE * i)) cl
          (_check_raw_temp (int16_val (samples.drop (MPU_SAMPLE_SIZE * i)) 3) s).2).2._accum.count
          < 8 := by
        rw [s1]; exact Nat.mod_lt _ (by decide)
      obtain ⟨h1, h2, h3, h4⟩ := ih (i + 1) _ _ _ hlt hret
      refine ⟨?_, ?_, ?_, ?_⟩
      · rw [h1, s1]; omega
      · rw [h2, s2, s1, c4]; omega
      · rw [h3, s3, s1, c5]; omega
      · intro _
        exact h4 (Or.inr s4)

/-- The `clipped` local at the end of a fully accepted block: set exactly when
it was set on entry or some record met at an even count clips. -/
theorem fast_loop_clipped (cfg : Config) (samples : List Nat) (k : Nat) :
    ∀ (i : Nat) (tsum : Int) (cl : Bool) (s : State),
      (fast_loop cfg samples k i tsum cl s).ret = true →
      (fast_loop cfg samples k i tsum cl s).clipped =
        (cl || (List.range k).any (fun j =>
          decide ((s._accum.count + j) % 2 = 0) && record_clips cfg samples (i + j))) := by
  induction k with
  | zero => intro i tsum cl s _; simp [fast_loop]
  | succ k ih =>
    intro i tsum cl s hret
    obtain ⟨f1, -, -, -⟩ :=
      check_raw_temp_frame (int16_val (List.drop (MPU_SAMPLE_SIZE * i) samples) 3) s
    cases hc : (_check_raw_temp (int16_val (List.drop (MPU_SAMPLE_SIZE * i) samples) 3) s).1
    · rw [fast_loop_fail cfg samples k i tsum cl s hc] at hret
      simp at hret
    · rw [fast_loop_pass cfg samples k i tsum cl s hc] at hret ⊢
      rw [ih (i + 1) _ _ _ hret, fast_sample_clipped, f1]
      have hp := fast_sample_parity cfg (List.drop (MPU_SAMPLE_SIZE * i) samples) cl
        (_check_raw_temp (int16_val (List.drop (MPU_SAMPLE_SIZE * i) samples) 3) s).2
      rw [f1] at hp
      have hfun : (fun j =>
          decide (((fast_sample cfg (List.drop (MPU_SAMPLE_SIZE * i) samples) cl
            (_check_raw_temp (int16_val (List.drop (MPU_SAMPLE_SIZE * i) samples) 3)
              s).2).2._accum.count + j) % 2 = 0) && record_clips cfg samples (i + 1 + j))
          = (fun j => decide ((s._accum.count + (j + 1)) % 2 = 0)
              && record_clips cfg samples (i + (j + 1))) := by
        funext j
        have e1 : i + 1 + j = i + (j + 1) := by omega
        have e2 : (((fast_sample cfg (List.drop (MPU_SAMPLE_SIZE * i) samples) cl
            (_check_raw_temp (int16_val (List.drop (MPU_SAMPLE_SIZE * i) samples) 3)
              s).2).2._accum.count + j) % 2 = 0) ↔ ((s._accum.count + (j + 1)) % 2 = 0) := by
          omega
        rw [e1, decide_eq_decide.mpr e2]
      rw [hfun, List.range_succ_eq_map, List.any_cons, List.any_map]
      simp [record_clips, Bool.or_assoc, Function.comp_def, Nat.succ_eq_add_one]

/-! ## Effects of the Downsampling converter -/

theorem fast_sampling_unfold (cfg : Config) (samples : List Nat) (n : Nat) (s : State) :
    (_accumulate_fast_sampling cfg samples n s).1 = (fast_loop cfg samples n 0 0 false s).ret ∧
    (_accumulate_fast_sampling cfg samples n s).2._accum
      = (fast_loop cfg samples n 0 0 false s).s._accum ∧
    (_accumulate_fast_sampling cfg samples n s).2.trace
      = (fast_loop cfg samples n 0 0 false s).s.trace ++
        (if (fast_loop cfg samples n 0 0 false s).clipped then [Event.increment_clip_count]
         else []) := by
  simp only [_accumulate_fast_sampling]
  cases h1 : (fast_loop cfg samples n 0 0 false s).ret <;>
    cases h2 : (fast_loop cfg samples n 0 0 false s).clipped <;> simp [emit]

theorem fast_sampling_counts (cfg : Config) (samples : List Nat) (n : Nat) (s : State) :
    reset_count (_accumulate_fast_sampling cfg samples n s).2.trace
      = reset_count s.trace + (if (_accumulate_fast_sampling cfg samples n s).1 then 0 else 1) ∧
    validation_failures (_accumulate_fast_sampling cfg samples n s).2.trace
      = validation_failures s.trace
        + (if (_accumulate_fast_sampling cfg samples n s).1 then 0 else 1) ∧
    bus_failures s.trace ≤ bus_failures (_accumulate_fast_sampling cfg samples n s).2.trace ∧
    clip_count (_accumulate_fast_sampling cfg samples n s).2.trace
      = clip_count s.trace + (if (fast_loop cfg samples n 0 0 false s).clipped then 1 else 0) := by
  obtain ⟨u1, -, u3⟩ := fast_sampling_unfold cfg samples n s
  obtain ⟨h1, h2, h3, h4⟩ := fast_loop_counts cfg samples n 0 0 false s
  rw [u1, u3]
  cases (fast_loop cfg samples n 0 0 false s).clipped <;>
    simp [reset_count, validation_failures, bus_failures, clip_count, is_reset_pulse,
      is_temp_reset, is_bus_failure, is_clip] <;>
    simp only [reset_count, validation_failures, bus_failures, clip_count] at h1 h2 h3 h4 <;>
    refine ⟨?_, ?_, ?_, ?_⟩ <;> omega

/-- Clip counting of one converter call with every record accepted: the counter
rises by one exactly when a contributing record clips. -/
theorem fast_sampling_clip_count (cfg : Config) (samples : List Nat) (n : Nat) (s : State)
    (hret : (_accumulate_fast_sampling cfg samples n s).1 = true) :
    clip_count (_accumulate_fast_sampling cfg samples n s).2.trace
      = clip_count s.trace
        + (if contributing_clip cfg samples n s._accum.count then 1 else 0) := by
  obtain ⟨u1, -, -⟩ := fast_sampling_unfold cfg samples n s
  rw [u1] at hret
  rw [(fast_sampling_counts cfg samples n s).2.2.2, fast_loop_clipped cfg samples n 0 0 false s hret]
  simp [contributing_clip]

/-- Cadence of one converter call with every record accepted. -/
theorem fast_sampling_cadence (cfg : Config) (samples : List Nat) (n : Nat) (s : State)
    (hc : s._accum.count < 8)
    (hret : (_accumulate_fast_sampling cfg samples n s).1 = true) :
    (_accumulate_fast_sampling cfg samples n s).2._accum.count = (s._accum.count + n) % 8 ∧
    accel_samples (_accumulate_fast_sampling cfg samples n s).2.trace
      = accel_samples s.trace + (s._accum.count + n) / 8 ∧
    gyro_samples (_accumulate_fast_sampling cfg samples n s).2.trace
      = gyro_samples s.trace + (s._accum.count + n) / 8 ∧
    ((1 ≤ n ∨ (s._accum.count = 0 →
          s._accum.accel = Vector3f.zero ∧ s._accum.gyro = Vector3f.zero)) →
      (_accumulate_fast_sampling cfg samples n s).2._accum.count = 0 →
      (_accumulate_fast_sampling cfg samples n s).2._accum.accel = Vector3f.zero ∧
      (_accumulate_fast_sampling cfg samples n s).2._accum.gyro = Vector3f.zero) := by
  obtain ⟨u1, u2, u3⟩ := fast_sampling_unfold cfg samples n s
  rw [u1] at hret
  obtain ⟨h1, h2, h3, h4⟩ := fast_loop_cadence cfg samples n 0 0 false s hc hret
  rw [u2, u3]
  refine ⟨h1, ?_, ?_, h4⟩
  · rw [accel_samples_append, h2]
    split <;> simp [accel_samples, is_accel_sample]
  · rw [gyro_samples_append, h3]
    split <;> simp [gyro_samples, is_gyro_sample]

/-! ## Feeding several blocks to the Downsampling converter -/

theorem feed_cadence (cfg : Config) (blocks : List (List Nat × Nat)) :
    ∀ (s : State), s._accum.count < 8 → (feed_fast_sampling cfg blocks s).1 = true →
      (feed_fast_sampling cfg blocks s).2._accum.count
        = (s._accum.count + total_records blocks) % 8 ∧
      accel_samples (feed_fast_sampling cfg blocks s).2.trace
        = accel_samples s.trace + (s._accum.count + total_records blocks) / 8 ∧
      gyro_samples (feed_fast_sampling cfg blocks s).2.trace
        = gyro_samples s.trace + (s._accum.count + total_records blocks) / 8 ∧
      ((1 ≤ total_records blocks ∨ (s._accum.count = 0 →
            s._accum.accel = Vector3f.zero ∧ s._accum.gyro = Vector3f.zero)) →
        (feed_fast_sampling cfg blocks s).2._accum.count = 0 →
        (feed_fast_sampling cfg blocks s).2._accum.accel = Vector3f.zero ∧
        (feed_fast_sampling cfg blocks s).2._accum.gyro = Vector3f.zero) := by
  induction blocks with
  | nil =>
    intro s hc _
    simp only [feed_fast_sampling, total_records, List.map_nil, List.sum_nil, Nat.add_zero]
    refine ⟨(Nat.mod_eq_of_lt hc).symm, ?_, ?_, ?_⟩
    · rw [Nat.div_eq_of_lt hc]; rfl
    · rw [Nat.div_eq_of_lt hc]; rfl
    · intro h; rcases h with h | h
      · omega
      · exact h
  | cons b rest ih =>
    intro s hc hret
    cases hb : (_accumulate_fast_sampling cfg b.1 b.2 s).1
    · simp [feed_fast_sampling, hb] at hret
    · have hstep : feed_fast_sampling cfg (b :: rest) s
          = feed_fast_sampling cfg rest (_accumulate_fast_sampling cfg b.1 b.2 s).2 := by
        simp [feed_fast_sampling, hb]
      rw [hstep] at hret ⊢
      obtain ⟨a1, a2, a3, a4⟩ := fast_sampling_cadence cfg b.1 b.2 s hc hb
      have hlt : (_accumulate_fast_sampling cfg b.1 b.2 s).2._accum.count < 8 := by
        rw [a1]; exact Nat.mod_lt _ (by decide)
      obtain ⟨h1, h2, h3, h4⟩ := ih _ hlt hret
      have htot : total_records (b :: rest) = b.2 + total_records rest := by
        simp [total_records]
      rw [htot]
      refine ⟨?_, ?_, ?_, ?_⟩
      · rw [h1, a1]; omega
      · rw [h2, a2, a1]; omega
      · rw [h3, a3, a1]; omega
      · intro hz
        apply h4
        by_cases hb2 : 1 ≤ b.2
        · exact Or.inr (a4 (Or.inl hb2))
        · rcases hz with hz | hz
          · left; omega
          · exact Or.inr (a4 (Or.inr hz))

/-- C6. Downsampling cadence: starting from an accumulator count `c0 < 8`, feeding
`N` records that all pass temperature validation to `_accumulate_fast_sampling`,
split into blocks in any way, emits exactly `(c0 + N) / 8` accel and as many gyro
samples and ends with count `(c0 + N) % 8`, which is below 8; whenever the last
record fed completes a window (the count is back at 0) the accel and gyro sums
are zero again. -/
theorem downsampling_cadence (cfg : Config) (blocks : List (List Nat × Nat)) (s : State)
    (hc : s._accum.count < 8)
    (hret : (feed_fast_sampling cfg blocks s).1 = true) :
    accel_samples (feed_fast_sampling cfg blocks s).2.trace
      = accel_samples s.trace + (s._accum.count + total_records blocks) / 8 ∧
    gyro_samples (feed_fast_sampling cfg blocks s).2.trace
      = gyro_samples s.trace + (s._accum.count + total_records blocks) / 8 ∧
    (feed_fast_sampling cfg blocks s).2._accum.count
      = (s._accum.count + total_records blocks) % 8 ∧
    (feed_fast_sampling cfg blocks s).2._accum.count < 8 ∧
    (1 ≤ total_records blocks → (feed_fast_sampling cfg blocks s).2._accum.count = 0 →
      (feed_fast_sampling cfg blocks s).2._accum.accel = Vector3f.zero ∧
      (feed_fast_sampling cfg blocks s).2._accum.gyro = Vector3f.zero) := by
  obtain ⟨h1, h2, h3, h4⟩ := feed_cadence cfg blocks s hc hret
  refine ⟨h2, h3, h1, ?_, fun hN hz => h4 (Or.inl hN) hz⟩
  rw [h1]
  exact Nat.mod_lt _ (by decide)

theorem downsampling_cadence_witness :
    (sample_state [])._accum.count < 8 ∧
    (feed_fast_sampling (sample_config .BUS_TYPE_SPI true)
      [(List.replicate 42 0, 3), (List.replicate 70 0, 5)] (sample_state [])).1 = true ∧
    accel_samples (feed_fast_sampling (sample_config .BUS_TYPE_SPI true)
      [(List.replicate 42 0, 3), (List.replicate 70 0, 5)] (sample_state [])).2.trace
      = accel_samples (sample_state []).trace + ((sample_state [])._accum.count +
          total_records [(List.replicate 42 0, 3), (List.replicate 70 0, 5)]) / 8 :=
  ⟨by decide, by decide,
    (downsampling_cadence (sample_config .BUS_TYPE_SPI true)
      [(List.replicate 42 0, 3), (List.replicate 70 0, 5)] (sample_state [])
      (by decide) (by decide)).1⟩

/-- C8, as amended. Clip detection per block: for every block handed to
`_accumulate_fast_sampling` whose records all pass temperature validation, the
clip counter is incremented by exactly 1 by that call when at least one
contributing record (a record met at an even accumulator count) has an accel axis
whose absolute raw value exceeds the clip threshold, however many axes or records
exceed it, and is left unchanged when no contributing record does. -/
theorem clip_once_per_block (cfg : Config) (samples : List Nat) (n : Nat) (s : State)
    (hret : (_accumulate_fast_sampling cfg samples n s).1 = true) :
    ((∃ j, j < n ∧ (s._accum.count + j) % 2 = 0 ∧ record_clips cfg samples j = true) →
      clip_count (_accumulate_fast_sampling cfg samples n s).2.trace = clip_count s.trace + 1) ∧
    ((¬ ∃ j, j < n ∧ (s._accum.count + j) % 2 = 0 ∧ record_clips cfg samples j = true) →
      clip_count (_accumulate_fast_sampling cfg samples n s).2.trace = clip_count s.trace) := by
  have hiff : contributing_clip cfg samples n s._accum.count = true ↔
      ∃ j, j < n ∧ (s._accum.count + j) % 2 = 0 ∧ record_clips cfg samples j = true := by
    simp [contributing_clip, List.any_eq_true]
  rw [fast_sampling_clip_count cfg samples n s hret]
  constructor
  · intro h
    rw [if_pos (hiff.mpr h)]
  · intro h
    rw [if_neg (fun hc => h (hiff.mp hc))]
    rfl

theorem clip_once_per_block_witness :
    (_accumulate_fast_sampling (sample_config .BUS_TYPE_SPI true)
      (clipping_record ++ clipping_record) 2 (sample_state [])).1 = true ∧
    clip_count (_accumulate_fast_sampling (sample_config .BUS_TYPE_SPI true)
      (clipping_record ++ clipping_record) 2 (sample_state [])).2.trace
      = clip_count (sample_state []).trace + 1 :=
  ⟨by decide,
    (clip_once_per_block (sample_config .BUS_TYPE_SPI true)
      (clipping_record ++ clipping_record) 2 (sample_state []) (by decide)).1
      ⟨0, by decide, by decide, by decide⟩⟩

/-- C8, counterexample to the claim as stated: a block of two records that both
pass validation, entered with count 0, whose second record (met at the odd count
1) has an accel axis beyond the clip threshold, leaves the clip counter
unchanged. -/
theorem clip_odd_record_not_counted :
    (_accumulate_fast_sampling (sample_config .BUS_TYPE_SPI true)
      (zero_record ++ clipping_record) 2 (sample_state [])).1 = true ∧
    record_clips (sample_config .BUS_TYPE_SPI true) (zero_record ++ clipping_record) 1 = true ∧
    clip_count (_accumulate_fast_sampling (sample_config .BUS_TYPE_SPI true)
      (zero_record ++ clipping_record) 2 (sample_state [])).2.trace
      = clip_count (sample_state []).trace := by
  decide

/-! ## Effects of the steps of the drain state machine -/

/-- The integrity check: the calls it makes, and its result. -/
theorem check_registers_trace (s : State) :
    (check_registers s).1 = true ∧
    (check_registers s).2.trace = s.trace ++
      ([Event.set_speed .SPEED_LOW, Event.check_next_register (next_reply s).1.ok] ++
        (if (next_reply s).1.ok then []
         else [Event.inc_gyro_error_count, Event.inc_accel_error_count]) ++
        [Event.set_speed .SPEED_HIGH]) := by
  cases hs : s.tape with
  | nil => simp [check_registers, check_next_register, set_speed, next_reply, hs, emit]
  | cons r rest =>
    cases hr : r.ok <;>
      simp [check_registers, check_next_register, set_speed, next_reply, hs, hr, emit]

theorem check_registers_counts (s : State) :
    reset_count (check_registers s).2.trace = reset_count s.trace ∧
    validation_failures (check_registers s).2.trace = validation_failures s.trace ∧
    bus_failures (check_registers s).2.trace = bus_failures s.trace ∧
    accel_samples (check_registers s).2.trace = accel_samples s.trace ∧
    gyro_samples (check_registers s).2.trace = gyro_samples s.trace ∧
    clip_count (check_registers s).2.trace = clip_count s.trace := by
  rw [(check_registers_trace s).2]
  cases (next_reply s).1.ok <;>
    simp [reset_count, validation_failures, bus_failures, accel_samples, gyro_samples,
      clip_count, is_reset_pulse, is_temp_reset, is_bus_failure, is_accel_sample,
      is_gyro_sample, is_clip]

theorem query_count_counts (s : State) :
    reset_count (query_count s).2.trace = reset_count s.trace ∧
    validation_failures (query_count s).2.trace = validation_failures s.trace ∧
    bus_failures (query_count s).2.trace
      = bus_failures s.trace + (if (query_count s).1 = none then 1 else 0) ∧
    accel_samples (query_count s).2.trace = accel_samples s.trace ∧
    gyro_samples (query_count s).2.trace = gyro_samples s.trace ∧
    clip_count (query_count s).2.trace = clip_count s.trace ∧
    (query_count s).2._accum = s._accum := by
  cases hs : s.tape with
  | nil =>
    simp [query_count, _block_read, read_registers, next_reply, hs, emit, reset_count,
      validation_failures, bus_failures, accel_samples, gyro_samples, clip_count,
      is_reset_pulse, is_temp_reset, is_bus_failure, is_accel_sample, is_gyro_sample, is_clip]
  | cons r rest =>
    cases hr : r.ok <;>
      simp [query_count, _block_read, read_registers, next_reply, hs, hr, emit, reset_count,
        validation_failures, bus_failures, accel_samples, gyro_samples, clip_count,
        is_reset_pulse, is_temp_reset, is_bus_failure, is_accel_sample, is_gyro_sample,
        is_clip]

theorem fifo_transfer_counts (cfg : Config) (n : Nat) (s : State) :
    reset_count (fifo_transfer cfg n s).2.trace = reset_count s.trace ∧
    validation_failures (fifo_transfer cfg n s).2.trace = validation_failures s.trace ∧
    bus_failures (fifo_transfer cfg n s).2.trace
      = bus_failures s.trace + (if (fifo_transfer cfg n s).1 then 0 else 1) ∧
    accel_samples (fifo_transfer cfg n s).2.trace = accel_samples s.trace ∧
    gyro_samples (fifo_transfer cfg n s).2.trace = gyro_samples s.trace ∧
    clip_count (fifo_transfer cfg n s).2.trace = clip_count s.trace ∧
    (fifo_transfer cfg n s).2._accum = s._accum := by
  cases hb : cfg.bus_type
  · -- I2C
    cases hs : s.tape with
    | nil =>
      simp [fifo_transfer, hb, _block_read, read_registers, next_reply, hs, emit, reset_count,
        validation_failures, bus_failures, accel_samples, gyro_samples, clip_count,
        is_reset_pulse, is_temp_reset, is_bus_failure, is_accel_sample, is_gyro_sample,
        is_clip]
    | cons r rest =>
      cases hr : r.ok <;>
        simp [fifo_transfer, hb, _block_read, read_registers, next_reply, hs, hr, emit,
          reset_count, validation_failures, bus_failures, accel_samples, gyro_samples,
          clip_count, is_reset_pulse, is_temp_reset, is_bus_failure, is_accel_sample,
          is_gyro_sample, is_clip]
  · -- SPI
    cases hs : s.tape with
    | nil =>
      simp [fifo_transfer, hb, transfer, set_chip_select, next_reply, hs, emit, reset_count,
        validation_failures, bus_failures, accel_samples, gyro_samples, clip_count,
        is_reset_pulse, is_temp_reset, is_bus_failure, is_accel_sample, is_gyro_sample,
        is_clip]
    | cons r rest =>
      cases hr : r.ok
      · simp [fifo_transfer, hb, transfer, set_chip_select, next_reply, hs, hr, emit,
          reset_count, validation_failures, bus_failures, accel_samples, gyro_samples,
          clip_count, is_reset_pulse, is_temp_reset, is_bus_failure, is_accel_sample,
          is_gyro_sample, is_clip]
      · cases hs2 : rest with
        | nil =>
          simp [fifo_transfer, hb, transfer, set_chip_select, next_reply, hs, hr, hs2, emit,
            reset_count, validation_failures, bus_failures, accel_samples, gyro_samples,
            clip_count, is_reset_pulse, is_temp_reset, is_bus_failure, is_accel_sample,
            is_gyro_sample, is_clip]
        | cons r2 rest2 =>
          cases hr2 : r2.ok <;>
            simp [fifo_transfer, hb, transfer, set_chip_select, next_reply, hs, hr, hs2, hr2,
              emit, reset_count, validation_failures, bus_failures, accel_samples,
              gyro_samples, clip_count, is_reset_pulse, is_temp_reset, is_bus_failure,
              is_accel_sample, is_gyro_sample, is_clip]

theorem convert_counts (cfg : Config) (n : Nat) (s : State) :
    reset_count (convert cfg n s).2.trace
      = reset_count s.trace + (if (convert cfg n s).1 then 0 else 1) ∧
    validation_failures (convert cfg n s).2.trace
      = validation_failures s.trace + (if (convert cfg n s).1 then 0 else 1) ∧
    bus_failures s.trace ≤ bus_failures (convert cfg n s).2.trace ∧
    clip_count s.trace ≤ clip_count (convert cfg n s).2.trace ∧
    clip_count (convert cfg n s).2.trace ≤ clip_count s.trace + 1 := by
  cases hf : cfg._fast_sampling
  · obtain ⟨h1, h2, h3, h4, -⟩ := accumulate_loop_counts cfg s._fifo_buffer n 0 s
    simp only [convert, hf, _accumulate, Bool.false_eq_true, if_false]
    refine ⟨h1, h2, h3, ?_, ?_⟩ <;> omega
  · obtain ⟨h1, h2, h3, h4⟩ := fast_sampling_counts cfg s._fifo_buffer n s
    simp only [convert, hf, if_true]
    refine ⟨h1, h2, h3, ?_, ?_⟩
    · omega
    · rw [h4]; split <;> omega

/-! ## The drain loop -/

theorem drain_done (cfg : Config) (bytes_read fuel : Nat) (s : State) :
    drain cfg bytes_read fuel 0 s = (true, s) := by
  cases fuel <;> simp [drain]

theorem drain_transfer_failed (cfg : Config) (bytes_read fuel n : Nat) (s : State)
    (hn : 0 < n) (hx : (fifo_transfer cfg (min MPU_FIFO_BUFFER_LEN n) s).1 = false) :
    drain cfg bytes_read (fuel + 1) n s
      = (false, (fifo_transfer cfg (min MPU_FIFO_BUFFER_LEN n) s).2) := by
  simp [drain, hn, hx]

theorem drain_convert_failed (cfg : Config) (bytes_read fuel n : Nat) (s : State)
    (hn : 0 < n) (hx : (fifo_transfer cfg (min MPU_FIFO_BUFFER_LEN n) s).1 = true)
    (hc : (convert cfg (min MPU_FIFO_BUFFER_LEN n)
      (fifo_transfer cfg (min MPU_FIFO_BUFFER_LEN n) s).2).1 = false) :
    drain cfg bytes_read (fuel + 1) n s
      = (true,
          if cfg._fast_sampling then
            emit (.debug_stop_at n (bytes_read / MPU_SAMPLE_SIZE))
              (convert cfg (min MPU_FIFO_BUFFER_LEN n)
                (fifo_transfer cfg (min MPU_FIFO_BUFFER_LEN n) s).2).2
          else
            (convert cfg (min MPU_FIFO_BUFFER_LEN n)
              (fifo_transfer cfg (min MPU_FIFO_BUFFER_LEN n) s).2).2) := by
  cases hf : cfg._fast_sampling <;> simp [drain, hn, hx, hc, hf]

theorem drain_continue (cfg : Config) (bytes_read fuel n : Nat) (s : State)
    (hn : 0 < n) (hx : (fifo_transfer cfg (min MPU_FIFO_BUFFER_LEN n) s).1 = true)
    (hc : (convert cfg (min MPU_FIFO_BUFFER_LEN n)
      (fifo_transfer cfg (min MPU_FIFO_BUFFER_LEN n) s).2).1 = true) :
    drain cfg bytes_read (fuel + 1) n s
      = drain cfg bytes_read fuel (n - min MPU_FIFO_BUFFER_LEN n)
          (convert cfg (min MPU_FIFO_BUFFER_LEN n)
            (fifo_transfer cfg (min MPU_FIFO_BUFFER_LEN n) s).2).2 := by
  simp [drain, hn, hx, hc]

theorem drain_counts (cfg : Config) (bytes_read fuel : Nat) :
    ∀ (n : Nat) (s : State),
      bus_failures s.trace ≤ bus_failures (drain cfg bytes_read fuel n s).2.trace ∧
      validation_failures s.trace ≤ validation_failures (drain cfg bytes_read fuel n s).2.trace ∧
      clip_count s.trace ≤ clip_count (drain cfg bytes_read fuel n s).2.trace ∧
      clip_count (drain cfg bytes_read fuel n s).2.trace ≤ clip_count s.trace + (n + 15) / 16 ∧
      ((validation_failures (drain cfg bytes_read fuel n s).2.trace = validation_failures s.trace ∧
          reset_count (drain cfg bytes_read fuel n s).2.trace = reset_count s.trace) ∨
        (validation_failures (drain cfg bytes_read fuel n s).2.trace
            = validation_failures s.trace + 1 ∧
          reset_count (drain cfg bytes_read fuel n s).2.trace = reset_count s.trace + 1 ∧
          (drain cfg bytes_read fuel n s).1 = true)) ∧
      ((drain cfg bytes_read fuel n s).1 = false →
        bus_failures s.trace < bus_failures (drain cfg bytes_read fuel n s).2.trace ∧
        validation_failures (drain cfg bytes_read fuel n s).2.trace
          = validation_failures s.trace) := by
  induction fuel with
  | zero => intro n s; simp [drain]
  | succ fuel ih =>
    intro n s
    rcases Nat.eq_zero_or_pos n with hn | hn
    · subst hn; rw [drain_done]; simp
    · obtain ⟨x1, x2, x3, -, -, x6, -⟩ := fifo_transfer_counts cfg (min MPU_FIFO_BUFFER_LEN n) s
      cases hx : (fifo_transfer cfg (min MPU_FIFO_BUFFER_LEN n) s).1
      · rw [drain_transfer_failed cfg bytes_read fuel n s hn hx]
        rw [hx] at x3
        simp only [Bool.false_eq_true, if_false] at x3
        simp only [true_implies]
        refine ⟨by omega, by omega, by omega, by omega, Or.inl ⟨by omega, by omega⟩,
          by omega, by omega⟩
      · rw [hx] at x3
        simp only [if_true] at x3
        obtain ⟨c1, c2, c3, c4, c5⟩ := convert_counts cfg (min MPU_FIFO_BUFFER_LEN n)
          (fifo_transfer cfg (min MPU_FIFO_BUFFER_LEN n) s).2
        cases hc : (convert cfg (min MPU_FIFO_BUFFER_LEN n)
            (fifo_transfer cfg (min MPU_FIFO_BUFFER_LEN n) s).2).1
        · rw [drain_convert_failed cfg bytes_read fuel n s hn hx hc]
          rw [hc] at c1 c2
          simp only [Bool.false_eq_true, if_false] at c1 c2
          have hpos : 1 ≤ (n + 15) / 16 := by omega
          cases cfg._fast_sampling <;>
            simp [emit, reset_count, validation_failures, bus_failures, clip_count,
              is_reset_pulse, is_temp_reset, is_bus_failure, is_clip] <;>
            simp only [reset_count, validation_failures, bus_failures, clip_count]
              at c1 c2 c3 c4 c5 x1 x2 x3 x6 <;>
            refine ⟨by omega, by omega, by omega, by omega, Or.inr ⟨by omega, by omega⟩⟩
        · rw [drain_continue cfg bytes_read fuel n s hn hx hc]
          rw [hc] at c1 c2
          simp only [if_true] at c1 c2
          obtain ⟨h1, h2, h3, h4, h5, h6⟩ := ih (n - min MPU_FIFO_BUFFER_LEN n)
            (convert cfg (min MPU_FIFO_BUFFER_LEN n)
              (fifo_transfer cfg (min MPU_FIFO_BUFFER_LEN n) s).2).2
          have hB : MPU_FIFO_BUFFER_LEN = 16 := rfl
          simp only [hB] at *
          have hdiv : (n - min 16 n + 15) / 16 + 1 ≤ (n + 15) / 16 := by omega
          refine ⟨by omega, by omega, by omega, by omega, ?_, ?_⟩
          · rcases h5 with ⟨a, b⟩ | ⟨a, b, c⟩
            · exact Or.inl ⟨by omega, by omega⟩
            · exact Or.inr ⟨by omega, by omega, c⟩
          · intro hd
            have := h6 hd
            omega

/-- One iteration of the loop in a run without bus failure and without
validation failure: the transfer and the converter both succeed. -/
theorem drain_clean_step (cfg : Config) (bytes_read fuel n : Nat) (s : State)
    (hf : 0 < fuel) (hn : 0 < n)
    (hbus : bus_failures (drain cfg bytes_read fuel n s).2.trace = bus_failures s.trace)
    (hval : validation_failures (drain cfg bytes_read fuel n s).2.trace
      = validation_failures s.trace) :
    (fifo_transfer cfg (min MPU_FIFO_BUFFER_LEN n) s).1 = true ∧
    (convert cfg (min MPU_FIFO_BUFFER_LEN n)
      (fifo_transfer cfg (min MPU_FIFO_BUFFER_LEN n) s).2).1 = true ∧
    drain cfg bytes_read fuel n s
      = drain cfg bytes_read (fuel - 1) (n - min MPU_FIFO_BUFFER_LEN n)
          (convert cfg (min MPU_FIFO_BUFFER_LEN n)
            (fifo_transfer cfg (min MPU_FIFO_BUFFER_LEN n) s).2).2 ∧
    bus_failures (convert cfg (min MPU_FIFO_BUFFER_LEN n)
      (fifo_transfer cfg (min MPU_FIFO_BUFFER_LEN n) s).2).2.trace = bus_failures s.trace ∧
    validation_failures (convert cfg (min MPU_FIFO_BUFFER_LEN n)
      (fifo_transfer cfg (min MPU_FIFO_BUFFER_LEN n) s).2).2.trace
      = validation_failures s.trace := by
  obtain ⟨f, rfl⟩ : ∃ f, fuel = f + 1 := ⟨fuel - 1, by omega⟩
  obtain ⟨x1, x2, x3, -, -, x6, -⟩ := fifo_transfer_counts cfg (min MPU_FIFO_BUFFER_LEN n) s
  obtain ⟨c1, c2, c3, c4, c5⟩ := convert_counts cfg (min MPU_FIFO_BUFFER_LEN n)
    (fifo_transfer cfg (min MPU_FIFO_BUFFER_LEN n) s).2
  cases hx : (fifo_transfer cfg (min MPU_FIFO_BUFFER_LEN n) s).1
  · rw [drain_transfer_failed cfg bytes_read f n s hn hx] at hbus
    rw [hx] at x3
    simp only [Bool.false_eq_true, if_false] at x3
    dsimp only at hbus
    omega
  · rw [hx] at x3
    simp only [if_true] at x3
    cases hc : (convert cfg (min MPU_FIFO_BUFFER_LEN n)
        (fifo_transfer cfg (min MPU_FIFO_BUFFER_LEN n) s).2).1
    · rw [drain_convert_failed cfg bytes_read f n s hn hx hc] at hval
      rw [hc] at c2
      simp only [Bool.false_eq_true, if_false] at c2
      exfalso
      revert hval
      cases cfg._fast_sampling <;>
        simp [emit, validation_failures, is_temp_reset] <;>
        simp only [validation_failures] at c2 x2 <;> omega
    · rw [drain_continue cfg bytes_read f n s hn hx hc] at hbus hval ⊢
      obtain ⟨h1, h2, -, -, -, -⟩ := drain_counts cfg bytes_read f
        (n - min MPU_FIFO_BUFFER_LEN n)
        (convert cfg (min MPU_FIFO_BUFFER_LEN n)
          (fifo_transfer cfg (min MPU_FIFO_BUFFER_LEN n) s).2).2
      rw [hc] at c2
      simp only [if_true] at c2
      refine ⟨rfl, rfl, rfl, by omega, by omega⟩

/-! ## The tick -/

theorem read_sample_nothing_pending (cfg : Config) (s : State) (h : pending_records s = 0) :
    _read_sample cfg s = check_registers (query_count s).2 := by
  unfold pending_records at h
  cases hq : (query_count s).1 with
  | none => simp [_read_sample, hq]
  | some p =>
    rw [hq] at h
    simp only at h
    simp [_read_sample, hq, h]

theorem read_sample_pending (cfg : Config) (s : State) (h : pending_records s ≠ 0) :
    ∃ p, (query_count s).1 = some p ∧ record_count p = pending_records s ∧
      _read_sample cfg s =
        if (drain cfg p (drained_records s) (drained_records s) (query_count s).2).1 = false then
          check_registers
            (drain cfg p (drained_records s) (drained_records s) (query_count s).2).2
        else
          check_registers
            (if pending_records s > 32 then
              _fifo_reset
                (drain cfg p (drained_records s) (drained_records s) (query_count s).2).2
             else (drain cfg p (drained_records s) (drained_records s) (query_count s).2).2) := by
  unfold drained_records
  unfold pending_records at h ⊢
  cases hq : (query_count s).1 with
  | none => rw [hq] at h; simp at h
  | some p =>
    rw [hq] at h
    simp only at h
    refine ⟨p, rfl, rfl, ?_⟩
    simp [_read_sample, hq, h]

/-- Counts over a whole tick: a tick reports at most one validation failure;
when it reports one, the FIFO is reset once by the converter and once more if the
overflow policy had fired; when it reports none, the FIFO is reset at most once. -/
theorem read_sample_counts (cfg : Config) (s : State) :
    (_read_sample cfg s).1 = true ∧
    bus_failures s.trace ≤ bus_failures (_read_sample cfg s).2.trace ∧
    clip_count s.trace ≤ clip_count (_read_sample cfg s).2.trace ∧
    clip_count (_read_sample cfg s).2.trace
      ≤ clip_count s.trace + (drained_records s + 15) / 16 ∧
    ((validation_failures (_read_sample cfg s).2.trace = validation_failures s.trace ∧
        reset_count (_read_sample cfg s).2.trace ≤ reset_count s.trace + 1) ∨
      (validation_failures (_read_sample cfg s).2.trace = validation_failures s.trace + 1 ∧
        reset_count (_read_sample cfg s).2.trace
          = reset_count s.trace + (if pending_records s > 32 then 2 else 1))) := by
  obtain ⟨q1, q2, q3, q4, q5, q6, q7⟩ := query_count_counts s
  by_cases h : pending_records s = 0
  · rw [read_sample_nothing_pending cfg s h]
    obtain ⟨k1, k2, k3, k4, k5, k6⟩ := check_registers_counts (query_count s).2
    refine ⟨(check_registers_trace _).1, by omega, by omega, by omega, Or.inl ⟨by omega, by omega⟩⟩
  · obtain ⟨p, hq, hp, hT⟩ := read_sample_pending cfg s h
    rw [hT]
    obtain ⟨d1, d2, d3, d4, d5, d6⟩ := drain_counts cfg p (drained_records s) (drained_records s)
      (query_count s).2
    cases hd : (drain cfg p (drained_records s) (drained_records s) (query_count s).2).1
    · obtain ⟨k1, k2, k3, k4, k5, k6⟩ := check_registers_counts
        (drain cfg p (drained_records s) (drained_records s) (query_count s).2).2
      obtain ⟨e1, e2⟩ := d6 hd
      simp only [if_true]
      refine ⟨(check_registers_trace _).1, by omega, by omega, by omega, Or.inl ⟨by omega, ?_⟩⟩
      rcases d5 with ⟨a, b⟩ | ⟨a, b, c⟩
      · omega
      · rw [hd] at c; simp at c
    · simp only [Bool.true_eq_false, if_false]
      by_cases ho : pending_records s > 32
      · simp only [ho, if_true]
        obtain ⟨k1, k2, k3, k4, k5, k6⟩ := check_registers_counts
          (_fifo_reset (drain cfg p (drained_records s) (drained_records s) (query_count s).2).2)
        obtain ⟨r1, r2, r3, r4, r5, r6⟩ := fifo_reset_counts
          (drain cfg p (drained_records s) (drained_records s) (query_count s).2).2
        refine ⟨(check_registers_trace _).1, by omega, by omega, by omega, ?_⟩
        rcases d5 with ⟨a, b⟩ | ⟨a, b, c⟩
        · exact Or.inl ⟨by omega, by omega⟩
        · exact Or.inr ⟨by omega, by omega⟩
      · simp only [ho, if_false]
        obtain ⟨k1, k2, k3, k4, k5, k6⟩ := check_registers_counts
          (drain cfg p (drained_records s) (drained_records s) (query_count s).2).2
        refine ⟨(check_registers_trace _).1, by omega, by omega, by omega, ?_⟩
        rcases d5 with ⟨a, b⟩ | ⟨a, b, c⟩
        · exact Or.inl ⟨by omega, by omega⟩
        · exact Or.inr ⟨by omega, by omega⟩

/-- C3, as amended. Corruption recovery: for every tick, in either converter mode
and for every pending record count, in which a drained record fails temperature
validation (its temperature differs from the cached reference by 400 or more and
still does after the re-read), validation is reported failed exactly once; the
FIFO Reset Protocol is performed exactly once during that tick when at most 32
records were pending, and exactly twice (once by the converter, once by the
overflow policy) when more than 32 were pending. -/
theorem corruption_recovery (cfg : Config) (s : State)
    (hfail : validation_failures (_read_sample cfg s).2.trace ≠ validation_failures s.trace) :
    validation_failures (_read_sample cfg s).2.trace = validation_failures s.trace + 1 ∧
    reset_count (_read_sample cfg s).2.trace
      = reset_count s.trace + (if pending_records s > 32 then 2 else 1) := by
  rcases (read_sample_counts cfg s).2.2.2.2 with ⟨a, _⟩ | ⟨a, b⟩
  · exact absurd a hfail
  · exact ⟨a, b⟩

theorem corruption_recovery_witness :
    validation_failures (_read_sample (sample_config .BUS_TYPE_I2C false)
        (sample_state [ok_reply [0, 28],
          ok_reply (record_bytes [(0, 0), (0, 0), (0, 0), (0x10, 0)]), ok_reply [0, 0]])).2.trace
      ≠ validation_failures (sample_state [ok_reply [0, 28],
          ok_reply (record_bytes [(0, 0), (0, 0), (0, 0), (0x10, 0)]), ok_reply [0, 0]]).trace ∧
    reset_count (_read_sample (sample_config .BUS_TYPE_I2C false)
        (sample_state [ok_reply [0, 28],
          ok_reply (record_bytes [(0, 0), (0, 0), (0, 0), (0x10, 0)]), ok_reply [0, 0]])).2.trace
      = reset_count (sample_state [ok_reply [0, 28],
          ok_reply (record_bytes [(0, 0), (0, 0), (0, 0), (0x10, 0)]), ok_reply [0, 0]]).trace
        + (if pending_records (sample_state [ok_reply [0, 28],
          ok_reply (record_bytes [(0, 0), (0, 0), (0, 0), (0x10, 0)]), ok_reply [0, 0]]) > 32
           then 2 else 1) :=
  ⟨by decide,
    (corruption_recovery (sample_config .BUS_TYPE_I2C false)
      (sample_state [ok_reply [0, 28],
        ok_reply (record_bytes [(0, 0), (0, 0), (0, 0), (0x10, 0)]), ok_reply [0, 0]])
      (by decide)).2⟩

/-- C3, counterexample to the claim as stated: with 40 records pending (560
bytes) and a first record whose temperature 4096 differs by at least 400 from the
cached reference 0 and from the re-read reference 0, the tick reports one
validation failure and performs the FIFO Reset Protocol twice. -/
theorem corruption_with_overflow_resets_twice :
    pending_records (sample_state [ok_reply [2, 48], ok_reply [],
        ok_reply (record_bytes [(0, 0), (0, 0), (0, 0), (0x10, 0)]), ok_reply [0, 0]]) = 40 ∧
    validation_failures (_read_sample (sample_config .BUS_TYPE_SPI true)
        (sample_state [ok_reply [2, 48], ok_reply [],
          ok_reply (record_bytes [(0, 0), (0, 0), (0, 0), (0x10, 0)]),
          ok_reply [0, 0]])).2.trace = 1 ∧
    reset_count (_read_sample (sample_config .BUS_TYPE_SPI true)
        (sample_state [ok_reply [2, 48], ok_reply [],
          ok_reply (record_bytes [(0, 0), (0, 0), (0, 0), (0x10, 0)]),
          ok_reply [0, 0]])).2.trace = 2 := by
  decide

theorem drained_records_le (s : State) : drained_records s ≤ 32 := by
  unfold drained_records
  split <;> omega

theorem drained_records_pos (s : State) (h : pending_records s ≠ 0) : 0 < drained_records s := by
  unfold drained_records
  split <;> omega

/-- A tick with records pending, no failed bus transfer and no validation
failure: both blocks are transferred and converted in full, and the tick ends
with the optional overflow reset followed by the integrity check. -/
theorem read_sample_clean (cfg : Config) (s : State) (hpend : pending_records s ≠ 0)
    (hbus : bus_failures (_read_sample cfg s).2.trace = bus_failures s.trace)
    (hval : validation_failures (_read_sample cfg s).2.trace = validation_failures s.trace) :
    (fifo_transfer cfg (block1_size s) (query_count s).2).1 = true ∧
    (convert cfg (block1_size s) (block1_in cfg s)).1 = true ∧
    (block2_size s ≠ 0 →
      (fifo_transfer cfg (block2_size s) (block1_out cfg s)).1 = true ∧
      (convert cfg (block2_size s) (block2_in cfg s)).1 = true) ∧
    _read_sample cfg s = check_registers
      (if pending_records s > 32 then
        _fifo_reset (if block2_size s = 0 then block1_out cfg s else block2_out cfg s)
       else (if block2_size s = 0 then block1_out cfg s else block2_out cfg s)) := by
  obtain ⟨p, hq, hp, hT⟩ := read_sample_pending cfg s hpend
  obtain ⟨q1, q2, q3, q4, q5, q6, q7⟩ := query_count_counts s
  have hn := drained_records_pos s hpend
  have hle := drained_records_le s
  obtain ⟨d1, d2, d3, d4, d5, d6⟩ := drain_counts cfg p (drained_records s) (drained_records s)
    (query_count s).2
  -- the loop was not left through the jump to check_registers
  have hD : (drain cfg p (drained_records s) (drained_records s) (query_count s).2).1 = true := by
    cases hd : (drain cfg p (drained_records s) (drained_records s) (query_count s).2).1
    · exfalso
      obtain ⟨e1, e2⟩ := d6 hd
      rw [hT, hd] at hbus
      simp only [if_true] at hbus
      obtain ⟨k1, k2, k3, k4, k5, k6⟩ := check_registers_counts
        (drain cfg p (drained_records s) (drained_records s) (query_count s).2).2
      omega
    · rfl
  rw [hD] at hT
  simp only [Bool.true_eq_false, if_false] at hT
  have hBV : bus_failures (drain cfg p (drained_records s) (drained_records s)
        (query_count s).2).2.trace = bus_failures (query_count s).2.trace ∧
      validation_failures (drain cfg p (drained_records s) (drained_records s)
        (query_count s).2).2.trace = validation_failures (query_count s).2.trace := by
    rw [hT] at hbus hval
    by_cases ho : pending_records s > 32
    · simp only [ho, if_true] at hbus hval
      obtain ⟨k1, k2, k3, k4, k5, k6⟩ := check_registers_counts
        (_fifo_reset (drain cfg p (drained_records s) (drained_records s) (query_count s).2).2)
      obtain ⟨r1, r2, r3, r4, r5, r6⟩ := fifo_reset_counts
        (drain cfg p (drained_records s) (drained_records s) (query_count s).2).2
      constructor <;> omega
    · simp only [ho, if_false] at hbus hval
      obtain ⟨k1, k2, k3, k4, k5, k6⟩ := check_registers_counts
        (drain cfg p (drained_records s) (drained_records s) (query_count s).2).2
      constructor <;> omega
  obtain ⟨a1, a2, a3, a4, a5⟩ := drain_clean_step cfg p (drained_records s) (drained_records s)
    (query_count s).2 hn hn hBV.1 hBV.2
  have hb1 : min MPU_FIFO_BUFFER_LEN (drained_records s) = block1_size s := rfl
  rw [hb1] at a1 a2 a3 a4 a5
  have hb2 : drained_records s - block1_size s = block2_size s := rfl
  rw [hb2] at a3
  have ho1 : (convert cfg (block1_size s)
      (fifo_transfer cfg (block1_size s) (query_count s).2).2).2 = block1_out cfg s := rfl
  rw [ho1] at a3 a4 a5
  have hsz : block1_size s = min 16 (drained_records s) := rfl
  by_cases h2 : block2_size s = 0
  · refine ⟨a1, a2, fun h => absurd h2 h, ?_⟩
    rw [hT, a3, h2, drain_done]
    simp [h2]
  · have hf2 : 0 < drained_records s - 1 := by
      have : block2_size s = drained_records s - min 16 (drained_records s) := rfl
      omega
    have hn2 : 0 < block2_size s := by omega
    rw [a3] at hBV
    obtain ⟨b1, b2, b3, b4, b5⟩ := drain_clean_step cfg p (drained_records s - 1) (block2_size s)
      (block1_out cfg s) hf2 hn2 (by omega) (by omega)
    have hm : min MPU_FIFO_BUFFER_LEN (block2_size s) = block2_size s := by
      have : block2_size s = drained_records s - min 16 (drained_records s) := rfl
      have hB : MPU_FIFO_BUFFER_LEN = 16 := rfl
      rw [hB]
      omega
    rw [hm] at b1 b2 b3
    refine ⟨a1, a2, fun _ => ⟨b1, b2⟩, ?_⟩
    rw [hT, a3, b3, Nat.sub_self, drain_done]
    simp [h2, block2_out, block2_in]

theorem convert_direct_samples (cfg : Config) (n : Nat) (s : State)
    (hmode : cfg._fast_sampling = false) (hret : (convert cfg n s).1 = true) :
    accel_samples (convert cfg n s).2.trace = accel_samples s.trace + n ∧
    gyro_samples (convert cfg n s).2.trace = gyro_samples s.trace + n := by
  simp only [convert, hmode, _accumulate, Bool.false_eq_true, if_false] at hret ⊢
  exact (accumulate_loop_counts cfg s._fifo_buffer n 0 s).2.2.2.2 hret

theorem convert_fast_cadence (cfg : Config) (n : Nat) (s : State)
    (hmode : cfg._fast_sampling = true) (hc : s._accum.count < 8)
    (hret : (convert cfg n s).1 = true) :
    (convert cfg n s).2._accum.count = (s._accum.count + n) % 8 ∧
    accel_samples (convert cfg n s).2.trace
      = accel_samples s.trace + (s._accum.count + n) / 8 ∧
    gyro_samples (convert cfg n s).2.trace
      = gyro_samples s.trace + (s._accum.count + n) / 8 := by
  simp only [convert, hmode, if_true] at hret ⊢
  obtain ⟨h1, h2, h3, -⟩ := fast_sampling_cadence cfg s._fifo_buffer n s hc hret
  exact ⟨h1, h2, h3⟩

theorem convert_fast_clip (cfg : Config) (n : Nat) (s : State)
    (hmode : cfg._fast_sampling = true) (hret : (convert cfg n s).1 = true) :
    clip_count (convert cfg n s).2.trace
      = clip_count s.trace
        + (if contributing_clip cfg s._fifo_buffer n s._accum.count then 1 else 0) := by
  simp only [convert, hmode, if_true] at hret ⊢
  exact fast_sampling_clip_count cfg s._fifo_buffer n s hret

/-- C1. Overflow handling: in every tick in which the overflow policy fires (the
record count read from the FIFO exceeds 32), no bus read or transfer fails and no
record fails temperature validation, the drain loop transfers a block of 16
records and hands it to the active converter, which accepts all of it, then does
the same with a block of 8 records, so that 24 records are converted (24 accel
and gyro samples in direct mode; the window count advanced by 24 in fast-sampling
mode); no FIFO reset pulse is issued up to that point, and the tick then runs the
FIFO Reset Protocol exactly once, followed by the integrity check. -/
theorem overflow_drains_24_then_resets (cfg : Config) (s : State)
    (hover : pending_records s > 32)
    (hbus : bus_failures (_read_sample cfg s).2.trace = bus_failures s.trace)
    (hval : validation_failures (_read_sample cfg s).2.trace = validation_failures s.trace) :
    (block1_size s = 16 ∧ block2_size s = 8) ∧
    ((fifo_transfer cfg 16 (query_count s).2).1 = true ∧
      (convert cfg 16 (block1_in cfg s)).1 = true ∧
      (fifo_transfer cfg 8 (block1_out cfg s)).1 = true ∧
      (convert cfg 8 (block2_in cfg s)).1 = true) ∧
    _read_sample cfg s = check_registers (_fifo_reset (block2_out cfg s)) ∧
    reset_count (block2_out cfg s).trace = reset_count s.trace ∧
    reset_count (_read_sample cfg s).2.trace = reset_count s.trace + 1 ∧
    (cfg._fast_sampling = false →
      accel_samples (block2_out cfg s).trace = accel_samples s.trace + 24 ∧
      gyro_samples (block2_out cfg s).trace = gyro_samples s.trace + 24) ∧
    (cfg._fast_sampling = true → s._accum.count < 8 →
      (block2_out cfg s)._accum.count = (s._accum.count + 24) % 8 ∧
      accel_samples (block2_out cfg s).trace
        = accel_samples s.trace + (s._accum.count + 24) / 8 ∧
      gyro_samples (block2_out cfg s).trace
        = gyro_samples s.trace + (s._accum.count + 24) / 8) := by
  have hpend : pending_records s ≠ 0 := by omega
  have hd : drained_records s = 24 := by simp [drained_records, hover]
  have hs1 : block1_size s = 16 := by simp [block1_size, hd, MPU_FIFO_BUFFER_LEN]
  have hs2 : block2_size s = 8 := by simp [block2_size, hd, hs1]
  obtain ⟨c1, c2, c3, hT⟩ := read_sample_clean cfg s hpend hbus hval
  obtain ⟨c3, c4⟩ := c3 (by omega)
  simp only [hover, if_true, hs2] at hT
  simp only [show (8 : Nat) = 0 ↔ False from by decide, if_false] at hT
  obtain ⟨q1, q2, q3, q4, q5, q6, q7⟩ := query_count_counts s
  obtain ⟨x1, x2, x3, x4, x5, x6, x7⟩ := fifo_transfer_counts cfg (block1_size s) (query_count s).2
  obtain ⟨y1, y2, y3, y4, y5⟩ := convert_counts cfg (block1_size s) (block1_in cfg s)
  obtain ⟨z1, z2, z3, z4, z5, z6, z7⟩ := fifo_transfer_counts cfg (block2_size s) (block1_out cfg s)
  obtain ⟨w1, w2, w3, w4, w5⟩ := convert_counts cfg (block2_size s) (block2_in cfg s)
  rw [c2] at y1 y2
  rw [c4] at w1 w2
  simp only [if_true] at y1 w1
  have e1 : (fifo_transfer cfg (block1_size s) (query_count s).2).2 = block1_in cfg s := rfl
  have e2 : (convert cfg (block1_size s) (block1_in cfg s)).2 = block1_out cfg s := rfl
  have e3 : (fifo_transfer cfg (block2_size s) (block1_out cfg s)).2 = block2_in cfg s := rfl
  have e4 : (convert cfg (block2_size s) (block2_in cfg s)).2 = block2_out cfg s := rfl
  rw [e1] at x1 x4 x5 x7
  rw [e2] at y1
  rw [e3] at z1 z4 z5 z7
  rw [e4] at w1
  have hR : reset_count (block2_out cfg s).trace = reset_count s.trace := by omega
  obtain ⟨r1, -⟩ := fifo_reset_counts (block2_out cfg s)
  obtain ⟨k1, -⟩ := check_registers_counts (_fifo_reset (block2_out cfg s))
  refine ⟨⟨hs1, hs2⟩, ⟨hs1 ▸ c1, hs1 ▸ c2, hs2 ▸ c3, hs2 ▸ c4⟩, hT, hR, ?_, ?_, ?_⟩
  · rw [hT]; omega
  · intro hmode
    obtain ⟨m1, m2⟩ := convert_direct_samples cfg (block1_size s) (block1_in cfg s) hmode c2
    obtain ⟨m3, m4⟩ := convert_direct_samples cfg (block2_size s) (block2_in cfg s) hmode c4
    rw [e2] at m1 m2
    rw [e4] at m3 m4
    constructor <;> omega
  · intro hmode hcnt
    have hc1 : (block1_in cfg s)._accum.count < 8 := by rw [x7, q7]; exact hcnt
    obtain ⟨m1, m2, m3⟩ := convert_fast_cadence cfg (block1_size s) (block1_in cfg s) hmode hc1 c2
    rw [e2, x7, q7] at m1 m2 m3
    have hc2 : (block2_in cfg s)._accum.count < 8 := by
      rw [z7, m1]; exact Nat.mod_lt _ (by decide)
    obtain ⟨n1, n2, n3⟩ := convert_fast_cadence cfg (block2_size s) (block2_in cfg s) hmode hc2 c4
    rw [e4, z7, m1] at n1 n2 n3
    refine ⟨?_, ?_, ?_⟩ <;> omega

theorem overflow_drains_24_then_resets_witness :
    pending_records (sample_state [ok_reply [2, 48], zero_records 16, zero_records 8,
      ok_reply []]) > 32 ∧
    _read_sample (sample_config .BUS_TYPE_I2C false)
        (sample_state [ok_reply [2, 48], zero_records 16, zero_records 8, ok_reply []])
      = check_registers (_fifo_reset (block2_out (sample_config .BUS_TYPE_I2C false)
          (sample_state [ok_reply [2, 48], zero_records 16, zero_records 8, ok_reply []]))) ∧
    reset_count (_read_sample (sample_config .BUS_TYPE_I2C false)
        (sample_state [ok_reply [2, 48], zero_records 16, zero_records 8,
          ok_reply []])).2.trace
      = reset_count (sample_state [ok_reply [2, 48], zero_records 16, zero_records 8,
          ok_reply []]).trace + 1 :=
  ⟨by decide,
    (overflow_drains_24_then_resets (sample_config .BUS_TYPE_I2C false)
      (sample_state [ok_reply [2, 48], zero_records 16, zero_records 8, ok_reply []])
      (by decide) (by decide) (by decide)).2.2.1,
    (overflow_drains_24_then_resets (sample_config .BUS_TYPE_I2C false)
      (sample_state [ok_reply [2, 48], zero_records 16, zero_records 8, ok_reply []])
      (by decide) (by decide) (by decide)).2.2.2.2.1⟩

/-- C9, as amended. Clip counting per block of a tick: in fast-sampling mode the
clip counter is incremented at most once for each block handed to the converter,
so at most twice in a tick and at most once in a tick with at most 16 records
pending; in a tick without failed bus transfer and without validation failure it
is incremented exactly once for each of the one or two drained blocks that holds
a clipping contributing record, and not at all when neither does. -/
theorem clip_count_per_block_of_tick (cfg : Config) (s : State)
    (hfast : cfg._fast_sampling = true) :
    clip_count (_read_sample cfg s).2.trace ≤ clip_count s.trace + 2 ∧
    (pending_records s ≤ 16 → clip_count (_read_sample cfg s).2.trace ≤ clip_count s.trace + 1) ∧
    (bus_failures (_read_sample cfg s).2.trace = bus_failures s.trace →
      validation_failures (_read_sample cfg s).2.trace = validation_failures s.trace →
      clip_count (_read_sample cfg s).2.trace
        = clip_count s.trace
          + (if contributing_clip cfg (block1_in cfg s)._fifo_buffer (block1_size s)
                s._accum.count then 1 else 0)
          + (if contributing_clip cfg (block2_in cfg s)._fifo_buffer (block2_size s)
                (block1_out cfg s)._accum.count then 1 else 0)) := by
  obtain ⟨-, -, t3, t4, -⟩ := read_sample_counts cfg s
  have hle := drained_records_le s
  refine ⟨by omega, ?_, ?_⟩
  · intro h16
    have : drained_records s ≤ 16 := by
      unfold drained_records; split <;> omega
    omega
  · intro hbus hval
    obtain ⟨q1, q2, q3, q4, q5, q6, q7⟩ := query_count_counts s
    by_cases hpend : pending_records s = 0
    · have hd : drained_records s = 0 := by simp [drained_records, hpend]
      have hs1 : block1_size s = 0 := by simp [block1_size, hd]
      have hs2 : block2_size s = 0 := by simp [block2_size, hd]
      rw [read_sample_nothing_pending cfg s hpend, hs1, hs2]
      obtain ⟨-, -, -, -, -, k6⟩ := check_registers_counts (query_count s).2
      simp [contributing_clip, k6, q6]
    · obtain ⟨c1, c2, c3, hT⟩ := read_sample_clean cfg s hpend hbus hval
      obtain ⟨x1, x2, x3, x4, x5, x6, x7⟩ :=
        fifo_transfer_counts cfg (block1_size s) (query_count s).2
      have e1 : (fifo_transfer cfg (block1_size s) (query_count s).2).2 = block1_in cfg s := rfl
      have e2 : (convert cfg (block1_size s) (block1_in cfg s)).2 = block1_out cfg s := rfl
      have e3 : (fifo_transfer cfg (block2_size s) (block1_out cfg s)).2 = block2_in cfg s := rfl
      have e4 : (convert cfg (block2_size s) (block2_in cfg s)).2 = block2_out cfg s := rfl
      have m1 := convert_fast_clip cfg (block1_size s) (block1_in cfg s) hfast c2
      rw [e1] at x6 x7
      rw [e2, x7, q7, x6, q6] at m1
      have hC : clip_count (_read_sample cfg s).2.trace
          = clip_count (if block2_size s = 0 then block1_out cfg s else block2_out cfg s).trace := by
        rw [hT]
        by_cases ho : pending_records s > 32
        · simp only [ho, if_true]
          rw [(check_registers_counts _).2.2.2.2.2, (fifo_reset_counts _).2.2.2.2.2]
        · simp only [ho, if_false]
          rw [(check_registers_counts _).2.2.2.2.2]
      rw [hC]
      by_cases h2 : block2_size s = 0
      · simp only [h2, if_true, m1]
        simp [contributing_clip]
      · obtain ⟨c3, c4⟩ := c3 h2
        obtain ⟨z1, z2, z3, z4, z5, z6, z7⟩ :=
          fifo_transfer_counts cfg (block2_size s) (block1_out cfg s)
        have m2 := convert_fast_clip cfg (block2_size s) (block2_in cfg s) hfast c4
        rw [e3] at z6 z7
        rw [e4, z7, z6, m1] at m2
        simp only [h2, if_false, m2]

theorem clip_count_per_block_of_tick_witness :
    (sample_config .BUS_TYPE_SPI true)._fast_sampling = true ∧
    clip_count (_read_sample (sample_config .BUS_TYPE_SPI true)
        (sample_state [ok_reply [0, 28], ok_reply [],
          ok_reply (clipping_record ++ clipping_record), ok_reply []])).2.trace
      ≤ clip_count (sample_state [ok_reply [0, 28], ok_reply [],
          ok_reply (clipping_record ++ clipping_record), ok_reply []]).trace + 2 :=
  ⟨by decide,
    (clip_count_per_block_of_tick (sample_config .BUS_TYPE_SPI true)
      (sample_state [ok_reply [0, 28], ok_reply [],
        ok_reply (clipping_record ++ clipping_record), ok_reply []]) (by decide)).1⟩

/-- C9, counterexample to the claim as stated: a fast-sampling tick with 32
records pending, drained as two blocks of 16 whose first records both clip,
increments the clip counter twice. -/
theorem clip_counted_twice_in_one_tick :
    pending_records (sample_state [ok_reply [1, 192], ok_reply [], ok_reply clipping_block,
        ok_reply [], ok_reply clipping_block, ok_reply []]) = 32 ∧
    clip_count (sample_state [ok_reply [1, 192], ok_reply [], ok_reply clipping_block,
        ok_reply [], ok_reply clipping_block, ok_reply []]).trace = 0 ∧
    clip_count (_read_sample (sample_config .BUS_TYPE_SPI true)
        (sample_state [ok_reply [1, 192], ok_reply [], ok_reply clipping_block,
          ok_reply [], ok_reply clipping_block, ok_reply []])).2.trace = 2 := by
  decide

/-- C2, the code at the failing inputs: a count register reading 0x0E0E gives
3598 pending bytes, that is 257 records, yet the `uint8_t` record count is 1, so
the tick drains a single record and performs no FIFO reset; a reading of 0x0E00
gives 3584 bytes, that is 256 records, yet the record count is 0 and nothing is
drained. -/
theorem record_count_wraps_at_256 :
    (uint16_val [0x0E, 0x0E] 0 = 3598 ∧ 3598 / MPU_SAMPLE_SIZE = 257 ∧
      pending_records (sample_state [ok_reply [0x0E, 0x0E], zero_records 1, ok_reply []]) = 1 ∧
      gyro_samples (_read_sample (sample_config .BUS_TYPE_I2C false)
        (sample_state [ok_reply [0x0E, 0x0E], zero_records 1, ok_reply []])).2.trace = 1 ∧
      reset_count (_read_sample (sample_config .BUS_TYPE_I2C false)
        (sample_state [ok_reply [0x0E, 0x0E], zero_records 1, ok_reply []])).2.trace = 0) ∧
    (uint16_val [0x0E, 0x00] 0 = 3584 ∧ 3584 / MPU_SAMPLE_SIZE = 256 ∧
      pending_records (sample_state [ok_reply [0x0E, 0x00], zero_records 16, ok_reply []]) = 0 ∧
      (_read_sample (sample_config .BUS_TYPE_I2C false)
        (sample_state [ok_reply [0x0E, 0x00], zero_records 16, ok_reply []])).2.trace
        = [Event.read_registers MPUREG_FIFO_COUNTH 2 true, Event.set_speed .SPEED_LOW,
            Event.check_next_register true, Event.set_speed .SPEED_HIGH]) := by
  decide

/-! ## Axis remap of the Direct converter -/

theorem toInt16_range (u : Nat) : -32768 ≤ toInt16 u ∧ toInt16 u ≤ 32767 := by
  unfold toInt16
  split <;> omega

theorem record_word_range (samples : List Nat) (i j : Nat) :
    -32768 ≤ record_word samples i j ∧ record_word samples i j ≤ 32767 :=
  toInt16_range _

theorem extends_trans {a b c : List Event} (h1 : ∃ r, b = a ++ r) (h2 : ∃ r, c = b ++ r) :
    ∃ r, c = a ++ r := by
  obtain ⟨r1, rfl⟩ := h1
  obtain ⟨r2, rfl⟩ := h2
  exact ⟨r1 ++ r2, by simp⟩

theorem report_corruption_extends (t2 : Int) (s : State) :
    ∃ rest, (report_corruption t2 s).trace = s.trace ++ rest :=
  extends_trans ⟨[Event.debug_temp_reset s._raw_temp t2], rfl⟩
    ⟨_, fifo_reset_trace (emit (.debug_temp_reset s._raw_temp t2) s)⟩

theorem accumulate_loop_extends (cfg : Config) (samples : List Nat) (k : Nat) :
    ∀ (i : Nat) (s : State),
      ∃ rest, (_accumulate_loop cfg samples k i s).2.trace = s.trace ++ rest := by
  induction k with
  | zero => intro i s; exact ⟨[], by simp [_accumulate_loop]⟩
  | succ k ih =>
    intro i s
    have ht : ∃ r, (_check_raw_temp (int16_val (List.drop (MPU_SAMPLE_SIZE * i) samples) 3)
        s).2.trace = s.trace ++ r :=
      ⟨_, check_raw_temp_trace (int16_val (List.drop (MPU_SAMPLE_SIZE * i) samples) 3) s⟩
    cases hc : (_check_raw_temp (int16_val (List.drop (MPU_SAMPLE_SIZE * i) samples) 3) s).1
    · rw [accumulate_loop_fail cfg samples k i s hc]
      exact extends_trans ht (report_corruption_extends _ _)
    · rw [accumulate_loop_pass cfg samples k i s hc]
      exact extends_trans (extends_trans ht ⟨_, direct_sample_trace cfg _ _ _⟩) (ih (i + 1) _)

/-- C7. Direct converter axis remap: whenever the loop of `_accumulate` reaches
record `i` of a block and the record passes temperature validation, with
`w0 .. w6` the big-endian signed 16-bit words of the record, the next two calls
after the validation are the accel notification with value
`rotate (w1 * a, w0 * a, (-w2) * a)` and the gyro notification with value
`rotate (w5 * g, w4 * g, (-w6) * g)`, where `a` is the accel scale and `g` the gyro
scale.  The negation is the integer one, without wrap-around (word -32768 gives
32768), and the squared length of the accel vector before rotation is
`(w0^2 + w1^2 + w2^2) * a^2`. -/
theorem direct_axis_remap (cfg : Config) (samples : List Nat) (k i : Nat) (s : State)
    (hval : (_check_raw_temp (record_word samples i 3) s).1 = true) :
    (∃ rest, (_accumulate_loop cfg samples (k + 1) i s).2.trace =
      (_check_raw_temp (record_word samples i 3) s).2.trace ++
        [ Event.notify_new_accel_raw_sample (cfg.rotate_and_correct_accel
            ⟨(record_word samples i 1 : ℚ) * MPU9250_ACCEL_SCALE_1G cfg,
             (record_word samples i 0 : ℚ) * MPU9250_ACCEL_SCALE_1G cfg,
             ((-(record_word samples i 2) : Int) : ℚ) * MPU9250_ACCEL_SCALE_1G cfg⟩) false,
          Event.notify_new_gyro_raw_sample (cfg.rotate_and_correct_gyro
            ⟨(record_word samples i 5 : ℚ) * GYRO_SCALE,
             (record_word samples i 4 : ℚ) * GYRO_SCALE,
             ((-(record_word samples i 6) : Int) : ℚ) * GYRO_SCALE⟩) ] ++ rest) ∧
    Vector3f.length_squared
        ⟨(record_word samples i 1 : ℚ) * MPU9250_ACCEL_SCALE_1G cfg,
         (record_word samples i 0 : ℚ) * MPU9250_ACCEL_SCALE_1G cfg,
         ((-(record_word samples i 2) : Int) : ℚ) * MPU9250_ACCEL_SCALE_1G cfg⟩
      = ((record_word samples i 0 : ℚ) ^ 2 + (record_word samples i 1 : ℚ) ^ 2
          + (record_word samples i 2 : ℚ) ^ 2) * (MPU9250_ACCEL_SCALE_1G cfg) ^ 2 ∧
    (-32767 ≤ -(record_word samples i 2) ∧ -(record_word samples i 2) ≤ 32768) ∧
    (record_word samples i 2 = -32768 →
      ((-(record_word samples i 2) : Int) : ℚ) * MPU9250_ACCEL_SCALE_1G cfg
        = 32768 * MPU9250_ACCEL_SCALE_1G cfg) := by
  refine ⟨?_, ?_, ?_, ?_⟩
  · unfold record_word at hval ⊢
    rw [accumulate_loop_pass cfg samples k i s hval]
    obtain ⟨rest, hr⟩ := accumulate_loop_extends cfg samples k (i + 1) (direct_sample cfg
      (List.drop (MPU_SAMPLE_SIZE * i) samples)
      (int16_val (List.drop (MPU_SAMPLE_SIZE * i) samples) 3)
      (_check_raw_temp (int16_val (List.drop (MPU_SAMPLE_SIZE * i) samples) 3) s).2)
    refine ⟨rest, ?_⟩
    rw [hr, direct_sample_trace]
    simp [Vector3f.ofInts, Vector3f.scale]
  · simp only [Vector3f.length_squared]
    push_cast
    ring
  · have := record_word_range samples i 2
    omega
  · intro h
    rw [h]
    norm_num

theorem direct_axis_remap_witness :
    (_check_raw_temp (record_word remap_record 0 3) (sample_state [])).1 = true ∧
    record_word remap_record 0 2 = -32768 ∧
    ((-(record_word remap_record 0 2) : Int) : ℚ)
        * MPU9250_ACCEL_SCALE_1G (sample_config .BUS_TYPE_I2C false)
      = 32768 * MPU9250_ACCEL_SCALE_1G (sample_config .BUS_TYPE_I2C false) :=
  ⟨by decide, by decide,
    (direct_axis_remap (sample_config .BUS_TYPE_I2C false) remap_record 0 0 (sample_state [])
      (by decide)).2.2.2 (by decide)⟩

/-! ## Adequacy of the fuel of the drain loop -/

/-- With fuel at least `n_samples` the drain loop does not depend on the fuel: it
always leaves through one of the exits of the source loop. -/
theorem drain_fuel_enough (cfg : Config) (bytes_read fuel : Nat) :
    ∀ (n : Nat) (s : State), n ≤ fuel →
      drain cfg bytes_read (fuel + 1) n s = drain cfg bytes_read fuel n s := by
  induction fuel with
  | zero =>
    intro n s hn
    have : n = 0 := by omega
    subst this
    simp [drain]
  | succ fuel ih =>
    intro n s hn
    rcases Nat.eq_zero_or_pos n with h0 | hpos
    · subst h0; rw [drain_done, drain_done]
    · cases hx : (fifo_transfer cfg (min MPU_FIFO_BUFFER_LEN n) s).1
      · rw [drain_transfer_failed cfg bytes_read (fuel + 1) n s hpos hx,
          drain_transfer_failed cfg bytes_read fuel n s hpos hx]
      · cases hc : (convert cfg (min MPU_FIFO_BUFFER_LEN n)
            (fifo_transfer cfg (min MPU_FIFO_BUFFER_LEN n) s).2).1
        · rw [drain_convert_failed cfg bytes_read (fuel + 1) n s hpos hx hc,
            drain_convert_failed cfg bytes_read fuel n s hpos hx hc]
        · rw [drain_continue cfg bytes_read (fuel + 1) n s hpos hx hc,
            drain_continue cfg bytes_read fuel n s hpos hx hc]
          apply ih
          have hB : MPU_FIFO_BUFFER_LEN = 16 := rfl
          rw [hB]
          omega

/-! ## The FIFO Reset Protocol as a sequence of calls -/

set_option maxRecDepth 100000 in
theorem byte_clear_facts : ∀ y < 256,
    (y &&& 187) &&& 68 = 0 ∧ (y &&& 187) ||| (y &&& 68) = y ∧
    ((y &&& 187) ||| 64) &&& 187 = y &&& 187 ∧ ((y &&& 187) ||| 64) &&& 68 = 64 := by
  decide

/-- C18. FIFO Reset Protocol sequence: with `u` the shadow (as a byte) with bits
0x04 and 0x40 cleared, `_fifo_reset` makes exactly these calls, in order:
set_speed(LOW); write 0x23 := 0; write 0x6A := u; write 0x6A := u | 0x04;
write 0x6A := u | 0x40; checked write 0x23 := 0xF8; a scheduler delay of one
microsecond; set_speed(HIGH).  The device calls among them are the seven bus
operations.  It leaves the shadow equal to u | 0x40, every shadow bit other than
0x04 and 0x40 being unchanged, and changes nothing else in the driver. -/
theorem fifo_reset_sequence (s : State) :
    _fifo_reset s =
      { s with
        _last_stat_user_ctrl := cleared_user_ctrl s._last_stat_user_ctrl ||| 0x40
        trace := s.trace ++
          [ Event.set_speed .SPEED_LOW,
            Event.write_register 0x23 0 false,
            Event.write_register 0x6A (cleared_user_ctrl s._last_stat_user_ctrl) false,
            Event.write_register 0x6A (cleared_user_ctrl s._last_stat_user_ctrl ||| 0x04) false,
            Event.write_register 0x6A (cleared_user_ctrl s._last_stat_user_ctrl ||| 0x40) false,
            Event.write_register 0x23 0xF8 true,
            Event.delay_microseconds 1,
            Event.set_speed .SPEED_HIGH ] }
    ∧ ((_fifo_reset s).trace.drop s.trace.length).filter is_device_call =
        [ Event.set_speed .SPEED_LOW,
          Event.write_register 0x23 0 false,
          Event.write_register 0x6A (cleared_user_ctrl s._last_stat_user_ctrl) false,
          Event.write_register 0x6A (cleared_user_ctrl s._last_stat_user_ctrl ||| 0x04) false,
          Event.write_register 0x6A (cleared_user_ctrl s._last_stat_user_ctrl ||| 0x40) false,
          Event.write_register 0x23 0xF8 true,
          Event.set_speed .SPEED_HIGH ]
    ∧ (cleared_user_ctrl s._last_stat_user_ctrl &&& (0x04 ||| 0x40) = 0
      ∧ cleared_user_ctrl s._last_stat_user_ctrl
          ||| (s._last_stat_user_ctrl % 256 &&& (0x04 ||| 0x40)) = s._last_stat_user_ctrl % 256)
    ∧ ((_fifo_reset s)._last_stat_user_ctrl &&& (255 - (0x04 ||| 0x40))
          = s._last_stat_user_ctrl % 256 &&& (255 - (0x04 ||| 0x40))
      ∧ (_fifo_reset s)._last_stat_user_ctrl &&& (0x04 ||| 0x40) = 0x40) := by
  have hb := byte_clear_facts (s._last_stat_user_ctrl % 256) (Nat.mod_lt _ (by decide))
  rw [← cleared_user_ctrl_eq] at hb
  obtain ⟨b1, b2, b3, b4⟩ := hb
  refine ⟨?_, ?_, ⟨b1, b2⟩, ?_, ?_⟩
  · simp [_fifo_reset, set_speed, _register_write, emit, MPUREG_FIFO_EN, MPUREG_USER_CTRL,
      BIT_USER_CTRL_FIFO_RESET, BIT_USER_CTRL_FIFO_EN]
    decide
  · rw [fifo_reset_trace]
    simp [is_device_call, MPUREG_FIFO_EN, MPUREG_USER_CTRL, BIT_USER_CTRL_FIFO_RESET,
      BIT_USER_CTRL_FIFO_EN]
  · rw [fifo_reset_shadow]
    exact b3
  · rw [fifo_reset_shadow]
    exact b4

/-! ## Temperature conversion of the Direct converter -/

/-- The value the Direct converter feeds to the temperature filter for an
accepted record: the quotient is the truncating integer division of line 441. -/
theorem direct_sample_temperature (cfg : Config) (data : List Nat) (t2 : Int) (s : State) :
    (direct_sample cfg data t2 s)._temp_filtered
      = (cfg.temp_filter_apply s._temp_filter (((Int.tdiv t2 340 : Int) : ℚ) + 3653 / 100)).2 := by
  simp [direct_sample, emit]

/-- C15, the code at the failing input: for an accepted record with raw
temperature 339 the Direct converter feeds 36.53 to the temperature filter (the
quotient 339/340 is taken in the integers and is 0), not 339/340 + 36.53; the
Downsampling converter, given the same record, feeds 339/340 + 36.53. -/
theorem direct_temperature_truncates :
    int16_val warm_record 3 = 339 ∧
    (_accumulate (sample_config .BUS_TYPE_I2C false) warm_record 1 (sample_state [])).1 = true ∧
    (_accumulate (sample_config .BUS_TYPE_I2C false) warm_record 1
        (sample_state [])).2._temp_filtered = 3653 / 100 ∧
    (3653 / 100 : ℚ) ≠ 339 / 340 + 3653 / 100 ∧
    (_accumulate_fast_sampling (sample_config .BUS_TYPE_SPI true) warm_record 1
        (sample_state [])).2._temp_filtered = 339 / 340 + 3653 / 100 := by
  have h3 : int16_val warm_record 3 = 339 := by decide
  have hd : List.drop (MPU_SAMPLE_SIZE * 0) warm_record = warm_record := by decide
  have hc : _check_raw_temp 339 (sample_state []) = (true, sample_state []) :=
    check_raw_temp_within 339 (sample_state []) (by decide)
  refine ⟨h3, by decide, ?_, by norm_num, ?_⟩
  · have hp := accumulate_loop_pass (sample_config .BUS_TYPE_I2C false) warm_record 0 0
      (sample_state []) (by rw [hd, h3, hc])
    unfold _accumulate
    rw [hp, hd, h3, hc]
    simp only [_accumulate_loop]
    rw [direct_sample_temperature]
    have ht : Int.tdiv 339 340 = 0 := by decide
    simp [sample_config, pass_scalar, ht]
  · have hp := fast_loop_pass (sample_config .BUS_TYPE_SPI true) warm_record 0 0 0 false
      (sample_state []) (by rw [hd, h3, hc])
    simp only [_accumulate_fast_sampling, hp, hd, h3, hc, fast_loop]
    have ht : Int.tdiv (0 + 339) ((1 : Nat) : Int) = 339 := by decide
    simp [sample_config, pass_scalar, ht]

/-! ## Auxiliary slot registration -/

theorem configure_rejected (cap : Nat) (bus : AuxiliaryBus) (slave : AuxiliaryBusSlave)
    (reg size : Nat) (s : State) (h : bus._ext_sens_data + size > cap) :
    _configure_periodic_read cap bus slave reg size s = ⟨-1, bus, slave, s⟩ := by
  simp [_configure_periodic_read, h]

theorem configure_accepted (cap : Nat) (hcap : cap < 256) (bus : AuxiliaryBus)
    (slave : AuxiliaryBusSlave) (reg size : Nat) (s : State)
    (h : bus._ext_sens_data + size ≤ cap) :
    (_configure_periodic_read cap bus slave reg size s).ret = 0 ∧
    (_configure_periodic_read cap bus slave reg size s).slave
      = { slave with _ext_sens_data := bus._ext_sens_data } ∧
    (_configure_periodic_read cap bus slave reg size s).bus._ext_sens_data
      = bus._ext_sens_data + size ∧
    (_configure_periodic_read cap bus slave reg size s).s
      = (_set_passthrough slave reg size none s).2 := by
  have h1 : ¬ bus._ext_sens_data + size > cap := by omega
  have h2 : (bus._ext_sens_data + size) % 256 = bus._ext_sens_data + size :=
    Nat.mod_eq_of_lt (by omega)
  simp [_configure_periodic_read, h1, h2]

theorem configure_total (cap : Nat) (hcap : cap < 256) (bus : AuxiliaryBus)
    (slave : AuxiliaryBusSlave) (reg size : Nat) (s : State)
    (hb : bus._ext_sens_data ≤ cap) :
    bus._ext_sens_data ≤ (_configure_periodic_read cap bus slave reg size s).bus._ext_sens_data ∧
    (_configure_periodic_read cap bus slave reg size s).bus._ext_sens_data ≤ cap := by
  by_cases h : bus._ext_sens_data + size > cap
  · rw [configure_rejected cap bus slave reg size s h]
    exact ⟨le_refl _, hb⟩
  · obtain ⟨-, -, a3, -⟩ := configure_accepted cap hcap bus slave reg size s (by omega)
    rw [a3]
    omega

theorem configure_sequence (cap : Nat) (hcap : cap < 256) (calls : List PeriodicRequest) :
    ∀ (bus : AuxiliaryBus) (s : State), bus._ext_sens_data ≤ cap →
      bus._ext_sens_data ≤ final_total cap calls bus s ∧
      final_total cap calls bus s ≤ cap ∧
      (∀ r ∈ configure_all cap calls bus s,
        (r.ret = -1 ∨ r.ret = 0) ∧ r.bus._ext_sens_data ≤ cap) ∧
      (∀ w ∈ (assigned_windows cap calls bus s).head?, w.1 = bus._ext_sens_data) ∧
      (∀ w ∈ assigned_windows cap calls bus s,
        bus._ext_sens_data ≤ w.1 ∧ w.1 + w.2 ≤ final_total cap calls bus s) ∧
      List.Chain' (fun a b => b.1 = a.1 + a.2) (assigned_windows cap calls bus s) ∧
      List.Pairwise (fun a b => a.1 + a.2 ≤ b.1) (assigned_windows cap calls bus s) := by
  induction calls with
  | nil =>
    intro bus s hb
    simp [final_total, configure_all, assigned_windows, hb]
  | cons c rest ih =>
    intro bus s hb
    obtain ⟨t1, t2⟩ := configure_total cap hcap bus c.slave c.reg c.size s hb
    obtain ⟨i1, i2, i3, i4, i5, i6, i7⟩ := ih
      (_configure_periodic_read cap bus c.slave c.reg c.size s).bus
      (_configure_periodic_read cap bus c.slave c.reg c.size s).s t2
    by_cases h : bus._ext_sens_data + c.size > cap
    · have hr := configure_rejected cap bus c.slave c.reg c.size s h
      rw [hr] at i1 i2 i3 i4 i5 i6 i7
      simp only [final_total, configure_all, assigned_windows, hr]
      refine ⟨i1, i2, ?_, ?_, ?_, ?_, ?_⟩
      · intro r hmem
        rcases List.mem_cons.mp hmem with h0 | h0
        · subst h0; exact ⟨Or.inl rfl, hb⟩
        · exact i3 r h0
      · simpa using i4
      · simpa using i5
      · simpa using i6
      · simpa using i7
    · obtain ⟨a1, a2, a3, a4⟩ := configure_accepted cap hcap bus c.slave c.reg c.size s
        (by omega)
      rw [a3] at i1 i4 i5
      simp only [final_total, configure_all, assigned_windows, a1, a2, if_true,
        List.singleton_append]
      refine ⟨by omega, i2, ?_, ?_, ?_, ?_, ?_⟩
      · intro r hmem
        rcases List.mem_cons.mp hmem with h0 | h0
        · subst h0; exact ⟨Or.inr a1, t2⟩
        · exact i3 r h0
      · simp
      · intro w hw
        rcases List.mem_cons.mp hw with h0 | h0
        · subst h0
          exact ⟨le_refl _, by simpa using i1⟩
        · have := i5 w h0
          exact ⟨by omega, this.2⟩
      · rw [List.chain'_cons']
        refine ⟨?_, i6⟩
        intro w hw
        exact i4 w hw
      · rw [List.pairwise_cons]
        refine ⟨?_, i7⟩
        intro w hw
        have := (i5 w hw).1
        simpa using this

/-- C11. Auxiliary slot capacity, for a capacity `MAX_EXT_SENS_DATA` that fits a
byte: a call of `_configure_periodic_read` whose size would take the cumulative
total over the capacity returns -1 and leaves the bus total, the slave and the
driver (hence the trace: no register write) unchanged; every other call returns
0, stores the previous total as the offset of the slave, changes nothing else in
the slave and raises the total by the size.  Over any sequence of calls from a
total within the capacity, every call returns -1 or 0, the total never exceeds
the capacity, and the windows assigned by the successful calls are contiguous
(each starts where the previous one ends, the first at the initial total) and
pairwise disjoint. -/
theorem periodic_read_capacity (cap : Nat) (hcap : cap < 256) :
    (∀ (bus : AuxiliaryBus) (slave : AuxiliaryBusSlave) (reg size : Nat) (s : State),
      bus._ext_sens_data + size > cap →
      _configure_periodic_read cap bus slave reg size s = ⟨-1, bus, slave, s⟩) ∧
    (∀ (bus : AuxiliaryBus) (slave : AuxiliaryBusSlave) (reg size : Nat) (s : State),
      bus._ext_sens_data + size ≤ cap →
      (_configure_periodic_read cap bus slave reg size s).ret = 0 ∧
      (_configure_periodic_read cap bus slave reg size s).slave
        = { slave with _ext_sens_data := bus._ext_sens_data } ∧
      (_configure_periodic_read cap bus slave reg size s).bus._ext_sens_data
        = bus._ext_sens_data + size) ∧
    (∀ (calls : List PeriodicRequest) (bus : AuxiliaryBus) (s : State),
      bus._ext_sens_data ≤ cap →
      final_total cap calls bus s ≤ cap ∧
      (∀ r ∈ configure_all cap calls bus s,
        (r.ret = -1 ∨ r.ret = 0) ∧ r.bus._ext_sens_data ≤ cap) ∧
      (∀ w ∈ (assigned_windows cap calls bus s).head?, w.1 = bus._ext_sens_data) ∧
      (∀ w ∈ assigned_windows cap calls bus s,
        bus._ext_sens_data ≤ w.1 ∧ w.1 + w.2 ≤ final_total cap calls bus s) ∧
      List.Chain' (fun a b => b.1 = a.1 + a.2) (assigned_windows cap calls bus s) ∧
      List.Pairwise (fun a b => a.1 + a.2 ≤ b.1) (assigned_windows cap calls bus s)) := by
  refine ⟨fun bus slave reg size s h => configure_rejected cap bus slave reg size s h, ?_, ?_⟩
  · intro bus slave reg size s h
    obtain ⟨a1, a2, a3, -⟩ := configure_accepted cap hcap bus slave reg size s h
    exact ⟨a1, a2, a3⟩
  · intro calls bus s hb
    exact (configure_sequence cap hcap calls bus s hb).2

/-! ## Classes of calls made by each step -/

theorem emits_refl (p : Event → Bool) (s : State) : emits p s s :=
  ⟨[], by simp, by simp⟩

theorem emits_trans {p : Event → Bool} {a b c : State} (h1 : emits p a b) (h2 : emits p b c) :
    emits p a c := by
  obtain ⟨e1, t1, a1⟩ := h1
  obtain ⟨e2, t2, a2⟩ := h2
  refine ⟨e1 ++ e2, by rw [t2, t1, List.append_assoc], ?_⟩
  intro e he
  rcases List.mem_append.mp he with h | h
  · exact a1 e h
  · exact a2 e h

theorem emits_mono {p q : Event → Bool} {a b : State} (hpq : ∀ e, p e = true → q e = true)
    (h : emits p a b) : emits q a b := by
  obtain ⟨e1, t1, a1⟩ := h
  exact ⟨e1, t1, fun e he => hpq e (a1 e he)⟩

theorem emits_of_trace {p : Event → Bool} {a b : State} (evs : List Event)
    (ht : b.trace = a.trace ++ evs) (hp : ∀ e ∈ evs, p e = true) : emits p a b :=
  ⟨evs, ht, hp⟩

/-- A counter of calls outside the class is not changed. -/
theorem emits_count {p : Event → Bool} {a b : State} (q : Event → Bool)
    (hq : ∀ e, p e = true → q e = false) (h : emits p a b) :
    List.countP q b.trace = List.countP q a.trace := by
  obtain ⟨evs, ht, hp⟩ := h
  rw [ht, List.countP_append]
  have : List.countP q evs = 0 := by
    rw [List.countP_eq_zero]
    intro e he
    simp [hq e (hp e he)]
  omega

theorem check_raw_temp_emits (t2 : Int) (s : State) :
    emits is_conversion_event s (_check_raw_temp t2 s).2 := by
  refine emits_of_trace _ (check_raw_temp_trace t2 s) ?_
  intro e he
  split at he
  · simp at he
  · simp at he
    subst he
    simp [is_conversion_event]

theorem fifo_reset_emits (s : State) : emits is_conversion_event s (_fifo_reset s) := by
  refine emits_of_trace _ (fifo_reset_trace s) ?_
  intro e he
  simp at he
  rcases he with h | h | h | h | h | h | h | h <;> subst h <;> simp [is_conversion_event]

theorem report_corruption_emits (t2 : Int) (s : State) :
    emits is_conversion_event s (report_corruption t2 s) := by
  refine emits_trans (b := emit (.debug_temp_reset s._raw_temp t2) s) ?_ (fifo_reset_emits _)
  exact emits_of_trace [Event.debug_temp_reset s._raw_temp t2] rfl
    (by intro e he; simp at he; subst he; simp [is_conversion_event])

theorem direct_sample_emits (cfg : Config) (data : List Nat) (t2 : Int) (s : State) :
    emits is_conversion_event s (direct_sample cfg data t2 s) := by
  refine emits_of_trace _ (direct_sample_trace cfg data t2 s) ?_
  intro e he
  simp at he
  rcases he with h | h <;> subst h <;> simp [is_conversion_event]

theorem emits_two {p : Event → Bool} {a b : State} (e1 e2 : Event)
    (ht : b.trace = a.trace ++ [e1] ++ [e2]) (h1 : p e1 = true) (h2 : p e2 = true) :
    emits p a b := by
  refine ⟨[e1, e2], by simp [ht], ?_⟩
  intro e he
  simp at he
  rcases he with h | h <;> subst h <;> assumption

theorem fast_emit_emits (cfg : Config) (s : State) :
    emits is_conversion_event s (fast_emit cfg s) := by
  unfold fast_emit
  split
  · exact emits_two _ _ rfl (by simp [is_conversion_event]) (by simp [is_conversion_event])
  · exact emits_refl _ _

theorem fast_sample_emits (cfg : Config) (data : List Nat) (cl : Bool) (s : State) :
    emits is_conversion_event s (fast_sample cfg data cl s).2 := by
  have h1 : emits is_conversion_event s (fast_gyro cfg data (fast_accel cfg data cl s).2) := by
    refine emits_of_trace [] ?_ (by simp)
    simp only [fast_gyro, fast_accel]
    split <;> simp
  exact emits_trans h1 (fast_emit_emits cfg _)

theorem accumulate_loop_emits (cfg : Config) (samples : List Nat) (k : Nat) :
    ∀ (i : Nat) (s : State),
      emits is_conversion_event s (_accumulate_loop cfg samples k i s).2 := by
  induction k with
  | zero => intro i s; simp only [_accumulate_loop]; exact emits_refl _ _
  | succ k ih =>
    intro i s
    have hc0 := check_raw_temp_emits (int16_val (List.drop (MPU_SAMPLE_SIZE * i) samples) 3) s
    cases hc : (_check_raw_temp (int16_val (List.drop (MPU_SAMPLE_SIZE * i) samples) 3) s).1
    · rw [accumulate_loop_fail cfg samples k i s hc]
      exact emits_trans hc0 (report_corruption_emits _ _)
    · rw [accumulate_loop_pass cfg samples k i s hc]
      exact emits_trans (emits_trans hc0 (direct_sample_emits cfg _ _ _)) (ih (i + 1) _)

theorem fast_loop_emits (cfg : Config) (samples : List Nat) (k : Nat) :
    ∀ (i : Nat) (tsum : Int) (cl : Bool) (s : State),
      emits is_conversion_event s (fast_loop cfg samples k i tsum cl s).s := by
  induction k with
  | zero => intro i tsum cl s; simp only [fast_loop]; exact emits_refl _ _
  | succ k ih =>
    intro i tsum cl s
    have hc0 := check_raw_temp_emits (int16_val (List.drop (MPU_SAMPLE_SIZE * i) samples) 3) s
    cases hc : (_check_raw_temp (int16_val (List.drop (MPU_SAMPLE_SIZE * i) samples) 3) s).1
    · rw [fast_loop_fail cfg samples k i tsum cl s hc]
      exact emits_trans hc0 (report_corruption_emits _ _)
    · rw [fast_loop_pass cfg samples k i tsum cl s hc]
      exact emits_trans (emits_trans hc0 (fast_sample_emits cfg _ _ _)) (ih (i + 1) _ _ _)

theorem convert_emits (cfg : Config) (n : Nat) (s : State) :
    emits is_conversion_event s (convert cfg n s).2 := by
  cases hf : cfg._fast_sampling
  · simp only [convert, hf, _accumulate, Bool.false_eq_true, if_false]
    exact accumulate_loop_emits cfg s._fifo_buffer n 0 s
  · simp only [convert, hf, if_true]
    obtain ⟨-, -, u3⟩ := fast_sampling_unfold cfg s._fifo_buffer n s
    refine emits_trans (fast_loop_emits cfg s._fifo_buffer n 0 0 false s) ?_
    refine emits_of_trace _ u3 ?_
    intro e he
    split at he
    · simp at he; subst he; simp [is_conversion_event]
    · simp at he

theorem query_count_trace (s : State) :
    (query_count s).2.trace
      = s.trace ++ [Event.read_registers MPUREG_FIFO_COUNTH 2 (next_reply s).1.ok] := by
  cases hs : s.tape with
  | nil => simp [query_count, _block_read, read_registers, next_reply, hs, emit]
  | cons r rest =>
    cases hr : r.ok <;>
      simp [query_count, _block_read, read_registers, next_reply, hs, hr, emit]

theorem query_count_emits (s : State) : emits is_query_event s (query_count s).2 :=
  emits_of_trace _ (query_count_trace s) (by simp [is_query_event])

theorem stopped_emits (cfg : Config) (n : Nat) (s0 x : State) :
    emits is_drain_event x (stopped cfg n s0 x) := by
  unfold stopped
  split
  · exact emits_of_trace [_] rfl (by simp [is_drain_event])
  · exact emits_refl _ _

theorem emit_emits {p : Event → Bool} (e : Event) (s : State) (h : p e = true) :
    emits p s (emit e s) :=
  emits_of_trace [e] rfl (by intro e' he; simp at he; subst he; exact h)

theorem emits_congr {p : Event → Bool} {a b b' : State} (h : emits p a b)
    (ht : b'.trace = b.trace) : emits p a b' := by
  obtain ⟨evs, t1, a1⟩ := h
  exact ⟨evs, by rw [ht, t1], a1⟩

theorem read_registers_emits {p : Event → Bool} (reg size : Nat) (s : State)
    (h : ∀ ok, p (.read_registers reg size ok) = true) :
    emits p s (read_registers reg size s).2 := by
  have ht : (read_registers reg size s).2.trace
      = s.trace ++ [Event.read_registers reg size (next_reply s).1.ok] := by
    cases hs : s.tape with
    | nil => simp [read_registers, next_reply, hs, emit]
    | cons r rest => cases hr : r.ok <;> simp [read_registers, next_reply, hs, hr, emit]
  exact emits_of_trace _ ht (by intro e he; simp at he; subst he; exact h _)

theorem transfer_emits {p : Event → Bool} (a b : Nat) (s : State)
    (h : ∀ ok, p (.transfer a b ok) = true) :
    emits p s (transfer a b s).2 := by
  have ht : (transfer a b s).2.trace
      = s.trace ++ [Event.transfer a b (next_reply s).1.ok] := by
    cases hs : s.tape with
    | nil => simp [transfer, next_reply, hs, emit]
    | cons r rest => cases hr : r.ok <;> simp [transfer, next_reply, hs, hr, emit]
  exact emits_of_trace _ ht (by intro e he; simp at he; subst he; exact h _)

theorem fifo_transfer_emits (cfg : Config) (n : Nat) (s : State) :
    emits (is_transfer_event n) s (fifo_transfer cfg n s).2 := by
  have hr : ∀ s0 : State, emits (is_transfer_event n) s0
      (_block_read MPUREG_FIFO_R_W (n * MPU_SAMPLE_SIZE) s0).2 :=
    fun s0 => read_registers_emits _ _ s0 (by simp [is_transfer_event])
  have hcs : ∀ (b : Bool) (s0 : State), emits (is_transfer_event n) s0 (set_chip_select b s0) :=
    fun b s0 => emit_emits _ s0 (by simp [is_transfer_event])
  have ht1 : ∀ s0 : State, emits (is_transfer_event n) s0 (transfer 1 0 s0).2 :=
    fun s0 => transfer_emits 1 0 s0 (by simp [is_transfer_event])
  have ht2 : ∀ s0 : State, emits (is_transfer_event n) s0
      (transfer (n * MPU_SAMPLE_SIZE) (n * MPU_SAMPLE_SIZE) s0).2 :=
    fun s0 => transfer_emits _ _ s0 (by simp [is_transfer_event])
  by_cases hb : cfg.bus_type ≠ .BUS_TYPE_SPI
  · cases h1 : (_block_read MPUREG_FIFO_R_W (n * MPU_SAMPLE_SIZE) s).1 with
    | none =>
      simp only [fifo_transfer, if_pos hb, h1]
      exact hr s
    | some bytes =>
      simp only [fifo_transfer, if_pos hb, h1]
      exact emits_congr (hr s) rfl
  · cases h1 : (transfer 1 0 (set_chip_select true s)).1 with
    | none =>
      simp only [fifo_transfer, if_neg hb, h1]
      exact emits_trans (emits_trans (hcs true s) (ht1 _)) (hcs false _)
    | some v =>
      have hpre : emits (is_transfer_event n) s
          { (transfer 1 0 (set_chip_select true s)).2 with
            _fifo_buffer := store (List.replicate (n * MPU_SAMPLE_SIZE) 0)
              (transfer 1 0 (set_chip_select true s)).2._fifo_buffer } :=
        emits_congr (emits_trans (hcs true s) (ht1 _)) rfl
      cases h2 : (transfer (n * MPU_SAMPLE_SIZE) (n * MPU_SAMPLE_SIZE)
          { (transfer 1 0 (set_chip_select true s)).2 with
            _fifo_buffer := store (List.replicate (n * MPU_SAMPLE_SIZE) 0)
              (transfer 1 0 (set_chip_select true s)).2._fifo_buffer }).1 with
      | none =>
        simp only [fifo_transfer, if_neg hb, h1, h2]
        refine emits_trans (emits_trans hpre (ht2 _)) ?_
        exact emits_trans (emit_emits _ _ (by simp [is_transfer_event])) (hcs false _)
      | some bytes =>
        simp only [fifo_transfer, if_neg hb, h1, h2]
        refine emits_trans (emits_trans hpre (ht2 _)) ?_
        exact emits_congr (emit_emits (Event.set_chip_select false) _
          (by simp [is_transfer_event])) rfl

theorem fifo_transfer_failures (cfg : Config) (n : Nat) (s : State) :
    fifo_failures (fifo_transfer cfg n s).2.trace
      = fifo_failures s.trace + (if (fifo_transfer cfg n s).1 then 0 else 1) ∧
    block_starts (fifo_transfer cfg n s).2.trace = block_starts s.trace + 1 := by
  cases hb : cfg.bus_type
  · cases hs : s.tape with
    | nil =>
      simp [fifo_transfer, hb, _block_read, read_registers, next_reply, hs, emit,
        fifo_failures, is_fifo_failure, block_starts, is_block_start]
    | cons r rest =>
      cases hr : r.ok <;>
        simp [fifo_transfer, hb, _block_read, read_registers, next_reply, hs, hr, emit,
          fifo_failures, is_fifo_failure, block_starts, is_block_start]
  · cases hs : s.tape with
    | nil =>
      simp [fifo_transfer, hb, transfer, set_chip_select, next_reply, hs, emit,
        fifo_failures, is_fifo_failure, block_starts, is_block_start]
    | cons r rest =>
      cases hr : r.ok
      · simp [fifo_transfer, hb, transfer, set_chip_select, next_reply, hs, hr, emit,
          fifo_failures, is_fifo_failure, block_starts, is_block_start]
      · cases hs2 : rest with
        | nil =>
          simp [fifo_transfer, hb, transfer, set_chip_select, next_reply, hs, hr, hs2, emit,
            fifo_failures, is_fifo_failure, block_starts, is_block_start]
        | cons r2 rest2 =>
          cases hr2 : r2.ok <;>
            simp [fifo_transfer, hb, transfer, set_chip_select, next_reply, hs, hr, hs2, hr2,
              emit, fifo_failures, is_fifo_failure, block_starts, is_block_start]

theorem conversion_is_drain (e : Event) (h : is_conversion_event e = true) :
    is_drain_event e = true := by
  simp [is_drain_event, h]

theorem transfer_is_drain (n : Nat) (h1 : 1 ≤ n) (h16 : n ≤ 16) (e : Event)
    (h : is_transfer_event n e = true) : is_drain_event e = true := by
  have : (List.range 17).any (fun m => decide (1 ≤ m) && is_transfer_event m e) = true := by
    rw [List.any_eq_true]
    exact ⟨n, List.mem_range.mpr (by omega), by simp [h1, h]⟩
  simp [is_drain_event, this]

theorem query_is_drain (e : Event) (h : is_query_event e = true) : is_drain_event e = true := by
  simp [is_drain_event, h]

theorem conversion_not_block_start (e : Event) (h : is_conversion_event e = true) :
    is_block_start e = false := by
  cases e <;> simp_all [is_conversion_event, is_block_start, MPUREG_TEMP_OUT_H, MPUREG_FIFO_R_W]

theorem conversion_not_fifo_failure (e : Event) (h : is_conversion_event e = true) :
    is_fifo_failure e = false := by
  cases e with
  | read_registers reg size ok =>
    cases ok <;> simp_all [is_conversion_event, is_fifo_failure, MPUREG_TEMP_OUT_H,
      MPUREG_FIFO_R_W]
  | _ => simp_all [is_conversion_event, is_fifo_failure]

theorem drain_emits (cfg : Config) (bytes_read fuel : Nat) :
    ∀ (n : Nat) (s : State), emits is_drain_event s (drain cfg bytes_read fuel n s).2 := by
  induction fuel with
  | zero => intro n s; simp only [drain]; exact emits_refl _ _
  | succ fuel ih =>
    intro n s
    rcases Nat.eq_zero_or_pos n with hn | hn
    · subst hn; rw [drain_done]; exact emits_refl _ _
    · have hB : MPU_FIFO_BUFFER_LEN = 16 := rfl
      have hx0 : emits is_drain_event s (fifo_transfer cfg (min MPU_FIFO_BUFFER_LEN n) s).2 :=
        emits_mono (transfer_is_drain _ (by rw [hB]; omega) (by rw [hB]; omega))
          (fifo_transfer_emits cfg _ s)
      have hc0 : emits is_drain_event (fifo_transfer cfg (min MPU_FIFO_BUFFER_LEN n) s).2
          (convert cfg (min MPU_FIFO_BUFFER_LEN n)
            (fifo_transfer cfg (min MPU_FIFO_BUFFER_LEN n) s).2).2 :=
        emits_mono conversion_is_drain (convert_emits cfg _ _)
      cases hx : (fifo_transfer cfg (min MPU_FIFO_BUFFER_LEN n) s).1
      · rw [drain_transfer_failed cfg bytes_read fuel n s hn hx]
        exact hx0
      · cases hc : (convert cfg (min MPU_FIFO_BUFFER_LEN n)
            (fifo_transfer cfg (min MPU_FIFO_BUFFER_LEN n) s).2).1
        · rw [drain_convert_failed cfg bytes_read fuel n s hn hx hc]
          refine emits_trans (emits_trans hx0 hc0) ?_
          split
          · exact emit_emits _ _ (by simp [is_drain_event])
          · exact emits_refl _ _
        · rw [drain_continue cfg bytes_read fuel n s hn hx hc]
          exact emits_trans (emits_trans hx0 hc0) (ih _ _)

/-! ## The six outcomes of a tick with records pending -/

theorem block_sizes (s : State) (hpend : pending_records s ≠ 0) :
    1 ≤ block1_size s ∧ block1_size s ≤ 16 ∧ block2_size s ≤ 16 ∧
    block1_size s + block2_size s = drained_records s ∧
    (block2_size s ≠ 0 → block1_size s = 16) := by
  have h1 := drained_records_pos s hpend
  have h2 := drained_records_le s
  have e1 : block1_size s = min 16 (drained_records s) := rfl
  have e2 : block2_size s = drained_records s - block1_size s := rfl
  omega

theorem read_sample_cases (cfg : Config) (s : State) (hpend : pending_records s ≠ 0) :
    ((fifo_transfer cfg (block1_size s) (query_count s).2).1 = false ∧
      _read_sample cfg s = check_registers (block1_in cfg s)) ∨
    ((fifo_transfer cfg (block1_size s) (query_count s).2).1 = true ∧
      (convert cfg (block1_size s) (block1_in cfg s)).1 = false ∧
      _read_sample cfg s
        = finish s (stopped cfg (drained_records s) s (block1_out cfg s))) ∨
    ((fifo_transfer cfg (block1_size s) (query_count s).2).1 = true ∧
      (convert cfg (block1_size s) (block1_in cfg s)).1 = true ∧
      block2_size s = 0 ∧
      _read_sample cfg s = finish s (block1_out cfg s)) ∨
    ((fifo_transfer cfg (block1_size s) (query_count s).2).1 = true ∧
      (convert cfg (block1_size s) (block1_in cfg s)).1 = true ∧
      block2_size s ≠ 0 ∧
      (fifo_transfer cfg (block2_size s) (block1_out cfg s)).1 = false ∧
      _read_sample cfg s = check_registers (block2_in cfg s)) ∨
    ((fifo_transfer cfg (block1_size s) (query_count s).2).1 = true ∧
      (convert cfg (block1_size s) (block1_in cfg s)).1 = true ∧
      block2_size s ≠ 0 ∧
      (fifo_transfer cfg (block2_size s) (block1_out cfg s)).1 = true ∧
      (convert cfg (block2_size s) (block2_in cfg s)).1 = false ∧
      _read_sample cfg s
        = finish s (stopped cfg (block2_size s) s (block2_out cfg s))) ∨
    ((fifo_transfer cfg (block1_size s) (query_count s).2).1 = true ∧
      (convert cfg (block1_size s) (block1_in cfg s)).1 = true ∧
      block2_size s ≠ 0 ∧
      (fifo_transfer cfg (block2_size s) (block1_out cfg s)).1 = true ∧
      (convert cfg (block2_size s) (block2_in cfg s)).1 = true ∧
      _read_sample cfg s = finish s (block2_out cfg s)) := by
  obtain ⟨p, hq, hp, hT⟩ := read_sample_pending cfg s hpend
  obtain ⟨z1, z2, z3, z4, z5⟩ := block_sizes s hpend
  have hn := drained_records_pos s hpend
  have hbytes : tick_bytes s = p := by simp [tick_bytes, hq]
  have hb1 : min MPU_FIFO_BUFFER_LEN (drained_records s) = block1_size s := rfl
  have hb2 : drained_records s - block1_size s = block2_size s := rfl
  obtain ⟨f, hf⟩ : ∃ f, drained_records s = f + 1 := ⟨drained_records s - 1, by omega⟩
  have hfin : ∀ x : State,
      (if ((true, x) : Bool × State).1 = false then check_registers ((true, x) : Bool × State).2
        else check_registers (if pending_records s > 32 then _fifo_reset x else x))
      = finish s x := by
    intro x; simp [finish]
  cases hx : (fifo_transfer cfg (block1_size s) (query_count s).2).1
  · left
    refine ⟨rfl, ?_⟩
    have hD : drain cfg p (drained_records s) (drained_records s) (query_count s).2
        = (false, block1_in cfg s) := by
      conv => lhs; arg 3; rw [hf]
      rw [drain_transfer_failed cfg p f (drained_records s) _ hn (by rw [hb1]; exact hx), hb1]
      rfl
    rw [hT, hD]
    simp
  · right
    cases hc : (convert cfg (block1_size s) (block1_in cfg s)).1
    · left
      refine ⟨rfl, rfl, ?_⟩
      have hD : drain cfg p (drained_records s) (drained_records s) (query_count s).2
          = (true, stopped cfg (drained_records s) s (block1_out cfg s)) := by
        conv => lhs; arg 3; rw [hf]
        rw [drain_convert_failed cfg p f (drained_records s) _ hn (by rw [hb1]; exact hx)
          (by rw [hb1]; exact hc), hb1]
        simp only [stopped, hbytes]
        rfl
      rw [hT, hD, hfin]
    · right
      have hD1 : drain cfg p (drained_records s) (drained_records s) (query_count s).2
          = drain cfg p f (block2_size s) (block1_out cfg s) := by
        conv => lhs; arg 3; rw [hf]
        rw [drain_continue cfg p f (drained_records s) _ hn (by rw [hb1]; exact hx)
          (by rw [hb1]; exact hc), hb1, hb2]
        rfl
      by_cases h2 : block2_size s = 0
      · left
        refine ⟨rfl, rfl, h2, ?_⟩
        rw [hT, hD1, h2, drain_done, hfin]
      · right
        have hn2 : 0 < block2_size s := by omega
        obtain ⟨g, hg⟩ : ∃ g, f = g + 1 := ⟨f - 1, by omega⟩
        have hm : min MPU_FIFO_BUFFER_LEN (block2_size s) = block2_size s := by
          have hB : MPU_FIFO_BUFFER_LEN = 16 := rfl
          rw [hB]; omega
        cases hx2 : (fifo_transfer cfg (block2_size s) (block1_out cfg s)).1
        · left
          refine ⟨rfl, rfl, h2, rfl, ?_⟩
          have hD : drain cfg p f (block2_size s) (block1_out cfg s)
              = (false, block2_in cfg s) := by
            rw [hg, drain_transfer_failed cfg p g (block2_size s) _ hn2 (by rw [hm]; exact hx2),
              hm]
            rfl
          rw [hT, hD1, hD]
          simp
        · right
          cases hc2 : (convert cfg (block2_size s) (block2_in cfg s)).1
          · left
            refine ⟨rfl, rfl, h2, rfl, rfl, ?_⟩
            have hD : drain cfg p f (block2_size s) (block1_out cfg s)
                = (true, stopped cfg (block2_size s) s (block2_out cfg s)) := by
              rw [hg, drain_convert_failed cfg p g (block2_size s) _ hn2
                (by rw [hm]; exact hx2) (by rw [hm]; exact hc2), hm]
              simp only [stopped, hbytes]
              rfl
            rw [hT, hD1, hD, hfin]
          · right
            refine ⟨rfl, rfl, h2, rfl, rfl, ?_⟩
            have hD : drain cfg p f (block2_size s) (block1_out cfg s)
                = (true, block2_out cfg s) := by
              rw [hg, drain_continue cfg p g (block2_size s) _ hn2
                (by rw [hm]; exact hx2) (by rw [hm]; exact hc2), hm, Nat.sub_self, drain_done]
              rfl
            rw [hT, hD1, hD, hfin]

/-! ## Every tick ends with the integrity check -/

theorem drain_not_integrity (e : Event) (h : is_drain_event e = true) :
    is_integrity_event e = false := by
  cases e <;>
    simp_all [is_drain_event, is_query_event, is_conversion_event, is_transfer_event,
      is_integrity_event]

/-- Every tick is the integrity check run in a state reached from the start by
drain calls only. -/
theorem read_sample_shape (cfg : Config) (s : State) :
    ∃ x, _read_sample cfg s = check_registers x ∧ emits is_drain_event s x := by
  have hq : emits is_drain_event s (query_count s).2 :=
    emits_mono query_is_drain (query_count_emits s)
  by_cases hpend : pending_records s = 0
  · exact ⟨_, read_sample_nothing_pending cfg s hpend, hq⟩
  · obtain ⟨p, -, -, hT⟩ := read_sample_pending cfg s hpend
    have hd := drain_emits cfg p (drained_records s) (drained_records s) (query_count s).2
    rw [hT]
    split
    · exact ⟨_, rfl, emits_trans hq hd⟩
    · split
      · exact ⟨_, rfl, emits_trans (emits_trans hq hd)
          (emits_mono conversion_is_drain (fifo_reset_emits _))⟩
      · exact ⟨_, rfl, emits_trans hq hd⟩

theorem integrity_calls_counts (ok : Bool) :
    integrity_checks (integrity_calls ok) = 1 ∧
    gyro_errors (integrity_calls ok) = (if ok then 0 else 1) ∧
    accel_errors (integrity_calls ok) = (if ok then 0 else 1) := by
  cases ok <;>
    simp [integrity_calls, integrity_checks, gyro_errors, accel_errors, is_integrity_check,
      is_gyro_error, is_accel_error]

/-- C12. Integrity check always runs: every call of `_read_sample`, whatever the
bus answers, returns true and ends with set_speed(LOW), one
`check_next_register`, the two error counter increments when that check fails,
and set_speed(HIGH); no call before that in the tick is a `check_next_register`
or an error counter increment, so the tick makes exactly one
`check_next_register` call and raises the gyro and the accel error counter each
by exactly 1 if the check fails and by 0 if it succeeds. -/
theorem integrity_check_always_runs (cfg : Config) (s : State) :
    (_read_sample cfg s).1 = true ∧
    ∃ (before : List Event) (ok : Bool),
      (_read_sample cfg s).2.trace = s.trace ++ before ++ integrity_calls ok ∧
      (∀ e ∈ before, is_integrity_event e = false) ∧
      integrity_checks (_read_sample cfg s).2.trace = integrity_checks s.trace + 1 ∧
      gyro_errors (_read_sample cfg s).2.trace
        = gyro_errors s.trace + (if ok then 0 else 1) ∧
      accel_errors (_read_sample cfg s).2.trace
        = accel_errors s.trace + (if ok then 0 else 1) := by
  obtain ⟨x, hT, evs, ht, hall⟩ := read_sample_shape cfg s
  obtain ⟨k1, k2⟩ := check_registers_trace x
  refine ⟨by rw [hT]; exact k1, evs, (next_reply x).1.ok, ?_, ?_, ?_⟩
  · rw [hT, k2, ht]; rfl
  · intro e he
    exact drain_not_integrity e (hall e he)
  · have hT2 : (_read_sample cfg s).2.trace
        = s.trace ++ evs ++ integrity_calls (next_reply x).1.ok := by
      rw [hT, k2, ht]; rfl
    obtain ⟨c1, c2, c3⟩ := integrity_calls_counts (next_reply x).1.ok
    have z : ∀ q : Event → Bool, (∀ e, is_integrity_event e = false → q e = false) →
        List.countP q evs = 0 := by
      intro q hq
      rw [List.countP_eq_zero]
      intro e he
      simp [hq e (drain_not_integrity e (hall e he))]
    have z1 := z is_integrity_check
      (by intro e; cases e <;> simp [is_integrity_event, is_integrity_check])
    have z2 := z is_gyro_error (by intro e; cases e <;> simp [is_integrity_event, is_gyro_error])
    have z3 := z is_accel_error
      (by intro e; cases e <;> simp [is_integrity_event, is_accel_error])
    rw [hT2]
    simp only [integrity_checks, gyro_errors, accel_errors, List.countP_append] at c1 c2 c3 ⊢
    rw [z1, z2, z3, c1, c2, c3]
    simp

/-! ## Failed FIFO transfers -/

theorem countP_zero_of_all (q : Event → Bool) (l : List Event) (h : ∀ e ∈ l, q e = false) :
    List.countP q l = 0 := by
  rw [List.countP_eq_zero]
  intro e he
  simp [h e he]

theorem query_not_fifo_failure (e : Event) (h : is_query_event e = true) :
    is_fifo_failure e = false := by
  cases e with
  | read_registers reg size ok =>
    cases ok <;> simp_all [is_query_event, is_fifo_failure, MPUREG_FIFO_COUNTH, MPUREG_FIFO_R_W]
  | _ => simp_all [is_query_event, is_fifo_failure]

theorem check_registers_fifo_failures (x : State) :
    fifo_failures (check_registers x).2.trace = fifo_failures x.trace := by
  rw [(check_registers_trace x).2]
  cases (next_reply x).1.ok <;> simp [fifo_failures, is_fifo_failure]

theorem finish_fifo_failures (s0 x : State) :
    fifo_failures (finish s0 x).2.trace = fifo_failures x.trace := by
  unfold finish
  rw [check_registers_fifo_failures]
  split
  · exact emits_count is_fifo_failure conversion_not_fifo_failure (fifo_reset_emits x)
  · rfl

theorem stopped_fifo_failures (cfg : Config) (n : Nat) (s0 x : State) :
    fifo_failures (stopped cfg n s0 x).trace = fifo_failures x.trace := by
  unfold stopped
  split <;> simp [emit, fifo_failures, is_fifo_failure]

theorem convert_fifo_failures (cfg : Config) (n : Nat) (x : State) :
    fifo_failures (convert cfg n x).2.trace = fifo_failures x.trace :=
  emits_count is_fifo_failure conversion_not_fifo_failure (convert_emits cfg n x)

theorem query_fifo_failures (s : State) :
    fifo_failures (query_count s).2.trace = fifo_failures s.trace :=
  emits_count is_fifo_failure query_not_fifo_failure (query_count_emits s)

/-- What remains of a tick once a FIFO transfer attempted in state `x` has
failed: the calls of that transfer, then the integrity check. -/
theorem after_failed_transfer (cfg : Config) (n : Nat) (x : State) :
    ∃ (fevs : List Event) (ok : Bool),
      (check_registers (fifo_transfer cfg n x).2).2.trace
        = x.trace ++ fevs ++ integrity_calls ok ∧
      (∀ e ∈ fevs, is_transfer_event n e = true) ∧
      reset_count (check_registers (fifo_transfer cfg n x).2).2.trace = reset_count x.trace ∧
      validation_failures (check_registers (fifo_transfer cfg n x).2).2.trace
        = validation_failures x.trace ∧
      accel_samples (check_registers (fifo_transfer cfg n x).2).2.trace
        = accel_samples x.trace ∧
      gyro_samples (check_registers (fifo_transfer cfg n x).2).2.trace
        = gyro_samples x.trace ∧
      clip_count (check_registers (fifo_transfer cfg n x).2).2.trace = clip_count x.trace := by
  obtain ⟨fevs, ht, hall⟩ := fifo_transfer_emits cfg n x
  obtain ⟨x1, x2, -, x4, x5, x6, -⟩ := fifo_transfer_counts cfg n x
  obtain ⟨k1, k2, -, k4, k5, k6⟩ := check_registers_counts (fifo_transfer cfg n x).2
  refine ⟨fevs, (next_reply (fifo_transfer cfg n x).2).1.ok, ?_, hall, by omega, by omega,
    by omega, by omega, by omega⟩
  rw [(check_registers_trace _).2, ht]
  rfl

/-- C13. Transport failure: in every tick in which a FIFO data transfer fails
(the I2C block read, or on SPI the command-byte transfer or the data transfer),
the failing transfer is that of the first block, or that of the second block
after the first was transferred and converted in full; from the attempt of that
transfer to the end of the tick the only calls made are those of the transfer
itself (chip select, transfers, the console message) followed by the integrity
check, so no record of that or a later block reaches a converter (no sample, no
clip count, no validation report) and no FIFO reset is performed after the
failure; the tick still returns true through the integrity check. -/
theorem transport_failure_aborts (cfg : Config) (s : State)
    (hfail : fifo_failures (_read_sample cfg s).2.trace ≠ fifo_failures s.trace) :
    ∃ (x : State) (n : Nat),
      ((x = (query_count s).2 ∧ n = block1_size s) ∨
        (x = block1_out cfg s ∧ n = block2_size s ∧
          (fifo_transfer cfg (block1_size s) (query_count s).2).1 = true ∧
          (convert cfg (block1_size s) (block1_in cfg s)).1 = true)) ∧
      (1 ≤ n ∧ n ≤ 16) ∧
      (fifo_transfer cfg n x).1 = false ∧
      _read_sample cfg s = check_registers (fifo_transfer cfg n x).2 ∧
      (_read_sample cfg s).1 = true ∧
      (∃ (fevs : List Event) (ok : Bool),
        (_read_sample cfg s).2.trace = x.trace ++ fevs ++ integrity_calls ok ∧
        (∀ e ∈ fevs, is_transfer_event n e = true)) ∧
      reset_count (_read_sample cfg s).2.trace = reset_count x.trace ∧
      validation_failures (_read_sample cfg s).2.trace = validation_failures x.trace ∧
      accel_samples (_read_sample cfg s).2.trace = accel_samples x.trace ∧
      gyro_samples (_read_sample cfg s).2.trace = gyro_samples x.trace ∧
      clip_count (_read_sample cfg s).2.trace = clip_count x.trace := by
  have hq := query_fifo_failures s
  by_cases hpend : pending_records s = 0
  · exfalso
    apply hfail
    rw [read_sample_nothing_pending cfg s hpend, check_registers_fifo_failures, hq]
  · obtain ⟨z1, z2, z3, z4, z5⟩ := block_sizes s hpend
    have e1 : (fifo_transfer cfg (block1_size s) (query_count s).2).2 = block1_in cfg s := rfl
    have e2 : (convert cfg (block1_size s) (block1_in cfg s)).2 = block1_out cfg s := rfl
    have e3 : (fifo_transfer cfg (block2_size s) (block1_out cfg s)).2 = block2_in cfg s := rfl
    have e4 : (convert cfg (block2_size s) (block2_in cfg s)).2 = block2_out cfg s := rfl
    have f1 := (fifo_transfer_failures cfg (block1_size s) (query_count s).2).1
    have g1 := convert_fifo_failures cfg (block1_size s) (block1_in cfg s)
    have f2 := (fifo_transfer_failures cfg (block2_size s) (block1_out cfg s)).1
    have g2 := convert_fifo_failures cfg (block2_size s) (block2_in cfg s)
    rw [e1] at f1
    rw [e2] at g1
    rw [e3] at f2
    rw [e4] at g2
    rcases read_sample_cases cfg s hpend with
      ⟨hx, hT⟩ | ⟨hx, hc, hT⟩ | ⟨hx, hc, h2, hT⟩ | ⟨hx, hc, h2, hx2, hT⟩ |
      ⟨hx, hc, h2, hx2, hc2, hT⟩ | ⟨hx, hc, h2, hx2, hc2, hT⟩
    · obtain ⟨fevs, ok, a1, a2, a3, a4, a5, a6, a7⟩ :=
        after_failed_transfer cfg (block1_size s) (query_count s).2
      rw [e1] at a1 a3 a4 a5 a6 a7
      refine ⟨(query_count s).2, block1_size s, Or.inl ⟨rfl, rfl⟩, ⟨z1, z2⟩, hx, hT, ?_,
        ⟨fevs, ok, ?_, a2⟩, ?_, ?_, ?_, ?_, ?_⟩
      · rw [hT]; exact (check_registers_trace _).1
      all_goals rw [hT]; assumption
    · exfalso
      apply hfail
      rw [hT, finish_fifo_failures, stopped_fifo_failures, g1, f1, hx, hq]
      simp
    · exfalso
      apply hfail
      rw [hT, finish_fifo_failures, g1, f1, hx, hq]
      simp
    · obtain ⟨fevs, ok, a1, a2, a3, a4, a5, a6, a7⟩ :=
        after_failed_transfer cfg (block2_size s) (block1_out cfg s)
      rw [e3] at a1 a3 a4 a5 a6 a7
      refine ⟨block1_out cfg s, block2_size s, Or.inr ⟨rfl, rfl, hx, hc⟩,
        ⟨by omega, z3⟩, hx2, hT, ?_, ⟨fevs, ok, ?_, a2⟩, ?_, ?_, ?_, ?_, ?_⟩
      · rw [hT]; exact (check_registers_trace _).1
      all_goals rw [hT]; assumption
    · exfalso
      apply hfail
      rw [hT, finish_fifo_failures, stopped_fifo_failures, g2, f2, hx2, g1, f1, hx, hq]
      simp
    · exfalso
      apply hfail
      rw [hT, finish_fifo_failures, g2, f2, hx2, g1, f1, hx, hq]
      simp

/-! ## The overflow reset -/

theorem emits_reset_count_le {p : Event → Bool} {a b : State} (h : emits p a b) :
    reset_count a.trace ≤ reset_count b.trace := by
  obtain ⟨evs, ht, -⟩ := h
  rw [ht, reset_count_append]
  omega

theorem finish_overflow (s x : State) (hover : pending_records s > 32) :
    finish s x = check_registers (_fifo_reset x) := by
  simp [finish, hover]

/-- C14, as amended. Reset after overflow: in every tick in which `need_reset`
was set (more than 32 records pending) and no FIFO data transfer fails, the last
thing the tick does before its integrity check is the FIFO Reset Protocol, both
when all blocks drain and when the drain is left early through a converter
validation failure; in every tick where a FIFO data transfer fails, whether or
not `need_reset` was set, the FIFO Reset Protocol is not performed at all. -/
theorem overflow_reset_unless_transfer_fails (cfg : Config) (s : State) :
    (pending_records s > 32 →
      fifo_failures (_read_sample cfg s).2.trace = fifo_failures s.trace →
      ∃ x, emits is_drain_event s x ∧
        _read_sample cfg s = check_registers (_fifo_reset x) ∧
        reset_count s.trace + 1 ≤ reset_count (_read_sample cfg s).2.trace) ∧
    (fifo_failures (_read_sample cfg s).2.trace ≠ fifo_failures s.trace →
      reset_count (_read_sample cfg s).2.trace = reset_count s.trace) := by
  have hq := query_fifo_failures s
  by_cases hpend : pending_records s = 0
  · refine ⟨fun hover _ => by omega, fun hfail => ?_⟩
    exfalso
    apply hfail
    rw [read_sample_nothing_pending cfg s hpend, check_registers_fifo_failures, hq]
  have hqe : emits is_drain_event s (query_count s).2 :=
    emits_mono query_is_drain (query_count_emits s)
  obtain ⟨z1, z2, z3, z4, z5⟩ := block_sizes s hpend
  have e1 : (fifo_transfer cfg (block1_size s) (query_count s).2).2 = block1_in cfg s := rfl
  have e2 : (convert cfg (block1_size s) (block1_in cfg s)).2 = block1_out cfg s := rfl
  have e3 : (fifo_transfer cfg (block2_size s) (block1_out cfg s)).2 = block2_in cfg s := rfl
  have e4 : (convert cfg (block2_size s) (block2_in cfg s)).2 = block2_out cfg s := rfl
  have f1 := (fifo_transfer_failures cfg (block1_size s) (query_count s).2).1
  have g1 := convert_fifo_failures cfg (block1_size s) (block1_in cfg s)
  have f2 := (fifo_transfer_failures cfg (block2_size s) (block1_out cfg s)).1
  have g2 := convert_fifo_failures cfg (block2_size s) (block2_in cfg s)
  rw [e1] at f1
  rw [e2] at g1
  rw [e3] at f2
  rw [e4] at g2
  have hx1e : emits is_drain_event (query_count s).2 (block1_in cfg s) :=
    emits_mono (transfer_is_drain _ z1 z2) (fifo_transfer_emits cfg _ _)
  have hc1e : emits is_drain_event (block1_in cfg s) (block1_out cfg s) :=
    emits_mono conversion_is_drain (convert_emits cfg _ _)
  have hc2e : emits is_drain_event (block2_in cfg s) (block2_out cfg s) :=
    emits_mono conversion_is_drain (convert_emits cfg _ _)
  have hdone : pending_records s > 32 → ∀ x, emits is_drain_event s x →
      _read_sample cfg s = finish s x →
      ∃ x, emits is_drain_event s x ∧
        _read_sample cfg s = check_registers (_fifo_reset x) ∧
        reset_count s.trace + 1 ≤ reset_count (_read_sample cfg s).2.trace := by
    intro hover x hx hT
    refine ⟨x, hx, by rw [hT, finish_overflow s x hover], ?_⟩
    rw [hT, finish_overflow s x hover, (check_registers_counts _).1, (fifo_reset_counts x).1]
    have := emits_reset_count_le hx
    omega
  obtain ⟨q1, -⟩ := query_count_counts s
  obtain ⟨x1, -⟩ := fifo_transfer_counts cfg (block1_size s) (query_count s).2
  obtain ⟨y1, -⟩ := convert_counts cfg (block1_size s) (block1_in cfg s)
  obtain ⟨x2, -⟩ := fifo_transfer_counts cfg (block2_size s) (block1_out cfg s)
  rw [e1] at x1
  rw [e2] at y1
  rw [e3] at x2
  rcases read_sample_cases cfg s hpend with
    ⟨hx, hT⟩ | ⟨hx, hc, hT⟩ | ⟨hx, hc, h2, hT⟩ | ⟨hx, hc, h2, hx2, hT⟩ |
    ⟨hx, hc, h2, hx2, hc2, hT⟩ | ⟨hx, hc, h2, hx2, hc2, hT⟩
  · have hff : fifo_failures (_read_sample cfg s).2.trace = fifo_failures s.trace + 1 := by
      rw [hT, check_registers_fifo_failures, f1, hx, hq]; simp
    refine ⟨fun _ h => by omega, fun _ => ?_⟩
    rw [hT, (check_registers_counts _).1]
    omega
  · have hff : fifo_failures (_read_sample cfg s).2.trace = fifo_failures s.trace := by
      rw [hT, finish_fifo_failures, stopped_fifo_failures, g1, f1, hx, hq]; simp
    refine ⟨fun hover _ => ?_, fun h => absurd hff h⟩
    exact hdone hover _ (emits_trans (emits_trans (emits_trans hqe hx1e) hc1e) (stopped_emits _ _ _ _))
      hT
  · have hff : fifo_failures (_read_sample cfg s).2.trace = fifo_failures s.trace := by
      rw [hT, finish_fifo_failures, g1, f1, hx, hq]; simp
    refine ⟨fun hover _ => ?_, fun h => absurd hff h⟩
    exact hdone hover _ (emits_trans (emits_trans hqe hx1e) hc1e) hT
  · have hff : fifo_failures (_read_sample cfg s).2.trace = fifo_failures s.trace + 1 := by
      rw [hT, check_registers_fifo_failures, f2, hx2, g1, f1, hx, hq]; simp
    refine ⟨fun _ h => by omega, fun _ => ?_⟩
    rw [hT, (check_registers_counts _).1, x2, y1, hc, x1, q1]
    simp
  · have hx2e : emits is_drain_event (block1_out cfg s) (block2_in cfg s) :=
      emits_mono (transfer_is_drain _ (by omega) z3) (fifo_transfer_emits cfg _ _)
    have hff : fifo_failures (_read_sample cfg s).2.trace = fifo_failures s.trace := by
      rw [hT, finish_fifo_failures, stopped_fifo_failures, g2, f2, hx2, g1, f1, hx, hq]; simp
    refine ⟨fun hover _ => ?_, fun h => absurd hff h⟩
    exact hdone hover _ (emits_trans (emits_trans (emits_trans (emits_trans (emits_trans hqe hx1e) hc1e)
      hx2e) hc2e) (stopped_emits _ _ _ _)) hT
  · have hx2e : emits is_drain_event (block1_out cfg s) (block2_in cfg s) :=
      emits_mono (transfer_is_drain _ (by omega) z3) (fifo_transfer_emits cfg _ _)
    have hff : fifo_failures (_read_sample cfg s).2.trace = fifo_failures s.trace := by
      rw [hT, finish_fifo_failures, g2, f2, hx2, g1, f1, hx, hq]; simp
    refine ⟨fun hover _ => ?_, fun h => absurd hff h⟩
    exact hdone hover _ (emits_trans (emits_trans (emits_trans (emits_trans hqe hx1e) hc1e) hx2e) hc2e)
      hT

theorem overflow_reset_unless_transfer_fails_witness :
    (pending_records (sample_state [ok_reply [2, 48], zero_records 16, zero_records 8,
        ok_reply []]) > 32 ∧
      reset_count (sample_state [ok_reply [2, 48], zero_records 16, zero_records 8,
          ok_reply []]).trace + 1
        ≤ reset_count (_read_sample (sample_config .BUS_TYPE_I2C false)
            (sample_state [ok_reply [2, 48], zero_records 16, zero_records 8,
              ok_reply []])).2.trace) ∧
    (pending_records (sample_state [ok_reply [0, 28], failed_reply, ok_reply []]) = 2 ∧
      fifo_failures (_read_sample (sample_config .BUS_TYPE_I2C false)
          (sample_state [ok_reply [0, 28], failed_reply, ok_reply []])).2.trace
        ≠ fifo_failures (sample_state [ok_reply [0, 28], failed_reply, ok_reply []]).trace ∧
      reset_count (_read_sample (sample_config .BUS_TYPE_I2C false)
          (sample_state [ok_reply [0, 28], failed_reply, ok_reply []])).2.trace
        = reset_count (sample_state [ok_reply [0, 28], failed_reply, ok_reply []]).trace) :=
  ⟨⟨by decide,
      let ⟨_, h⟩ := (overflow_reset_unless_transfer_fails (sample_config .BUS_TYPE_I2C false)
        (sample_state [ok_reply [2, 48], zero_records 16, zero_records 8, ok_reply []])).1
        (by decide) (by decide)
      h.2.2⟩,
    ⟨by decide, by decide,
      (overflow_reset_unless_transfer_fails (sample_config .BUS_TYPE_I2C false)
        (sample_state [ok_reply [0, 28], failed_reply, ok_reply []])).2 (by decide)⟩⟩

/-- C14, counterexample to the claim as stated: with 40 records pending, so that
`need_reset` is set, and the transfer of the first block failing, the tick
performs no FIFO reset before its integrity check. -/
theorem overflow_without_reset_on_failed_transfer :
    pending_records (sample_state [ok_reply [2, 48], failed_reply, ok_reply []]) = 40 ∧
    (_read_sample (sample_config .BUS_TYPE_I2C false)
        (sample_state [ok_reply [2, 48], failed_reply, ok_reply []])).2.trace
      = [ Event.read_registers MPUREG_FIFO_COUNTH 2 true,
          Event.read_registers MPUREG_FIFO_R_W 224 false,
          Event.set_speed .SPEED_LOW, Event.check_next_register true,
          Event.set_speed .SPEED_HIGH ] ∧
    reset_count (_read_sample (sample_config .BUS_TYPE_I2C false)
        (sample_state [ok_reply [2, 48], failed_reply, ok_reply []])).2.trace = 0 := by
  decide

theorem transport_failure_aborts_witness :
    fifo_failures (_read_sample (sample_config .BUS_TYPE_SPI true)
        (sample_state [ok_reply [0, 28], ok_reply [], failed_reply, ok_reply []])).2.trace
      ≠ fifo_failures (sample_state [ok_reply [0, 28], ok_reply [], failed_reply,
          ok_reply []]).trace ∧
    (_read_sample (sample_config .BUS_TYPE_SPI true)
        (sample_state [ok_reply [0, 28], ok_reply [], failed_reply, ok_reply []])).1 = true :=
  ⟨by decide,
    let ⟨_, _, h⟩ := transport_failure_aborts (sample_config .BUS_TYPE_SPI true)
      (sample_state [ok_reply [0, 28], ok_reply [], failed_reply, ok_reply []]) (by decide)
    h.2.2.2.2.1⟩

theorem periodic_read_capacity_witness :
    (24 : Nat) < 256 ∧
    _configure_periodic_read 24 ⟨20⟩ sample_slave 3 8 (sample_state [])
      = ⟨-1, ⟨20⟩, sample_slave, sample_state []⟩ ∧
    (_configure_periodic_read 24 ⟨10⟩ sample_slave 3 8 (sample_state [])).slave._ext_sens_data
      = 10 :=
  ⟨by decide,
    (periodic_read_capacity 24 (by decide)).1 ⟨20⟩ sample_slave 3 8 (sample_state [])
      (by decide),
    by
      rw [((periodic_read_capacity 24 (by decide)).2.1 ⟨10⟩ sample_slave 3 8 (sample_state [])
        (by decide)).2.1]⟩

/-! ## The drain loop is bounded -/

theorem query_not_block_start (e : Event) (h : is_query_event e = true) :
    is_block_start e = false := by
  cases e with
  | read_registers reg size ok =>
    simp_all [is_query_event, is_block_start, MPUREG_FIFO_COUNTH, MPUREG_FIFO_R_W]
  | _ => simp_all [is_query_event, is_block_start]

theorem check_registers_block_starts (x : State) :
    block_starts (check_registers x).2.trace = block_starts x.trace := by
  rw [(check_registers_trace x).2]
  cases (next_reply x).1.ok <;> simp [block_starts, is_block_start]

theorem finish_block_starts (s0 x : State) :
    block_starts (finish s0 x).2.trace = block_starts x.trace := by
  unfold finish
  rw [check_registers_block_starts]
  split
  · exact emits_count is_block_start conversion_not_block_start (fifo_reset_emits x)
  · rfl

theorem stopped_block_starts (cfg : Config) (n : Nat) (s0 x : State) :
    block_starts (stopped cfg n s0 x).trace = block_starts x.trace := by
  unfold stopped
  split <;> simp [emit, block_starts, is_block_start]

theorem convert_block_starts (cfg : Config) (n : Nat) (x : State) :
    block_starts (convert cfg n x).2.trace = block_starts x.trace :=
  emits_count is_block_start conversion_not_block_start (convert_emits cfg n x)

theorem query_block_starts (s : State) :
    block_starts (query_count s).2.trace = block_starts s.trace :=
  emits_count is_block_start query_not_block_start (query_count_emits s)

/-- One iteration of the drain loop is enough for up to 16 records. -/
theorem drain_one_block (cfg : Config) (p : Nat) (n : Nat) (hn : n ≤ 16) (extra : Nat)
    (x : State) :
    drain cfg p (extra + 1) n x = drain cfg p 1 n x := by
  by_cases h0 : n = 0
  · subst h0
    rw [drain_done, drain_done]
  have hpos : 0 < n := Nat.pos_of_ne_zero h0
  by_cases hx : (fifo_transfer cfg (min MPU_FIFO_BUFFER_LEN n) x).1 = false
  · rw [drain_transfer_failed cfg p extra n x hpos hx,
      drain_transfer_failed cfg p 0 n x hpos hx]
  have hx1 : (fifo_transfer cfg (min MPU_FIFO_BUFFER_LEN n) x).1 = true := by
    simpa using hx
  by_cases hc : (convert cfg (min MPU_FIFO_BUFFER_LEN n)
      (fifo_transfer cfg (min MPU_FIFO_BUFFER_LEN n) x).2).1 = false
  · rw [drain_convert_failed cfg p extra n x hpos hx1 hc,
      drain_convert_failed cfg p 0 n x hpos hx1 hc]
  have hc1 : (convert cfg (min MPU_FIFO_BUFFER_LEN n)
      (fifo_transfer cfg (min MPU_FIFO_BUFFER_LEN n) x).2).1 = true := by
    simpa using hc
  rw [drain_continue cfg p extra n x hpos hx1 hc1, drain_continue cfg p 0 n x hpos hx1 hc1]
  have hlen : MPU_FIFO_BUFFER_LEN = 16 := rfl
  have hz : n - min MPU_FIFO_BUFFER_LEN n = 0 := by rw [hlen]; omega
  rw [hz, drain_done, drain_done]

/-- Two iterations of the drain loop are enough for up to 32 records: further
iterations are never entered. -/
theorem drain_two_blocks (cfg : Config) (p : Nat) (n : Nat) (hn : n ≤ 32) (extra : Nat)
    (x : State) :
    drain cfg p (extra + 2) n x = drain cfg p 2 n x := by
  by_cases h0 : n = 0
  · subst h0
    rw [drain_done, drain_done]
  have hpos : 0 < n := Nat.pos_of_ne_zero h0
  by_cases hx : (fifo_transfer cfg (min MPU_FIFO_BUFFER_LEN n) x).1 = false
  · rw [drain_transfer_failed cfg p (extra + 1) n x hpos hx,
      drain_transfer_failed cfg p 1 n x hpos hx]
  have hx1 : (fifo_transfer cfg (min MPU_FIFO_BUFFER_LEN n) x).1 = true := by
    simpa using hx
  by_cases hc : (convert cfg (min MPU_FIFO_BUFFER_LEN n)
      (fifo_transfer cfg (min MPU_FIFO_BUFFER_LEN n) x).2).1 = false
  · rw [drain_convert_failed cfg p (extra + 1) n x hpos hx1 hc,
      drain_convert_failed cfg p 1 n x hpos hx1 hc]
  have hc1 : (convert cfg (min MPU_FIFO_BUFFER_LEN n)
      (fifo_transfer cfg (min MPU_FIFO_BUFFER_LEN n) x).2).1 = true := by
    simpa using hc
  rw [drain_continue cfg p (extra + 1) n x hpos hx1 hc1, drain_continue cfg p 1 n x hpos hx1 hc1]
  have hlen : MPU_FIFO_BUFFER_LEN = 16 := rfl
  exact drain_one_block cfg p _ (by rw [hlen]; omega) extra _

theorem drain_tick_fuel (cfg : Config) (p : Nat) (s x : State) :
    drain cfg p (drained_records s) (drained_records s) x
      = drain cfg p 2 (drained_records s) x := by
  have hle := drained_records_le s
  rcases Nat.lt_or_ge (drained_records s) 2 with h | h
  · rcases Nat.eq_zero_or_pos (drained_records s) with h0 | h0
    · rw [h0, drain_done]
      rfl
    · have h1 : drained_records s = 1 := by omega
      rw [h1]
      exact (drain_fuel_enough cfg p 1 1 x (le_refl 1)).symm
  · obtain ⟨k, hk⟩ : ∃ k, drained_records s = k + 2 := ⟨drained_records s - 2, by omega⟩
    have := drain_two_blocks cfg p (drained_records s) hle k x
    rw [← hk] at this
    exact this

theorem read_sample_two_blocks (cfg : Config) (s : State) :
    _read_sample cfg s = two_block_tick cfg s := by
  unfold two_block_tick
  by_cases hpend : pending_records s = 0
  · rw [if_pos hpend, read_sample_nothing_pending cfg s hpend]
  rw [if_neg hpend]
  rcases read_sample_cases cfg s hpend with
    ⟨hx, hT⟩ | ⟨hx, hc, hT⟩ | ⟨hx, hc, h2, hT⟩ | ⟨hx, hc, h2, hx2, hT⟩ |
    ⟨hx, hc, h2, hx2, hc2, hT⟩ | ⟨hx, hc, h2, hx2, hc2, hT⟩
  · rw [if_pos hx, hT]
  · rw [if_neg (by simp [hx]), if_pos hc, hT]
  · rw [if_neg (by simp [hx]), if_neg (by simp [hc]), if_pos h2, hT]
  · rw [if_neg (by simp [hx]), if_neg (by simp [hc]), if_neg h2, if_pos hx2, hT]
  · rw [if_neg (by simp [hx]), if_neg (by simp [hc]), if_neg h2, if_neg (by simp [hx2]),
      if_pos hc2, hT]
  · rw [if_neg (by simp [hx]), if_neg (by simp [hc]), if_neg h2, if_neg (by simp [hx2]),
      if_neg (by simp [hc2]), hT]

theorem read_sample_block_starts (cfg : Config) (s : State) :
    block_starts (_read_sample cfg s).2.trace ≤ block_starts s.trace + 2 := by
  have hq := query_block_starts s
  by_cases hpend : pending_records s = 0
  · rw [read_sample_nothing_pending cfg s hpend, check_registers_block_starts, hq]
    omega
  have e1 : (fifo_transfer cfg (block1_size s) (query_count s).2).2 = block1_in cfg s := rfl
  have e2 : (convert cfg (block1_size s) (block1_in cfg s)).2 = block1_out cfg s := rfl
  have e3 : (fifo_transfer cfg (block2_size s) (block1_out cfg s)).2 = block2_in cfg s := rfl
  have e4 : (convert cfg (block2_size s) (block2_in cfg s)).2 = block2_out cfg s := rfl
  have f1 := (fifo_transfer_failures cfg (block1_size s) (query_count s).2).2
  have g1 := convert_block_starts cfg (block1_size s) (block1_in cfg s)
  have f2 := (fifo_transfer_failures cfg (block2_size s) (block1_out cfg s)).2
  have g2 := convert_block_starts cfg (block2_size s) (block2_in cfg s)
  rw [e1] at f1
  rw [e2] at g1
  rw [e3] at f2
  rw [e4] at g2
  rcases read_sample_cases cfg s hpend with
    ⟨hx, hT⟩ | ⟨hx, hc, hT⟩ | ⟨hx, hc, h2, hT⟩ | ⟨hx, hc, h2, hx2, hT⟩ |
    ⟨hx, hc, h2, hx2, hc2, hT⟩ | ⟨hx, hc, h2, hx2, hc2, hT⟩
  · rw [hT, check_registers_block_starts]; omega
  · rw [hT, finish_block_starts, stopped_block_starts]; omega
  · rw [hT, finish_block_starts]; omega
  · rw [hT, check_registers_block_starts]; omega
  · rw [hT, finish_block_starts, stopped_block_starts]; omega
  · rw [hT, finish_block_starts]; omega

theorem drain_event_fifo_read (reg size : Nat) (ok : Bool)
    (h : is_drain_event (.read_registers reg size ok) = true) (hreg : reg = MPUREG_FIFO_R_W) :
    ∃ n, 1 ≤ n ∧ n ≤ 16 ∧ size = n * MPU_SAMPLE_SIZE := by
  subst hreg
  simp only [is_drain_event, is_query_event, is_conversion_event, is_transfer_event,
    MPUREG_FIFO_R_W, MPUREG_FIFO_COUNTH, MPUREG_TEMP_OUT_H, Bool.or_eq_true, Bool.and_eq_true,
    decide_eq_true_eq, List.any_eq_true, List.mem_range] at h
  rcases h with ((⟨h, -⟩ | ⟨h, -⟩) | ⟨n, hn, h1, -, h2⟩) | h
  · omega
  · omega
  · exact ⟨n, h1, by omega, h2⟩
  · simp at h

theorem drain_event_transfer (a b : Nat) (ok : Bool)
    (h : is_drain_event (.transfer a b ok) = true) :
    (a = 1 ∧ b = 0) ∨
      ∃ n, 1 ≤ n ∧ n ≤ 16 ∧ a = n * MPU_SAMPLE_SIZE ∧ b = n * MPU_SAMPLE_SIZE := by
  simp only [is_drain_event, is_query_event, is_conversion_event, is_transfer_event,
    Bool.or_eq_true, Bool.and_eq_true,
    decide_eq_true_eq, List.any_eq_true, List.mem_range] at h
  rcases h with ((h | h) | ⟨n, hn, h1, h2⟩) | h
  · simp at h
  · simp at h
  · rcases h2 with h2 | ⟨h2, h3⟩
    · exact Or.inl h2
    · exact Or.inr ⟨n, h1, by omega, h2, h3⟩
  · simp at h

/-- C19. Bounded drain: for every driver state, bus behaviour and configuration,
a tick is the loop-free two-block tick, whose transfers and converter calls are
made with the first block size (at least 1 once records are pending) and, only
when it is not zero, the second block size; the drain loop needs no more than
two iterations, however many more it is allowed; both block sizes are at most
16, so a block of n records takes n * 14 bytes of the 224-byte working buffer;
at most two block transfers are started in a tick, every read of the FIFO data
port asks for n * 14 bytes with 1 <= n <= 16, and every raw transfer is the
command byte or a block of n * 14 bytes with 1 <= n <= 16. -/
theorem drain_bounded (cfg : Config) (s : State) :
    _read_sample cfg s = two_block_tick cfg s ∧
    (∀ (p : Nat) (x : State),
      drain cfg p (drained_records s) (drained_records s) x
        = drain cfg p 2 (drained_records s) x) ∧
    (∀ (p extra : Nat) (x : State),
      drain cfg p (extra + 2) (drained_records s) x
        = drain cfg p 2 (drained_records s) x) ∧
    (pending_records s ≠ 0 → 1 ≤ block1_size s) ∧
    block1_size s ≤ 16 ∧ block2_size s ≤ 16 ∧
    block1_size s + block2_size s = drained_records s ∧
    block1_size s * MPU_SAMPLE_SIZE ≤ MPU_FIFO_BUFFER_LEN * MPU_SAMPLE_SIZE ∧
    block2_size s * MPU_SAMPLE_SIZE ≤ MPU_FIFO_BUFFER_LEN * MPU_SAMPLE_SIZE ∧
    MPU_FIFO_BUFFER_LEN * MPU_SAMPLE_SIZE = 224 ∧
    block_starts (_read_sample cfg s).2.trace ≤ block_starts s.trace + 2 ∧
    ∃ evs, (_read_sample cfg s).2.trace = s.trace ++ evs ∧
      (∀ reg size ok, Event.read_registers reg size ok ∈ evs → reg = MPUREG_FIFO_R_W →
        ∃ n, 1 ≤ n ∧ n ≤ 16 ∧ size = n * MPU_SAMPLE_SIZE) ∧
      (∀ a b ok, Event.transfer a b ok ∈ evs →
        (a = 1 ∧ b = 0) ∨
          ∃ n, 1 ≤ n ∧ n ≤ 16 ∧ a = n * MPU_SAMPLE_SIZE ∧ b = n * MPU_SAMPLE_SIZE) := by
  have hle := drained_records_le s
  have hlen : MPU_FIFO_BUFFER_LEN = 16 := rfl
  have hsz : MPU_SAMPLE_SIZE = 14 := rfl
  have hb1 : block1_size s = min 16 (drained_records s) := rfl
  have hb2 : block2_size s = drained_records s - block1_size s := rfl
  refine ⟨read_sample_two_blocks cfg s, fun p x => drain_tick_fuel cfg p s x,
    fun p extra x => drain_two_blocks cfg p _ hle extra x,
    fun hpend => (block_sizes s hpend).1, by omega, by omega, by omega,
    by rw [hlen, hsz]; omega, by rw [hlen, hsz]; omega, by rw [hlen, hsz],
    read_sample_block_starts cfg s, ?_⟩
  obtain ⟨x, hT, pre, hpre, hall⟩ := read_sample_shape cfg s
  refine ⟨pre ++ integrity_calls (next_reply x).1.ok, ?_, ?_, ?_⟩
  · rw [hT, (check_registers_trace x).2, hpre, List.append_assoc]
    rfl
  · intro reg size ok hmem hreg
    rcases List.mem_append.mp hmem with h | h
    · exact drain_event_fifo_read reg size ok (hall _ h) hreg
    · exfalso
      cases hok : (next_reply x).1.ok <;> rw [hok] at h <;> simp [integrity_calls] at h
  · intro a b ok hmem
    rcases List.mem_append.mp hmem with h | h
    · exact drain_event_transfer a b ok (hall _ h)
    · exfalso
      cases hok : (next_reply x).1.ok <;> rw [hok] at h <;> simp [integrity_calls] at h

theorem drain_bounded_witness :
    pending_records (sample_state [ok_reply [2, 48], zero_records 16, zero_records 8,
      ok_reply []]) ≠ 0 ∧
    1 ≤ block1_size (sample_state [ok_reply [2, 48], zero_records 16, zero_records 8,
      ok_reply []]) :=
  ⟨by decide,
    (drain_bounded (sample_config .BUS_TYPE_I2C false)
      (sample_state [ok_reply [2, 48], zero_records 16, zero_records 8,
        ok_reply []])).2.2.2.1 (by decide)⟩

/-! ## Abort of the Direct converter -/

theorem accumulate_loop_split (cfg : Config) (samples : List Nat) (k : Nat) :
    ∀ (m i : Nat) (s : State), (_accumulate_loop cfg samples k i s).1 = true →
      _accumulate_loop cfg samples (k + m) i s
        = _accumulate_loop cfg samples m (i + k) (_accumulate_loop cfg samples k i s).2 := by
  induction k with
  | zero => intro m i s _; simp [_accumulate_loop]
  | succ k ih =>
    intro m i s h
    cases hc : (_check_raw_temp (int16_val (List.drop (MPU_SAMPLE_SIZE * i) samples) 3) s).1
    · rw [accumulate_loop_fail cfg samples k i s hc] at h
      simp at h
    · rw [accumulate_loop_pass cfg samples k i s hc] at h ⊢
      have e : k + 1 + m = (k + m) + 1 := by omega
      rw [e, accumulate_loop_pass cfg samples (k + m) i s hc, ih m (i + 1) _ h]
      have e2 : i + 1 + k = i + (k + 1) := by omega
      rw [e2]

theorem check_raw_temp_no_notification (t2 : Int) (s : State) :
    ∃ evs, (_check_raw_temp t2 s).2.trace = s.trace ++ evs ∧
      evs.filter is_notification = [] := by
  refine ⟨_, check_raw_temp_trace t2 s, ?_⟩
  split <;> simp [is_notification, is_accel_sample, is_gyro_sample]

theorem report_corruption_no_notification (t2 : Int) (s : State) :
    ∃ evs, (report_corruption t2 s).trace = s.trace ++ evs ∧
      evs.filter is_notification = [] := by
  obtain ⟨e2, h2, f2⟩ : ∃ e2, (_fifo_reset (emit (.debug_temp_reset s._raw_temp t2) s)).trace
      = (emit (.debug_temp_reset s._raw_temp t2) s).trace ++ e2 ∧
      e2.filter is_notification = [] :=
    ⟨_, fifo_reset_trace _, by simp [is_notification, is_accel_sample, is_gyro_sample]⟩
  refine ⟨[Event.debug_temp_reset s._raw_temp t2] ++ e2, ?_, ?_⟩
  · rw [report_corruption, h2]
    simp [emit]
  · rw [List.filter_append, f2]
    simp [is_notification, is_accel_sample, is_gyro_sample]

theorem direct_sample_pair (cfg : Config) (samples : List Nat) (i : Nat) (s : State) :
    (direct_sample cfg (samples.drop (MPU_SAMPLE_SIZE * i))
        (int16_val (samples.drop (MPU_SAMPLE_SIZE * i)) 3) s).trace
      = s.trace ++ direct_pair cfg samples i := by
  rw [direct_sample_trace]
  rfl

theorem direct_pair_filter (cfg : Config) (samples : List Nat) (i : Nat) :
    (direct_pair cfg samples i).filter is_notification = direct_pair cfg samples i := by
  simp [direct_pair, is_notification, is_accel_sample, is_gyro_sample]

/-- A run of the loop of `_accumulate` that accepts `k` records from index `i`
hands over exactly the notifications of records `i .. i + k - 1`, in order. -/
theorem accumulate_loop_notifications (cfg : Config) (samples : List Nat) (k : Nat) :
    ∀ (i : Nat) (s : State), (_accumulate_loop cfg samples k i s).1 = true →
      ∃ evs, (_accumulate_loop cfg samples k i s).2.trace = s.trace ++ evs ∧
        evs.filter is_notification = (List.range' i k).flatMap (direct_pair cfg samples) := by
  induction k with
  | zero => intro i s _; exact ⟨[], by simp [_accumulate_loop], by simp⟩
  | succ k ih =>
    intro i s h
    cases hc : (_check_raw_temp (int16_val (List.drop (MPU_SAMPLE_SIZE * i) samples) 3) s).1
    · rw [accumulate_loop_fail cfg samples k i s hc] at h
      simp at h
    · rw [accumulate_loop_pass cfg samples k i s hc] at h ⊢
      obtain ⟨e1, ht1, hf1⟩ := check_raw_temp_no_notification
        (int16_val (List.drop (MPU_SAMPLE_SIZE * i) samples) 3) s
      obtain ⟨e2, ht2, hf2⟩ := ih (i + 1) _ h
      refine ⟨e1 ++ direct_pair cfg samples i ++ e2, ?_, ?_⟩
      · rw [ht2, direct_sample_pair, ht1]
        simp only [List.append_assoc]
      · rw [List.filter_append, List.filter_append, hf1, hf2, direct_pair_filter]
        simp [List.range'_succ]

theorem direct_notifications_range (cfg : Config) (samples : List Nat) (k : Nat) :
    (List.range' 0 k).flatMap (direct_pair cfg samples) = direct_notifications cfg samples k := by
  rw [direct_notifications, List.range_eq_range']

theorem notifications_count (cfg : Config) (samples : List Nat) (k : Nat) :
    (direct_notifications cfg samples k).countP is_accel_sample = k ∧
    (direct_notifications cfg samples k).countP is_gyro_sample = k := by
  induction k with
  | zero => simp [direct_notifications]
  | succ k ih =>
    obtain ⟨h1, h2⟩ := ih
    simp only [direct_notifications] at h1 h2 ⊢
    rw [List.range_succ, List.flatMap_append, List.countP_append, List.countP_append, h1, h2]
    simp [direct_pair, is_accel_sample, is_gyro_sample]

/-- The Direct converter stops at the first rejected record: with the first `k`
records accepted and record `k` rejected, a call on `n > k` records is the run on
`k` records followed by the failed validation and the corruption report. -/
theorem accumulate_abort (cfg : Config) (samples : List Nat) (n k : Nat) (s : State)
    (hk : k < n) (hpass : (_accumulate cfg samples k s).1 = true)
    (hfail : (_check_raw_temp (record_word samples k 3) (_accumulate cfg samples k s).2).1
      = false) :
    _accumulate cfg samples n s
      = (false, report_corruption (record_word samples k 3)
          (_check_raw_temp (record_word samples k 3) (_accumulate cfg samples k s).2).2) := by
  obtain ⟨m, hm⟩ : ∃ m, n = k + (m + 1) := ⟨n - k - 1, by omega⟩
  unfold _accumulate record_word at *
  rw [hm, accumulate_loop_split cfg samples k (m + 1) 0 s hpass]
  have e : 0 + k = k := by omega
  rw [e, accumulate_loop_fail cfg samples m k _ hfail]


theorem getD_of_take_eq (a b : List Nat) (m p : Nat) (h : a.take m = b.take m) (hp : p < m) :
    a.getD p 0 = b.getD p 0 := by
  have ha : (a.take m)[p]? = a[p]? := by rw [List.getElem?_take, if_pos hp]
  have hb : (b.take m)[p]? = b[p]? := by rw [List.getElem?_take, if_pos hp]
  rw [h] at ha
  simp only [List.getD_eq_getElem?_getD]
  rw [← ha, ← hb]

theorem int16_val_of_take_eq (a b : List Nat) (k i j : Nat)
    (h : a.take (MPU_SAMPLE_SIZE * (k + 1)) = b.take (MPU_SAMPLE_SIZE * (k + 1)))
    (hi : i ≤ k) (hj : j ≤ 6) :
    int16_val (a.drop (MPU_SAMPLE_SIZE * i)) j = int16_val (b.drop (MPU_SAMPLE_SIZE * i)) j := by
  have hsz : MPU_SAMPLE_SIZE = 14 := rfl
  have hmul : 14 * i + 14 ≤ 14 * (k + 1) := by omega
  have h1 := getD_of_take_eq a b _ (MPU_SAMPLE_SIZE * i + 2 * j) h (by rw [hsz]; omega)
  have h2 := getD_of_take_eq a b _ (MPU_SAMPLE_SIZE * i + (2 * j + 1)) h (by rw [hsz]; omega)
  simp only [int16_val, uint16_val, List.getD_eq_getElem?_getD, List.getElem?_drop] at h1 h2 ⊢
  rw [h1, h2]

/-- The loop of `_accumulate` over records `i .. i + m - 1`, all within the first
`k + 1` records, reads nothing of the block beyond those `k + 1` records. -/
theorem accumulate_loop_prefix (cfg : Config) (a b : List Nat) (k : Nat)
    (h : a.take (MPU_SAMPLE_SIZE * (k + 1)) = b.take (MPU_SAMPLE_SIZE * (k + 1))) (m : Nat) :
    ∀ (i : Nat) (s : State), i + m ≤ k + 1 →
      _accumulate_loop cfg a m i s = _accumulate_loop cfg b m i s := by
  induction m with
  | zero => intro i s _; simp [_accumulate_loop]
  | succ m ih =>
    intro i s hi
    have w0 := int16_val_of_take_eq a b k i 0 h (by omega) (by omega)
    have w1 := int16_val_of_take_eq a b k i 1 h (by omega) (by omega)
    have w2 := int16_val_of_take_eq a b k i 2 h (by omega) (by omega)
    have w3 := int16_val_of_take_eq a b k i 3 h (by omega) (by omega)
    have w4 := int16_val_of_take_eq a b k i 4 h (by omega) (by omega)
    have w5 := int16_val_of_take_eq a b k i 5 h (by omega) (by omega)
    have w6 := int16_val_of_take_eq a b k i 6 h (by omega) (by omega)
    simp only [_accumulate_loop, direct_sample, w0, w1, w2, w3, w4, w5, w6]
    split
    · rfl
    · exact ih (i + 1) _ (by omega)


theorem accumulate_all_pass (cfg : Config) (samples : List Nat) (m : Nat) (x : State)
    (hall : ∀ j, j < m →
      (_check_raw_temp (record_word samples j 3) (_accumulate cfg samples j x).2).1 = true) :
    (_accumulate cfg samples m x).1 = true := by
  induction m with
  | zero => simp [_accumulate, _accumulate_loop]
  | succ m ih =>
    have hm := ih (fun j hj => hall j (by omega))
    have hlast := hall m (by omega)
    unfold _accumulate record_word at *
    rw [accumulate_loop_split cfg samples m 1 0 x hm]
    have e : 0 + m = m := by omega
    rw [e, accumulate_loop_pass cfg samples 0 m _ hlast]
    simp [_accumulate_loop]

theorem accumulate_pass_notifications (cfg : Config) (samples : List Nat) (m : Nat) (x : State)
    (h : (_accumulate cfg samples m x).1 = true) :
    (∃ evs, (_accumulate cfg samples m x).2.trace = x.trace ++ evs ∧
      evs.filter is_notification = direct_notifications cfg samples m) ∧
    accel_samples (_accumulate cfg samples m x).2.trace = accel_samples x.trace + m ∧
    gyro_samples (_accumulate cfg samples m x).2.trace = gyro_samples x.trace + m := by
  unfold _accumulate at *
  obtain ⟨evs, ht, hf⟩ := accumulate_loop_notifications cfg samples m 0 x h
  rw [direct_notifications_range] at hf
  exact ⟨⟨evs, ht, hf⟩, (accumulate_loop_counts cfg samples m 0 x).2.2.2.2 h⟩

theorem accumulate_abort_notifications (cfg : Config) (samples : List Nat) (n k : Nat)
    (s : State) (hk : k < n) (hpass : (_accumulate cfg samples k s).1 = true)
    (hfail : (_check_raw_temp (record_word samples k 3) (_accumulate cfg samples k s).2).1
      = false) :
    (∃ evs, (_accumulate cfg samples n s).2.trace = s.trace ++ evs ∧
      evs.filter is_notification = direct_notifications cfg samples k) ∧
    accel_samples (_accumulate cfg samples n s).2.trace = accel_samples s.trace + k ∧
    gyro_samples (_accumulate cfg samples n s).2.trace = gyro_samples s.trace + k := by
  obtain ⟨⟨e1, ht1, hf1⟩, ha, hg⟩ := accumulate_pass_notifications cfg samples k s hpass
  obtain ⟨e2, ht2, hf2⟩ := check_raw_temp_no_notification (record_word samples k 3)
    (_accumulate cfg samples k s).2
  obtain ⟨e3, ht3, hf3⟩ := report_corruption_no_notification (record_word samples k 3)
    (_check_raw_temp (record_word samples k 3) (_accumulate cfg samples k s).2).2
  obtain ⟨-, -, -, c4, c5, -⟩ := check_raw_temp_counts (record_word samples k 3)
    (_accumulate cfg samples k s).2
  obtain ⟨-, -, -, r4, r5, -⟩ := report_corruption_counts (record_word samples k 3)
    (_check_raw_temp (record_word samples k 3) (_accumulate cfg samples k s).2).2
  rw [accumulate_abort cfg samples n k s hk hpass hfail]
  refine ⟨⟨e1 ++ e2 ++ e3, ?_, ?_⟩, by dsimp only; omega, by dsimp only; omega⟩
  · dsimp only
    rw [ht3, ht2, ht1]
    simp only [List.append_assoc]
  · rw [List.filter_append, List.filter_append, hf1, hf2, hf3]
    simp

theorem accumulate_abort_prefix (cfg : Config) (samples : List Nat) (n k : Nat)
    (s : State) (hk : k < n) (hpass : (_accumulate cfg samples k s).1 = true)
    (hfail : (_check_raw_temp (record_word samples k 3) (_accumulate cfg samples k s).2).1
      = false)
    (other : List Nat) (n2 : Nat)
    (hsame : other.take (MPU_SAMPLE_SIZE * (k + 1)) = samples.take (MPU_SAMPLE_SIZE * (k + 1)))
    (hn2 : k < n2) :
    _accumulate cfg other n2 s = _accumulate cfg samples n s := by
  have hrun : _accumulate cfg other k s = _accumulate cfg samples k s :=
    accumulate_loop_prefix cfg other samples k hsame k 0 s (by omega)
  have hw : record_word other k 3 = record_word samples k 3 :=
    int16_val_of_take_eq other samples k k 3 hsame (le_refl k) (by omega)
  rw [accumulate_abort cfg samples n k s hk hpass hfail,
    accumulate_abort cfg other n2 k s hn2 (by rw [hrun]; exact hpass)
      (by rw [hrun, hw]; exact hfail), hrun, hw]

theorem direct_tick_stops (cfg : Config) (t : State) (hmode : cfg._fast_sampling = false)
    (hpend : pending_records t ≠ 0)
    (hx : (fifo_transfer cfg (block1_size t) (query_count t).2).1 = true)
    (hc : (convert cfg (block1_size t) (block1_in cfg t)).1 = false) :
    convert cfg (block1_size t) (block1_in cfg t)
      = _accumulate cfg (block1_in cfg t)._fifo_buffer (block1_size t) (block1_in cfg t) ∧
    _read_sample cfg t = finish t (block1_out cfg t) ∧
    block_starts (_read_sample cfg t).2.trace = block_starts t.trace + 1 := by
  have hstop : ∀ n x, stopped cfg n t x = x := by
    intro n x
    simp [stopped, hmode]
  have hT : _read_sample cfg t = finish t (block1_out cfg t) := by
    rcases read_sample_cases cfg t hpend with
      ⟨h1, -⟩ | ⟨-, -, hT⟩ | ⟨-, h2, -⟩ | ⟨-, h2, -⟩ | ⟨-, h2, -⟩ | ⟨-, h2, -⟩
    · rw [hx] at h1; simp at h1
    · rw [hT, hstop]
    · rw [hc] at h2; simp at h2
    · rw [hc] at h2; simp at h2
    · rw [hc] at h2; simp at h2
    · rw [hc] at h2; simp at h2
  refine ⟨by simp [convert, hmode], hT, ?_⟩
  have f1 := (fifo_transfer_failures cfg (block1_size t) (query_count t).2).2
  have g1 := convert_block_starts cfg (block1_size t) (block1_in cfg t)
  have e1 : (fifo_transfer cfg (block1_size t) (query_count t).2).2 = block1_in cfg t := rfl
  have e2 : (convert cfg (block1_size t) (block1_in cfg t)).2 = block1_out cfg t := rfl
  rw [e1] at f1
  rw [e2] at g1
  rw [hT, finish_block_starts, g1, f1, query_block_starts]

/-- C17. Abort on corruption: for every block handed to the Direct converter
`_accumulate` with `n` records of which the first `k` are accepted and record
`k < n` fails temperature validation, the call returns false and ends with the
failed validation of record `k` and the corruption report; the notifications it
makes are exactly those of records `0 .. k - 1`, accel then gyro for each, in
record order (so `k` accel and `k` gyro samples); the outcome does not depend on
the bytes after record `k` nor on how many records follow it, so no later record
is read or validated.  In a tick of Direct mode whose first block the converter
rejects, the tick goes to the overflow reset and the integrity check with one
block transfer started and no further one.  If every record of a block of `m`
records passes validation, the call returns true and makes the notifications of
all `m` records in order. -/
theorem direct_abort_on_corruption (cfg : Config) (samples : List Nat) (n k : Nat)
    (s : State) (hk : k < n) (hpass : (_accumulate cfg samples k s).1 = true)
    (hfail : (_check_raw_temp (record_word samples k 3) (_accumulate cfg samples k s).2).1
      = false) :
    (_accumulate cfg samples n s).1 = false ∧
    _accumulate cfg samples n s
      = (false, report_corruption (record_word samples k 3)
          (_check_raw_temp (record_word samples k 3) (_accumulate cfg samples k s).2).2) ∧
    (∃ evs, (_accumulate cfg samples n s).2.trace = s.trace ++ evs ∧
      evs.filter is_notification = direct_notifications cfg samples k) ∧
    accel_samples (_accumulate cfg samples n s).2.trace = accel_samples s.trace + k ∧
    gyro_samples (_accumulate cfg samples n s).2.trace = gyro_samples s.trace + k ∧
    (∀ (other : List Nat) (n2 : Nat),
      other.take (MPU_SAMPLE_SIZE * (k + 1)) = samples.take (MPU_SAMPLE_SIZE * (k + 1)) →
      k < n2 → _accumulate cfg other n2 s = _accumulate cfg samples n s) ∧
    (∀ t : State, cfg._fast_sampling = false → pending_records t ≠ 0 →
      (fifo_transfer cfg (block1_size t) (query_count t).2).1 = true →
      (convert cfg (block1_size t) (block1_in cfg t)).1 = false →
      convert cfg (block1_size t) (block1_in cfg t)
        = _accumulate cfg (block1_in cfg t)._fifo_buffer (block1_size t) (block1_in cfg t) ∧
      _read_sample cfg t = finish t (block1_out cfg t) ∧
      block_starts (_read_sample cfg t).2.trace = block_starts t.trace + 1) ∧
    (∀ (m : Nat) (x : State),
      (∀ j, j < m →
        (_check_raw_temp (record_word samples j 3) (_accumulate cfg samples j x).2).1 = true) →
      (_accumulate cfg samples m x).1 = true ∧
      (∃ evs, (_accumulate cfg samples m x).2.trace = x.trace ++ evs ∧
        evs.filter is_notification = direct_notifications cfg samples m) ∧
      accel_samples (_accumulate cfg samples m x).2.trace = accel_samples x.trace + m ∧
      gyro_samples (_accumulate cfg samples m x).2.trace = gyro_samples x.trace + m) := by
  obtain ⟨hn, ha, hg⟩ := accumulate_abort_notifications cfg samples n k s hk hpass hfail
  refine ⟨by rw [accumulate_abort cfg samples n k s hk hpass hfail],
    accumulate_abort cfg samples n k s hk hpass hfail, hn, ha, hg,
    fun other n2 hsame hn2 => accumulate_abort_prefix cfg samples n k s hk hpass hfail other n2
      hsame hn2,
    fun t hmode hpend hx hc => direct_tick_stops cfg t hmode hpend hx hc,
    fun m x hall => ?_⟩
  have hret := accumulate_all_pass cfg samples m x hall
  exact ⟨hret, accumulate_pass_notifications cfg samples m x hret⟩

theorem direct_abort_on_corruption_witness :
    (1 < 3) ∧
    (_accumulate (sample_config .BUS_TYPE_I2C false)
      (zero_record ++ hot_record ++ zero_record) 1 (sample_state [ok_reply [0, 0]])).1 = true ∧
    (_check_raw_temp (record_word (zero_record ++ hot_record ++ zero_record) 1 3)
      (_accumulate (sample_config .BUS_TYPE_I2C false)
        (zero_record ++ hot_record ++ zero_record) 1 (sample_state [ok_reply [0, 0]])).2).1
      = false ∧
    (_accumulate (sample_config .BUS_TYPE_I2C false)
      (zero_record ++ hot_record ++ zero_record) 3 (sample_state [ok_reply [0, 0]])).1 = false ∧
    accel_samples (_accumulate (sample_config .BUS_TYPE_I2C false)
      (zero_record ++ hot_record ++ zero_record) 3 (sample_state [ok_reply [0, 0]])).2.trace
      = accel_samples (sample_state [ok_reply [0, 0]]).trace + 1 :=
  ⟨by decide, by decide, by decide,
    (direct_abort_on_corruption (sample_config .BUS_TYPE_I2C false)
      (zero_record ++ hot_record ++ zero_record) 3 1 (sample_state [ok_reply [0, 0]])
      (by decide) (by decide) (by decide)).1,
    (direct_abort_on_corruption (sample_config .BUS_TYPE_I2C false)
      (zero_record ++ hot_record ++ zero_record) 3 1 (sample_state [ok_reply [0, 0]])
      (by decide) (by decide) (by decide)).2.2.2.1⟩

/-! ## Windows of the Downsampling converter -/

theorem filter_outputs_append (f : FilterState → Vector3f → FilterState × Vector3f)
    (xs ys : List Vector3f) :
    ∀ m, filter_outputs f m (xs ++ ys)
      = filter_outputs f m xs ++ filter_outputs f (filter_memory f m xs) ys := by
  induction xs with
  | nil => intro m; simp [filter_outputs, filter_memory]
  | cons x xs ih => intro m; simp [filter_outputs, filter_memory, ih]

theorem filter_memory_append (f : FilterState → Vector3f → FilterState × Vector3f)
    (xs ys : List Vector3f) :
    ∀ m, filter_memory f m (xs ++ ys) = filter_memory f (filter_memory f m xs) ys := by
  induction xs with
  | nil => intro m; simp [filter_memory]
  | cons x xs ih => intro m; simp [filter_memory, ih]

theorem sum_from_append (a : Vector3f) (xs ys : List Vector3f) :
    a.sum_from (xs ++ ys) = (a.sum_from xs).sum_from ys := by
  simp [Vector3f.sum_from, List.foldl_append]

theorem accel_inputs_succ (samples : List Nat) (i c k : Nat) :
    accel_inputs samples i c (k + 1)
      = accel_inputs samples i c 1 ++ accel_inputs samples (i + 1) (c + 1) k := by
  simp [accel_inputs]

theorem gyro_inputs_succ (samples : List Nat) (i k : Nat) :
    gyro_inputs samples i (k + 1) = gyro_inputs samples i 1 ++ gyro_inputs samples (i + 1) k := by
  simp [gyro_inputs]

theorem fast_emit_idle (cfg : Config) (x : State) (h : x._accum.count ≠ 8) :
    fast_emit cfg x = x := by
  have hd : MPU_FIFO_DOWNSAMPLE_COUNT = 8 := rfl
  unfold fast_emit
  rw [hd, if_neg h]

theorem fast_emit_full (cfg : Config) (x : State) (h : x._accum.count = 8) :
    (fast_emit cfg x)._accum.accel = Vector3f.zero ∧
    (fast_emit cfg x)._accum.gyro = Vector3f.zero ∧
    (fast_emit cfg x)._accum.count = 0 ∧
    (fast_emit cfg x)._accum.accel_filter = x._accum.accel_filter ∧
    (fast_emit cfg x)._accum.gyro_filter = x._accum.gyro_filter ∧
    (fast_emit cfg x).trace = x.trace ++
      [ Event.notify_new_accel_raw_sample (cfg.rotate_and_correct_accel
          (x._accum.accel.scale (MPU9250_ACCEL_SCALE_1G cfg / 4))) false,
        Event.notify_new_gyro_raw_sample (cfg.rotate_and_correct_gyro
          (x._accum.gyro.scale (GYRO_SCALE / 8))) ] := by
  have hd : MPU_FIFO_DOWNSAMPLE_COUNT = 8 := rfl
  unfold fast_emit
  rw [hd, if_pos h]
  simp only [emit]
  norm_num

/-- The accumulator after the accel and gyro parts of one accepted record, before
the emission test. -/
theorem fast_fold (cfg : Config) (samples : List Nat) (i : Nat) (cl : Bool) (s : State)
    (hc : s._accum.count < 8) :
    (fast_gyro cfg (samples.drop (MPU_SAMPLE_SIZE * i))
        (fast_accel cfg (samples.drop (MPU_SAMPLE_SIZE * i)) cl s).2)._accum.accel
      = window_accel cfg samples i 1 s ∧
    (fast_gyro cfg (samples.drop (MPU_SAMPLE_SIZE * i))
        (fast_accel cfg (samples.drop (MPU_SAMPLE_SIZE * i)) cl s).2)._accum.gyro
      = window_gyro cfg samples i 1 s ∧
    (fast_gyro cfg (samples.drop (MPU_SAMPLE_SIZE * i))
        (fast_accel cfg (samples.drop (MPU_SAMPLE_SIZE * i)) cl s).2)._accum.count
      = s._accum.count + 1 ∧
    (fast_gyro cfg (samples.drop (MPU_SAMPLE_SIZE * i))
        (fast_accel cfg (samples.drop (MPU_SAMPLE_SIZE * i)) cl s).2)._accum.accel_filter
      = filter_memory cfg.accel_filter_apply s._accum.accel_filter
          (accel_inputs samples i s._accum.count 1) ∧
    (fast_gyro cfg (samples.drop (MPU_SAMPLE_SIZE * i))
        (fast_accel cfg (samples.drop (MPU_SAMPLE_SIZE * i)) cl s).2)._accum.gyro_filter
      = filter_memory cfg.gyro_filter_apply s._accum.gyro_filter (gyro_inputs samples i 1) ∧
    (fast_gyro cfg (samples.drop (MPU_SAMPLE_SIZE * i))
        (fast_accel cfg (samples.drop (MPU_SAMPLE_SIZE * i)) cl s).2).trace = s.trace := by
  have hmod : (s._accum.count + 1) % 256 = s._accum.count + 1 := by omega
  by_cases hp : s._accum.count % 2 = 0
  · have hand : s._accum.count &&& 1 = 0 := by rw [Nat.and_one_is_mod]; exact hp
    unfold fast_accel
    rw [if_pos hand]
    simp only [fast_gyro, window_accel, window_gyro, accel_inputs, gyro_inputs, filter_outputs,
      filter_memory, Vector3f.sum_from, raw_accel, raw_gyro, record_word, hp, hmod, if_true,
      List.append_nil, List.foldl_cons, List.foldl_nil, and_self]
  · have hand : ¬ (s._accum.count &&& 1 = 0) := by rw [Nat.and_one_is_mod]; exact hp
    unfold fast_accel
    rw [if_neg hand]
    simp only [fast_gyro, window_accel, window_gyro, accel_inputs, gyro_inputs, filter_outputs,
      filter_memory, Vector3f.sum_from, raw_accel, raw_gyro, record_word, hp, hmod, if_false,
      List.append_nil, List.foldl_cons, List.foldl_nil, and_self]

/-- One accepted record of the Downsampling converter, met with a count below 8. -/
theorem fast_sample_window (cfg : Config) (samples : List Nat) (i : Nat) (cl : Bool)
    (s : State) (hc : s._accum.count < 8) :
    (fast_sample cfg (samples.drop (MPU_SAMPLE_SIZE * i)) cl s).2._accum.accel_filter
      = filter_memory cfg.accel_filter_apply s._accum.accel_filter
          (accel_inputs samples i s._accum.count 1) ∧
    (fast_sample cfg (samples.drop (MPU_SAMPLE_SIZE * i)) cl s).2._accum.gyro_filter
      = filter_memory cfg.gyro_filter_apply s._accum.gyro_filter (gyro_inputs samples i 1) ∧
    (s._accum.count + 1 < 8 →
      (fast_sample cfg (samples.drop (MPU_SAMPLE_SIZE * i)) cl s).2._accum.accel
        = window_accel cfg samples i 1 s ∧
      (fast_sample cfg (samples.drop (MPU_SAMPLE_SIZE * i)) cl s).2._accum.gyro
        = window_gyro cfg samples i 1 s ∧
      (fast_sample cfg (samples.drop (MPU_SAMPLE_SIZE * i)) cl s).2._accum.count
        = s._accum.count + 1 ∧
      (fast_sample cfg (samples.drop (MPU_SAMPLE_SIZE * i)) cl s).2.trace = s.trace) ∧
    (s._accum.count + 1 = 8 →
      (fast_sample cfg (samples.drop (MPU_SAMPLE_SIZE * i)) cl s).2._accum.accel
        = Vector3f.zero ∧
      (fast_sample cfg (samples.drop (MPU_SAMPLE_SIZE * i)) cl s).2._accum.gyro
        = Vector3f.zero ∧
      (fast_sample cfg (samples.drop (MPU_SAMPLE_SIZE * i)) cl s).2._accum.count = 0 ∧
      (fast_sample cfg (samples.drop (MPU_SAMPLE_SIZE * i)) cl s).2.trace = s.trace ++
        [ Event.notify_new_accel_raw_sample (cfg.rotate_and_correct_accel
            ((window_accel cfg samples i 1 s).scale (MPU9250_ACCEL_SCALE_1G cfg / 4))) false,
          Event.notify_new_gyro_raw_sample (cfg.rotate_and_correct_gyro
            ((window_gyro cfg samples i 1 s).scale (GYRO_SCALE / 8))) ]) := by
  obtain ⟨f1, f2, f3, f4, f5, f6⟩ := fast_fold cfg samples i cl s hc
  have hfs : (fast_sample cfg (samples.drop (MPU_SAMPLE_SIZE * i)) cl s).2
      = fast_emit cfg (fast_gyro cfg (samples.drop (MPU_SAMPLE_SIZE * i))
          (fast_accel cfg (samples.drop (MPU_SAMPLE_SIZE * i)) cl s).2) := rfl
  rw [hfs]
  by_cases h8 : s._accum.count + 1 = 8
  · obtain ⟨e1, e2, e3, e4, e5, e6⟩ := fast_emit_full cfg _ (f3.trans h8)
    refine ⟨by rw [e4, f4], by rw [e5, f5], fun h => by omega, fun _ => ⟨e1, e2, e3, ?_⟩⟩
    rw [e6, f1, f2, f6]
  · rw [fast_emit_idle cfg _ (by rw [f3]; exact h8)]
    exact ⟨f4, f5, fun _ => ⟨f1, f2, f3, f6⟩, fun h => absurd h h8⟩

theorem window_congr (cfg : Config) (samples : List Nat) (i k : Nat) (a b : State)
    (h : a._accum = b._accum) :
    window_accel cfg samples i k a = window_accel cfg samples i k b ∧
    window_gyro cfg samples i k a = window_gyro cfg samples i k b := by
  simp [window_accel, window_gyro, h]

theorem window_succ (cfg : Config) (samples : List Nat) (i k : Nat) (s x : State)
    (ha : x._accum.accel = window_accel cfg samples i 1 s)
    (hg : x._accum.gyro = window_gyro cfg samples i 1 s)
    (hc : x._accum.count = s._accum.count + 1)
    (haf : x._accum.accel_filter = filter_memory cfg.accel_filter_apply s._accum.accel_filter
      (accel_inputs samples i s._accum.count 1))
    (hgf : x._accum.gyro_filter = filter_memory cfg.gyro_filter_apply s._accum.gyro_filter
      (gyro_inputs samples i 1)) :
    window_accel cfg samples (i + 1) k x = window_accel cfg samples i (k + 1) s ∧
    window_gyro cfg samples (i + 1) k x = window_gyro cfg samples i (k + 1) s ∧
    filter_memory cfg.accel_filter_apply x._accum.accel_filter
        (accel_inputs samples (i + 1) x._accum.count k)
      = filter_memory cfg.accel_filter_apply s._accum.accel_filter
          (accel_inputs samples i s._accum.count (k + 1)) ∧
    filter_memory cfg.gyro_filter_apply x._accum.gyro_filter (gyro_inputs samples (i + 1) k)
      = filter_memory cfg.gyro_filter_apply s._accum.gyro_filter
          (gyro_inputs samples i (k + 1)) := by
  refine ⟨?_, ?_, ?_, ?_⟩
  · rw [window_accel, ha, haf, hc, window_accel, window_accel, accel_inputs_succ samples i _ k,
      filter_outputs_append, sum_from_append]
  · rw [window_gyro, hg, hgf, window_gyro, window_gyro, gyro_inputs_succ samples i k,
      filter_outputs_append, sum_from_append]
  · rw [haf, hc, accel_inputs_succ samples i _ k, filter_memory_append]
  · rw [hgf, gyro_inputs_succ samples i k, filter_memory_append]

/-- A run of `k` accepted records of the Downsampling converter within one
window: entered with count `c`, `c + k <= 8`. -/
theorem fast_loop_window (cfg : Config) (samples : List Nat) (k : Nat) :
    ∀ (i : Nat) (tsum : Int) (cl : Bool) (s : State), s._accum.count + k ≤ 8 →
      (fast_loop cfg samples k i tsum cl s).ret = true →
      (fast_loop cfg samples k i tsum cl s).s._accum.accel_filter
        = filter_memory cfg.accel_filter_apply s._accum.accel_filter
            (accel_inputs samples i s._accum.count k) ∧
      (fast_loop cfg samples k i tsum cl s).s._accum.gyro_filter
        = filter_memory cfg.gyro_filter_apply s._accum.gyro_filter (gyro_inputs samples i k) ∧
      (s._accum.count + k < 8 →
        (fast_loop cfg samples k i tsum cl s).s._accum.accel = window_accel cfg samples i k s ∧
        (fast_loop cfg samples k i tsum cl s).s._accum.gyro = window_gyro cfg samples i k s ∧
        (fast_loop cfg samples k i tsum cl s).s._accum.count = s._accum.count + k ∧
        ∃ pre, (fast_loop cfg samples k i tsum cl s).s.trace = s.trace ++ pre ∧
          pre.filter is_notification = []) ∧
      (s._accum.count + k = 8 → 1 ≤ k →
        (fast_loop cfg samples k i tsum cl s).s._accum.accel = Vector3f.zero ∧
        (fast_loop cfg samples k i tsum cl s).s._accum.gyro = Vector3f.zero ∧
        (fast_loop cfg samples k i tsum cl s).s._accum.count = 0 ∧
        ∃ pre, (fast_loop cfg samples k i tsum cl s).s.trace = s.trace ++ pre ++
            [ Event.notify_new_accel_raw_sample (cfg.rotate_and_correct_accel
                ((window_accel cfg samples i k s).scale (MPU9250_ACCEL_SCALE_1G cfg / 4))) false,
              Event.notify_new_gyro_raw_sample (cfg.rotate_and_correct_gyro
                ((window_gyro cfg samples i k s).scale (GYRO_SCALE / 8))) ] ∧
          pre.filter is_notification = []) := by
  induction k with
  | zero =>
    intro i tsum cl s _ _
    refine ⟨rfl, rfl, fun _ => ⟨rfl, rfl, rfl, [], by simp [fast_loop], rfl⟩, fun _ h => ?_⟩
    omega
  | succ k ih =>
    intro i tsum cl s hle hret
    cases hc : (_check_raw_temp (int16_val (List.drop (MPU_SAMPLE_SIZE * i) samples) 3) s).1
    · rw [fast_loop_fail cfg samples k i tsum cl s hc] at hret
      simp at hret
    · rw [fast_loop_pass cfg samples k i tsum cl s hc] at hret ⊢
      have frame : (_check_raw_temp (int16_val (List.drop (MPU_SAMPLE_SIZE * i) samples) 3)
          s).2._accum = s._accum :=
        (check_raw_temp_frame _ s).1
      obtain ⟨e1, ht1, hf1⟩ := check_raw_temp_no_notification
        (int16_val (List.drop (MPU_SAMPLE_SIZE * i) samples) 3) s
      obtain ⟨w1, w2, w3, w4⟩ := fast_sample_window cfg samples i cl
        (_check_raw_temp (int16_val (List.drop (MPU_SAMPLE_SIZE * i) samples) 3) s).2
        (by rw [frame]; omega)
      obtain ⟨wc1, wc2⟩ := window_congr cfg samples i 1
        (_check_raw_temp (int16_val (List.drop (MPU_SAMPLE_SIZE * i) samples) 3) s).2 s frame
      rw [frame] at w1 w2 w3 w4
      rw [wc1, wc2] at w3 w4
      by_cases h8 : s._accum.count + 1 = 8
      · have hk : k = 0 := by omega
        subst hk
        obtain ⟨b1, b2, b3, b4⟩ := w4 h8
        have hl : ∀ (t : Int) (c : Bool) (x : State),
            fast_loop cfg samples 0 (i + 1) t c x = ⟨true, t, c, x⟩ := by
          intro t c x
          simp [fast_loop]
        rw [hl]
        refine ⟨w1, w2, fun h => by omega, fun _ _ => ⟨b1, b2, b3, e1, ?_, hf1⟩⟩
        dsimp only
        rw [b4, ht1]
      · obtain ⟨a1, a2, a3, a4⟩ := w3 (by omega)
        obtain ⟨i1, i2, i3, i4⟩ := ih (i + 1)
          (tsum + int16_val (List.drop (MPU_SAMPLE_SIZE * i) samples) 3)
          (fast_sample cfg (List.drop (MPU_SAMPLE_SIZE * i) samples) cl
            (_check_raw_temp (int16_val (List.drop (MPU_SAMPLE_SIZE * i) samples) 3) s).2).1
          (fast_sample cfg (List.drop (MPU_SAMPLE_SIZE * i) samples) cl
            (_check_raw_temp (int16_val (List.drop (MPU_SAMPLE_SIZE * i) samples) 3) s).2).2
          (by rw [a3]; omega) hret
        obtain ⟨s1, s2, s3, s4⟩ := window_succ cfg samples i k s _ a1 a2 a3 w1 w2
        rw [s3] at i1
        rw [s4] at i2
        rw [s1, s2, a3, a4, ht1] at i3
        rw [s1, s2, a3, a4, ht1] at i4
        refine ⟨i1, i2, fun h => ?_, fun h hk => ?_⟩
        · obtain ⟨c1, c2, c3, pre, hp, hf⟩ := i3 (by omega)
          refine ⟨c1, c2, by omega, e1 ++ pre, ?_, ?_⟩
          · rw [hp, List.append_assoc]
          · rw [List.filter_append, hf1, hf]
            rfl
        · obtain ⟨c1, c2, c3, pre, hp, hf⟩ := i4 (by omega) (by omega)
          refine ⟨c1, c2, c3, e1 ++ pre, ?_, ?_⟩
          · rw [hp]
            simp only [List.append_assoc]
          · rw [List.filter_append, hf1, hf]
            rfl

theorem fast_loop_split (cfg : Config) (samples : List Nat) (k : Nat) :
    ∀ (m i : Nat) (tsum : Int) (cl : Bool) (s : State),
      (fast_loop cfg samples k i tsum cl s).ret = true →
      fast_loop cfg samples (k + m) i tsum cl s
        = fast_loop cfg samples m (i + k) (fast_loop cfg samples k i tsum cl s).tsum
            (fast_loop cfg samples k i tsum cl s).clipped
            (fast_loop cfg samples k i tsum cl s).s := by
  induction k with
  | zero => intro m i tsum cl s _; simp [fast_loop]
  | succ k ih =>
    intro m i tsum cl s h
    cases hc : (_check_raw_temp (int16_val (List.drop (MPU_SAMPLE_SIZE * i) samples) 3) s).1
    · rw [fast_loop_fail cfg samples k i tsum cl s hc] at h
      simp at h
    · rw [fast_loop_pass cfg samples k i tsum cl s hc] at h ⊢
      have e : k + 1 + m = (k + m) + 1 := by omega
      rw [e, fast_loop_pass cfg samples (k + m) i tsum cl s hc, ih m (i + 1) _ _ _ h]
      have e2 : i + 1 + k = i + (k + 1) := by omega
      rw [e2]

theorem accel_inputs_window (samples : List Nat) (i : Nat) :
    accel_inputs samples i 0 8
      = [raw_accel samples i, raw_accel samples (i + 2), raw_accel samples (i + 4),
         raw_accel samples (i + 6)] := by
  simp [accel_inputs, Nat.add_assoc]

theorem gyro_inputs_window (samples : List Nat) (i : Nat) :
    gyro_inputs samples i 8
      = [raw_gyro samples i, raw_gyro samples (i + 1), raw_gyro samples (i + 2),
         raw_gyro samples (i + 3), raw_gyro samples (i + 4), raw_gyro samples (i + 5),
         raw_gyro samples (i + 6), raw_gyro samples (i + 7)] := by
  simp [gyro_inputs, Nat.add_assoc]

theorem window_clipped (cfg : Config) (samples : List Nat) (i : Nat) (tsum : Int) (cl : Bool)
    (s : State) (hcount : s._accum.count = 0)
    (hok : (fast_loop cfg samples 8 i tsum cl s).ret = true) :
    (fast_loop cfg samples 8 i tsum cl s).clipped
      = (cl || record_clips cfg samples i || record_clips cfg samples (i + 2) ||
          record_clips cfg samples (i + 4) || record_clips cfg samples (i + 6)) := by
  rw [fast_loop_clipped cfg samples 8 i tsum cl s hok, hcount]
  simp [List.range_succ, Bool.or_assoc]

theorem window_values (cfg : Config) (samples : List Nat) (i : Nat) (s : State)
    (hcount : s._accum.count = 0) (hacc : s._accum.accel = Vector3f.zero)
    (hgyr : s._accum.gyro = Vector3f.zero) :
    window_accel cfg samples i 8 s
      = Vector3f.zero.sum_from (filter_outputs cfg.accel_filter_apply s._accum.accel_filter
          [raw_accel samples i, raw_accel samples (i + 2), raw_accel samples (i + 4),
           raw_accel samples (i + 6)]) ∧
    window_gyro cfg samples i 8 s
      = Vector3f.zero.sum_from (filter_outputs cfg.gyro_filter_apply s._accum.gyro_filter
          [raw_gyro samples i, raw_gyro samples (i + 1), raw_gyro samples (i + 2),
           raw_gyro samples (i + 3), raw_gyro samples (i + 4), raw_gyro samples (i + 5),
           raw_gyro samples (i + 6), raw_gyro samples (i + 7)]) := by
  rw [window_accel, window_gyro, hcount, hacc, hgyr, accel_inputs_window, gyro_inputs_window]
  exact ⟨rfl, rfl⟩

/-- C16. Downsampling window content: when the loop of
`_accumulate_fast_sampling` stands at record `i` of a block with count 0 and
cleared accumulators and accepts the 8 records `i .. i + 7`, the only
notifications it makes are, at the end of the window, one accel sample with value
`rotate ((accel scale / 4) * sum of the accel filter outputs)` over exactly the
records `i, i + 2, i + 4, i + 6` remapped as `(w1, w0, -w2)`, and one gyro sample
with value `rotate ((gyro scale / 8) * sum of the gyro filter outputs)` over all
8 records remapped as `(w5, w4, -w6)`, the filters being fed in record order from
their memory on entry; the count and both accumulators are cleared again; the
accel filter has seen the four even-count records only; and the `clipped` flag
is raised by the even-count records only.  A call on a block of 8 records makes
these two notifications, followed by the clip count when the flag is set.  The
loop over `k + m` records is the loop over `k` accepted records followed by the
loop over the next `m`, so the statement applies to a window anywhere in a block;
and a run of `k` accepted records entered with count `c`, `c + k <= 8`, adds to
the accumulators the accel filter outputs of the records meeting an even count
and the gyro filter outputs of all records, emitting exactly when `c + k = 8`. -/
theorem downsampling_window_content (cfg : Config) (samples : List Nat) (i : Nat)
    (tsum : Int) (cl : Bool) (s : State)
    (hcount : s._accum.count = 0) (hacc : s._accum.accel = Vector3f.zero)
    (hgyr : s._accum.gyro = Vector3f.zero)
    (hok : (fast_loop cfg samples 8 i tsum cl s).ret = true) :
    (∃ pre, (fast_loop cfg samples 8 i tsum cl s).s.trace = s.trace ++ pre ++
        [ Event.notify_new_accel_raw_sample (cfg.rotate_and_correct_accel
            ((Vector3f.zero.sum_from
              (filter_outputs cfg.accel_filter_apply s._accum.accel_filter
                [raw_accel samples i, raw_accel samples (i + 2), raw_accel samples (i + 4),
                 raw_accel samples (i + 6)])).scale (MPU9250_ACCEL_SCALE_1G cfg / 4))) false,
          Event.notify_new_gyro_raw_sample (cfg.rotate_and_correct_gyro
            ((Vector3f.zero.sum_from
              (filter_outputs cfg.gyro_filter_apply s._accum.gyro_filter
                [raw_gyro samples i, raw_gyro samples (i + 1), raw_gyro samples (i + 2),
                 raw_gyro samples (i + 3), raw_gyro samples (i + 4), raw_gyro samples (i + 5),
                 raw_gyro samples (i + 6), raw_gyro samples (i + 7)])).scale
              (GYRO_SCALE / 8))) ] ∧
      pre.filter is_notification = []) ∧
    (fast_loop cfg samples 8 i tsum cl s).s._accum.count = 0 ∧
    (fast_loop cfg samples 8 i tsum cl s).s._accum.accel = Vector3f.zero ∧
    (fast_loop cfg samples 8 i tsum cl s).s._accum.gyro = Vector3f.zero ∧
    (fast_loop cfg samples 8 i tsum cl s).s._accum.accel_filter
      = filter_memory cfg.accel_filter_apply s._accum.accel_filter
          [raw_accel samples i, raw_accel samples (i + 2), raw_accel samples (i + 4),
           raw_accel samples (i + 6)] ∧
    (fast_loop cfg samples 8 i tsum cl s).s._accum.gyro_filter
      = filter_memory cfg.gyro_filter_apply s._accum.gyro_filter
          [raw_gyro samples i, raw_gyro samples (i + 1), raw_gyro samples (i + 2),
           raw_gyro samples (i + 3), raw_gyro samples (i + 4), raw_gyro samples (i + 5),
           raw_gyro samples (i + 6), raw_gyro samples (i + 7)] ∧
    (fast_loop cfg samples 8 i tsum cl s).clipped
      = (cl || record_clips cfg samples i || record_clips cfg samples (i + 2) ||
          record_clips cfg samples (i + 4) || record_clips cfg samples (i + 6)) ∧
    ((_accumulate_fast_sampling cfg samples 8 s).1 = true →
      ∃ pre, (_accumulate_fast_sampling cfg samples 8 s).2.trace = s.trace ++ pre ++
          [ Event.notify_new_accel_raw_sample (cfg.rotate_and_correct_accel
              ((Vector3f.zero.sum_from
                (filter_outputs cfg.accel_filter_apply s._accum.accel_filter
                  [raw_accel samples 0, raw_accel samples 2, raw_accel samples 4,
                   raw_accel samples 6])).scale (MPU9250_ACCEL_SCALE_1G cfg / 4))) false,
            Event.notify_new_gyro_raw_sample (cfg.rotate_and_correct_gyro
              ((Vector3f.zero.sum_from
                (filter_outputs cfg.gyro_filter_apply s._accum.gyro_filter
                  [raw_gyro samples 0, raw_gyro samples 1, raw_gyro samples 2,
                   raw_gyro samples 3, raw_gyro samples 4, raw_gyro samples 5,
                   raw_gyro samples 6, raw_gyro samples 7])).scale (GYRO_SCALE / 8))) ] ++
          (if record_clips cfg samples 0 || record_clips cfg samples 2 ||
              record_clips cfg samples 4 || record_clips cfg samples 6
            then [Event.increment_clip_count] else []) ∧
        pre.filter is_notification = []) ∧
    (∀ (k m j : Nat) (t : Int) (c : Bool) (x : State),
      (fast_loop cfg samples k j t c x).ret = true →
      fast_loop cfg samples (k + m) j t c x
        = fast_loop cfg samples m (j + k) (fast_loop cfg samples k j t c x).tsum
            (fast_loop cfg samples k j t c x).clipped (fast_loop cfg samples k j t c x).s) ∧
    (∀ (k j : Nat) (t : Int) (c : Bool) (x : State), x._accum.count + k ≤ 8 →
      (fast_loop cfg samples k j t c x).ret = true →
      (fast_loop cfg samples k j t c x).s._accum.accel_filter
        = filter_memory cfg.accel_filter_apply x._accum.accel_filter
            (accel_inputs samples j x._accum.count k) ∧
      (fast_loop cfg samples k j t c x).s._accum.gyro_filter
        = filter_memory cfg.gyro_filter_apply x._accum.gyro_filter (gyro_inputs samples j k) ∧
      (x._accum.count + k < 8 →
        (fast_loop cfg samples k j t c x).s._accum.accel = window_accel cfg samples j k x ∧
        (fast_loop cfg samples k j t c x).s._accum.gyro = window_gyro cfg samples j k x ∧
        (fast_loop cfg samples k j t c x).s._accum.count = x._accum.count + k ∧
        ∃ pre, (fast_loop cfg samples k j t c x).s.trace = x.trace ++ pre ∧
          pre.filter is_notification = []) ∧
      (x._accum.count + k = 8 → 1 ≤ k →
        (fast_loop cfg samples k j t c x).s._accum.accel = Vector3f.zero ∧
        (fast_loop cfg samples k j t c x).s._accum.gyro = Vector3f.zero ∧
        (fast_loop cfg samples k j t c x).s._accum.count = 0 ∧
        ∃ pre, (fast_loop cfg samples k j t c x).s.trace = x.trace ++ pre ++
            [ Event.notify_new_accel_raw_sample (cfg.rotate_and_correct_accel
                ((window_accel cfg samples j k x).scale (MPU9250_ACCEL_SCALE_1G cfg / 4))) false,
              Event.notify_new_gyro_raw_sample (cfg.rotate_and_correct_gyro
                ((window_gyro cfg samples j k x).scale (GYRO_SCALE / 8))) ] ∧
          pre.filter is_notification = [])) := by
  have hwin : ∀ (j : Nat) (t : Int) (c : Bool),
      (fast_loop cfg samples 8 j t c s).ret = true →
      (∃ pre, (fast_loop cfg samples 8 j t c s).s.trace = s.trace ++ pre ++
          [ Event.notify_new_accel_raw_sample (cfg.rotate_and_correct_accel
              ((Vector3f.zero.sum_from
                (filter_outputs cfg.accel_filter_apply s._accum.accel_filter
                  [raw_accel samples j, raw_accel samples (j + 2), raw_accel samples (j + 4),
                   raw_accel samples (j + 6)])).scale (MPU9250_ACCEL_SCALE_1G cfg / 4))) false,
            Event.notify_new_gyro_raw_sample (cfg.rotate_and_correct_gyro
              ((Vector3f.zero.sum_from
                (filter_outputs cfg.gyro_filter_apply s._accum.gyro_filter
                  [raw_gyro samples j, raw_gyro samples (j + 1), raw_gyro samples (j + 2),
                   raw_gyro samples (j + 3), raw_gyro samples (j + 4), raw_gyro samples (j + 5),
                   raw_gyro samples (j + 6), raw_gyro samples (j + 7)])).scale
                (GYRO_SCALE / 8))) ] ∧
        pre.filter is_notification = []) ∧
      (fast_loop cfg samples 8 j t c s).s._accum.count = 0 ∧
      (fast_loop cfg samples 8 j t c s).s._accum.accel = Vector3f.zero ∧
      (fast_loop cfg samples 8 j t c s).s._accum.gyro = Vector3f.zero ∧
      (fast_loop cfg samples 8 j t c s).s._accum.accel_filter
        = filter_memory cfg.accel_filter_apply s._accum.accel_filter
            [raw_accel samples j, raw_accel samples (j + 2), raw_accel samples (j + 4),
             raw_accel samples (j + 6)] ∧
      (fast_loop cfg samples 8 j t c s).s._accum.gyro_filter
        = filter_memory cfg.gyro_filter_apply s._accum.gyro_filter
            [raw_gyro samples j, raw_gyro samples (j + 1), raw_gyro samples (j + 2),
             raw_gyro samples (j + 3), raw_gyro samples (j + 4), raw_gyro samples (j + 5),
             raw_gyro samples (j + 6), raw_gyro samples (j + 7)] := by
    intro j t c hr
    obtain ⟨v1, v2⟩ := window_values cfg samples j s hcount hacc hgyr
    obtain ⟨w1, w2, -, w4⟩ := fast_loop_window cfg samples 8 j t c s (by omega) hr
    obtain ⟨b1, b2, b3, pre, hp, hf⟩ := w4 (by omega) (by omega)
    rw [hcount, accel_inputs_window] at w1
    rw [gyro_inputs_window] at w2
    rw [v1, v2] at hp
    exact ⟨⟨pre, hp, hf⟩, b3, b1, b2, w1, w2⟩
  obtain ⟨h1, h2, h3, h4, h5, h6⟩ := hwin i tsum cl hok
  refine ⟨h1, h2, h3, h4, h5, h6, window_clipped cfg samples i tsum cl s hcount hok, ?_,
    fun k m j t c x h => fast_loop_split cfg samples k m j t c x h,
    fun k j t c x hle h => fast_loop_window cfg samples k j t c x hle h⟩
  intro hcall
  obtain ⟨u1, -, u3⟩ := fast_sampling_unfold cfg samples 8 s
  rw [u1] at hcall
  obtain ⟨⟨pre, hp, hf⟩, -⟩ := hwin 0 0 false hcall
  have hcl := window_clipped cfg samples 0 0 false s hcount hcall
  refine ⟨pre, ?_, hf⟩
  rw [u3, hcl, hp]
  simp

theorem downsampling_window_content_witness :
    (sample_state [])._accum.count = 0 ∧
    (sample_state [])._accum.accel = Vector3f.zero ∧
    (sample_state [])._accum.gyro = Vector3f.zero ∧
    (fast_loop (sample_config .BUS_TYPE_SPI true) (List.replicate (MPU_SAMPLE_SIZE * 8) 0)
      8 0 0 false (sample_state [])).ret = true ∧
    (fast_loop (sample_config .BUS_TYPE_SPI true) (List.replicate (MPU_SAMPLE_SIZE * 8) 0)
      8 0 0 false (sample_state [])).s._accum.count = 0 :=
  ⟨rfl, rfl, rfl, by decide,
    (downsampling_window_content (sample_config .BUS_TYPE_SPI true)
      (List.replicate (MPU_SAMPLE_SIZE * 8) 0) 0 0 false (sample_state [])
      rfl rfl rfl (by decide)).2.1⟩

end MPU9250
